import Mathlib

/-!
# pagerduty-prometheus-exporter: webhook ingestion, collection scheduling and collectors

A shallow embedding of the webhook handler
(`cmd/pagerduty-prometheus-exporter/cmd/httphandler/webhook.go`), the incident
metrics listener (`internal/collector/webhook/incident_metrics_listener.go`),
the instrumented collector (`internal/collector/graceful_collector_with_metrics.go`),
the periodic scheduler (`internal/collector/periodic_collector.go`), the
analytics report (`internal/pagerduty/analytics.go`), the service analytics
collector (`internal/collector/service_analytics_collector.go`), the users
collector (`internal/collector/users_collector.go`) and the collector wiring
(`cmd/pagerduty-prometheus-exporter/cmd/cmd.go`).

Go strings are modelled by `String`, byte slices by lists of bytes, a nil slice
or nil error by `none`.  Library capabilities the webhook code calls
(HMAC-SHA256, the JSON codec, time formatting) are parameters of the
definitions that use them.  The metrics registry is modelled by the names it
holds, a panic by the `panicked` case of an outcome, and the two renderings of
library `time` the collectors rely on (`Time.Format` with the report layout and
`Duration.String`) by functions following the library algorithms.  The
scheduler is a step machine over schedules in which a tick may arrive at any
step; the run under a clock admits a tick only when the ticker made by
`time.NewTicker(c.collectInterval)` has one waiting.
-/

namespace PagerdutyExporter

/-! ## Bytes, hex encoding and splitting -/

/-- One octet. -/
abbrev Byte := Fin 256

/-- A Go byte slice that is not nil. -/
abbrev Bytes := List Byte

/-- The digit table of `encoding/hex`. -/
def hextable : List Char := "0123456789abcdef".data

/-- Digit `n` of `hextable` (`n` is always below 16 at the call sites). -/
def hexDigit (n : Nat) : Char := hextable.getD n '0'

/-- Model of `hex.EncodeToString`: two lowercase digits per byte, high nibble first. -/
def hexEncode : Bytes → List Char
  | [] => []
  | b :: bs => hexDigit (b.val / 16) :: hexDigit (b.val % 16) :: hexEncode bs

/-- Model of `strings.Split(s, sep)` for a one-character separator, on the
characters of the string: the pieces between the separators, in order; the
empty input gives one empty piece. -/
def splitChars (sep : Char) : List Char → List (List Char)
  | [] => [[]]
  | c :: cs =>
    if c = sep then [] :: splitChars sep cs
    else
      match splitChars sep cs with
      | [] => [[c]]
      | p :: ps => (c :: p) :: ps

/-- Model of `strings.Split(s, ",")`. -/
def stringsSplit (s : String) (sep : Char) : List String :=
  (splitChars sep s.data).map String.mk

/-- Joins pieces with a one-character separator (`strings.Join`), on characters. -/
def joinChars (sep : Char) : List (List Char) → List Char
  | [] => []
  | [p] => p
  | p :: q :: ps => p ++ sep :: joinChars sep (q :: ps)

/-- Model of `strings.Join(parts, ",")`. -/
def stringsJoin (parts : List String) (sep : Char) : String :=
  String.mk (joinChars sep (parts.map String.data))

/-! ## Webhook signature verification (`httphandler/webhook.go`) -/

/-- A non-nil Go `error` value, identified by its message. -/
structure GoError where
  msg : String
  deriving DecidableEq, Repr

/-- The package variable `errInvalidSignature = errors.New("invalid signature")`. -/
def errInvalidSignature : GoError := ⟨"invalid signature"⟩

/-- The `X-PagerDuty-Signature` values of a request, as `http.Header` stores
them: the list of values recorded for the key (empty when the header is absent). -/
abbrev HeaderValues := List String

/-- Model of `http.Header.Get`: the first value of the key, `""` when absent. -/
def headerGet (h : HeaderValues) : String :=
  match h with
  | [] => ""
  | v :: _ => v

/-- The value `fmt.Sprintf("v1=%s", hex.EncodeToString(mac.Sum(nil)))`, where
`hmacSHA256 key msg` stands for the digest of `hmac.New(sha256.New, key)` fed `msg`. -/
def expSignature (hmacSHA256 : Bytes → Bytes → Bytes) (secret reqPayload : Bytes) : String :=
  "v1=" ++ String.mk (hexEncode (hmacSHA256 secret reqPayload))

/-- The loop `for _, sign := range signatures { if sign == expSignature { return nil } }`:
`true` when some candidate equals the expected signature. -/
def anySignatureMatches (expected : String) : List String → Bool
  | [] => false
  | sign :: rest => if sign = expected then true else anySignatureMatches expected rest

/-- `WebhookHandler.verifySignature`: `none` is the nil error. -/
def verifySignature (hmacSHA256 : Bytes → Bytes → Bytes) (signatureSecret : Option Bytes)
    (reqPayload : Bytes) (header : HeaderValues) : Option GoError :=
  match signatureSecret with
  | none => none
  | some secret =>
    let expected := expSignature hmacSHA256 secret reqPayload
    let signature := headerGet header
    if signature = "" then some errInvalidSignature
    else
      let signatures := stringsSplit signature ','
      if anySignatureMatches expected signatures then none
      else some errInvalidSignature

/-! ## Webhook payloads (`internal/pagerduty/webhook.go`) -/

/-- The Go type `WebhookEventType string`. -/
abbrev WebhookEventType := String

def IncidentAcknowledgedEventType : WebhookEventType := "incident.acknowledged"
def IncidentAnnotatedEventType : WebhookEventType := "incident.annotated"
def IncidentDelegatedEventType : WebhookEventType := "incident.delegated"
def IncidentEscalatedEventType : WebhookEventType := "incident.escalated"
def IncidentPriorityUpdatedEventType : WebhookEventType := "incident.priority_updated"
def IncidentReassignedEventType : WebhookEventType := "incident.reassigned"
def IncidentReopenedEventType : WebhookEventType := "incident.reopened"
def IncidentResolvedEventType : WebhookEventType := "incident.resolved"
def IncidentResponderAddedEventType : WebhookEventType := "incident.responder.added"
def IncidentResponderRepliedEventType : WebhookEventType := "incident.responder.replied"
def IncidentTriggeredEventType : WebhookEventType := "incident.triggered"
def IncidentUnacknowledgedEventType : WebhookEventType := "incident.unacknowledged"

/-- A decoded JSON document, as `json.Unmarshal` stores it in an `interface{}`. -/
inductive JSONValue where
  | null
  | bool (b : Bool)
  | number (literal : String)
  | string (s : String)
  | array (items : List JSONValue)
  | object (fields : List (String × JSONValue))

/-- An instant (`time.Time`), as nanoseconds since the epoch. -/
abbrev Time := Int

/-- The library type `pagerduty.APIObject`. -/
structure APIObject where
  ID : String := ""
  Type_ : String := ""
  Summary : String := ""
  Self : String := ""
  HTMLURL : String := ""
  deriving DecidableEq, Repr

/-- The library type `pagerduty.ConferenceBridge`. -/
structure ConferenceBridge where
  ConferenceNumber : String := ""
  ConferenceURL : String := ""
  deriving DecidableEq, Repr

structure WebhookV3Client where
  Name : String := ""
  deriving DecidableEq, Repr

structure WebhookV3Event where
  ID : String := ""
  EventType : WebhookEventType := ""
  ResourceType : String := ""
  OccurredAt : Time := 0
  Agent : APIObject := {}
  Client : WebhookV3Client := {}
  Data : JSONValue := JSONValue.null

structure WebhookV3 where
  Event : WebhookV3Event := {}

structure WebhookV3Incident where
  Number : Nat := 0
  Title : String := ""
  Type_ : String := ""
  Self : String := ""
  HTMLURL : String := ""
  Service : APIObject := {}
  Assignees : List APIObject := []
  EscalationPolicy : APIObject := {}
  Teams : List APIObject := []
  Priority : APIObject := {}
  Urgency : String := ""
  Status : String := ""
  Id : String := ""
  ConferenceBridge : ConferenceBridge := {}
  deriving DecidableEq, Repr

/-- The library capabilities the webhook path calls.  `none` stands for a
returned error. -/
structure Library where
  /-- Digest of `hmac.New(sha256.New, key)` after `Write(msg)`. -/
  hmacSHA256 : Bytes → Bytes → Bytes
  /-- The call `json.Unmarshal(rb, &webhookV3)`. -/
  unmarshalWebhook : Bytes → Option WebhookV3
  /-- The call `json.Marshal(event.Data)`. -/
  marshalData : JSONValue → Except GoError Bytes
  /-- The call `json.Unmarshal(jsonData, &incident)`. -/
  unmarshalIncident : Bytes → Option WebhookV3Incident
  /-- The call `t.Format(layout)`. -/
  formatTime : Time → String → String

/-! ## Incident metrics listener (`internal/collector/webhook/incident_metrics_listener.go`) -/

/-- One `Set(value)` on the series of gauge vector `metric` selected by `labels`. -/
structure Observation where
  metric : String
  labels : List (String × String)
  value : Int
  deriving DecidableEq, Repr

/-- Value of label `name` in an observation (`""` when the label is not set). -/
def Observation.label (o : Observation) (name : String) : String :=
  match o.labels.lookup name with
  | some v => v
  | none => ""

/-- Model of `errors.Wrap(err, message)`. -/
def errorsWrap (err : GoError) (message : String) : GoError :=
  ⟨message ++ ": " ++ err.msg⟩

/-- What a listener call leaves behind: the returned error and the gauge
observations it made, in order. -/
structure ListenerResult where
  err : Option GoError
  observations : List Observation

structure IncidentMetricsListener where
  dtFormat : String

/-- The observation `l.incidentEventGauge.With(...).Set(1)`. -/
def incidentObservation (eventType : WebhookEventType) (incident : WebhookV3Incident)
    (occurredAtFormatted : String) : Observation :=
  { metric := "pagerduty_incident_event"
    labels := [
      ("incident_id", incident.Id),
      ("type", incident.Type_),
      ("status", incident.Status),
      ("event_type", eventType),
      ("title", incident.Title),
      ("service_id", incident.Service.ID),
      ("service_summary", incident.Service.Summary),
      ("escalation_policy_id", incident.EscalationPolicy.ID),
      ("urgency", incident.Urgency),
      ("priority_id", incident.Priority.ID),
      ("dt", occurredAtFormatted)]
    value := 1 }

/-- The observation `l.incidentEventAssignees.With(...).Set(1)` of one assignee. -/
def assigneeObservation (eventType : WebhookEventType) (incident : WebhookV3Incident)
    (occurredAtFormatted : String) (assignee : APIObject) : Observation :=
  { metric := "pagerduty_incident_event_assignees"
    labels := [
      ("incident_id", incident.Id),
      ("event_type", eventType),
      ("assignee_id", assignee.ID),
      ("assignee_summary", assignee.Summary),
      ("dt", occurredAtFormatted)]
    value := 1 }

/-- The observation `l.incidentEventTeams.With(...).Set(1)` of one team. -/
def teamObservation (eventType : WebhookEventType) (incident : WebhookV3Incident)
    (occurredAtFormatted : String) (team : APIObject) : Observation :=
  { metric := "pagerduty_incident_event_teams"
    labels := [
      ("incident_id", incident.Id),
      ("event_type", eventType),
      ("team_id", team.ID),
      ("team_summary", team.Summary),
      ("dt", occurredAtFormatted)]
    value := 1 }

/-- `IncidentMetricsListener.collectIncidentInfo`. -/
def IncidentMetricsListener.collectIncidentInfo (lib : Library) (l : IncidentMetricsListener)
    (event : WebhookV3Event) : ListenerResult :=
  match lib.marshalData event.Data with
  | .error err => ⟨some (errorsWrap err "marshal event data"), []⟩
  | .ok jsonData =>
    match lib.unmarshalIncident jsonData with
    | none => ⟨some ⟨"incident data must be with type popagerduty.Incident"⟩, []⟩
    | some incident =>
      let occurredAtFormatted := lib.formatTime event.OccurredAt l.dtFormat
      ⟨none,
        incidentObservation event.EventType incident occurredAtFormatted
          :: (incident.Assignees.map (assigneeObservation event.EventType incident occurredAtFormatted)
            ++ incident.Teams.map (teamObservation event.EventType incident occurredAtFormatted))⟩

/-- The event types of the `case` list in `IncidentEventTriggered`. -/
def collectedEventTypes : List WebhookEventType :=
  [ IncidentTriggeredEventType,
    IncidentAcknowledgedEventType,
    IncidentUnacknowledgedEventType,
    IncidentReassignedEventType,
    IncidentPriorityUpdatedEventType,
    IncidentDelegatedEventType,
    IncidentEscalatedEventType,
    IncidentReopenedEventType,
    IncidentResolvedEventType ]

/-- `IncidentMetricsListener.IncidentEventTriggered`. -/
def IncidentMetricsListener.IncidentEventTriggered (lib : Library) (l : IncidentMetricsListener)
    (event : WebhookV3Event) : ListenerResult :=
  if event.EventType ∈ collectedEventTypes then l.collectIncidentInfo lib event
  else ⟨none, []⟩

/-- `NewIncidentMetricsListener` (the registration of the three gauge vectors
is not part of the listener's state here). -/
def NewIncidentMetricsListener (dtFormat : String) : IncidentMetricsListener :=
  { dtFormat := dtFormat }

/-! ## Webhook handler (`httphandler/webhook.go`) -/

def StatusOK : Nat := 200
def StatusBadRequest : Nat := 400
def StatusForbidden : Nat := 403
def StatusInternalServerError : Nat := 500

/-- What the handler does to the outside, in order (debug logging is left out). -/
inductive Effect where
  /-- The call `w.WriteHeader(statusCode)`. -/
  | writeHeader (statusCode : Nat)
  /-- The call `r.Body.Close()`. -/
  | bodyClose
  /-- The call `json.Unmarshal(rb, &webhookV3)`. -/
  | unmarshalBody
  /-- The call `h.incidentListener.IncidentEventTriggered(event)`. -/
  | listenerCall (event : WebhookV3Event)
  /-- A gauge observation made inside the listener call. -/
  | observe (o : Observation)
  /-- The call `h.logger.Error(msg, ...)`. -/
  | logError (msg : String)

/-- The parts of an inbound `*http.Request` the handler reads. -/
structure Request where
  /-- Outcome of `ioutil.ReadAll(r.Body)`. -/
  body : Except GoError Bytes
  /-- Outcome of `r.Body.Close()`. -/
  bodyCloseErr : Option GoError := none
  /-- Values of the `X-PagerDuty-Signature` header. -/
  signatureHeader : HeaderValues := []

/-- The interface `IncidentListener`. -/
abbrev IncidentListener := WebhookV3Event → ListenerResult

structure WebhookHandler where
  incidentListener : IncidentListener
  /-- The field `signatureSecret []byte`; `none` is the nil slice. -/
  signatureSecret : Option Bytes

def NewWebhookHandler (incidentListener : IncidentListener) (signatureSecret : Option Bytes) :
    WebhookHandler :=
  { incidentListener := incidentListener, signatureSecret := signatureSecret }

/-- `WebhookHandler.incidentWebhookV3`: the trace of effects of serving one request. -/
def WebhookHandler.incidentWebhookV3 (lib : Library) (h : WebhookHandler) (r : Request) :
    List Effect :=
  match r.body with
  | .error _ => [Effect.writeHeader StatusBadRequest]
  | .ok rb =>
    match verifySignature lib.hmacSHA256 h.signatureSecret rb r.signatureHeader with
    | some _ => [Effect.writeHeader StatusForbidden]
    | none =>
      let closeLog :=
        match r.bodyCloseErr with
        | some _ => [Effect.logError "body close error"]
        | none => []
      Effect.bodyClose :: closeLog ++ Effect.unmarshalBody ::
        match lib.unmarshalWebhook rb with
        | none => [Effect.logError "unmarshal webhook", Effect.writeHeader StatusBadRequest]
        | some webhookV3 =>
          let res := h.incidentListener webhookV3.Event
          Effect.listenerCall webhookV3.Event :: res.observations.map Effect.observe ++
            match res.err with
            | some _ => [Effect.logError "handle webhook", Effect.writeHeader StatusInternalServerError]
            | none => [Effect.writeHeader StatusOK]

/-- The status codes written, in order. -/
def statusCodes : List Effect → List Nat
  | [] => []
  | Effect.writeHeader c :: es => c :: statusCodes es
  | _ :: es => statusCodes es

/-- The events handed to the listener, in order. -/
def listenerCalls : List Effect → List WebhookV3Event
  | [] => []
  | Effect.listenerCall ev :: es => ev :: listenerCalls es
  | _ :: es => listenerCalls es

/-- The gauge observations made, in order. -/
def observations : List Effect → List Observation
  | [] => []
  | Effect.observe o :: es => o :: observations es
  | _ :: es => observations es

/-- Number of body decoding attempts. -/
def unmarshalCount : List Effect → Nat
  | [] => 0
  | Effect.unmarshalBody :: es => unmarshalCount es + 1
  | _ :: es => unmarshalCount es

/-! ## Wiring (`cmd/pagerduty-prometheus-exporter/cmd/cmd.go`) -/

/-- A `time.Duration`, in nanoseconds. -/
abbrev Duration := Int

def Second : Duration := 1000000000
def Minute : Duration := 60 * Second
def Hour : Duration := 60 * Minute

/-- The struct `options`; the defaults are those of the command-line flags. -/
structure Options where
  MetricsSrvPort : Int := 9100
  WebhookSrvPort : Int := 8080
  IncidentWebhookSignatureSecret : String := ""
  IncidentWebhookPath : String := "/v1/incidents"
  MetricsPrefix : String := ""
  AnalyticsScrapeInterval : Duration := Minute
  AnalyticsReportPeriods : List Duration := [Hour * 24 * 90]
  AnalyticsServiceMetricNames : List String :=
    ["total_escalation_count", "total_incident_count", "mean_seconds_to_resolve",
      "mean_seconds_to_first_ack", "up_time_pct"]
  UsersScrapeInterval : Duration := 5 * Minute
  DTFormat : String := "2006-01-02T15:04:05Z07:00"
  PagerdutyAuthToken : String := ""
  Debug : Bool := false

/-- The conversion `[]byte(s)`: the UTF-8 bytes of the string, in a slice that
is never nil. -/
def bytesOfString (s : String) : Bytes :=
  (s.data.flatMap String.utf8EncodeChar).map (fun b => Fin.ofNat b.toNat)

/-- `setupWebhookHTTPHandler`, as the function serving a POST on the incident
webhook path (the router, the metrics middleware and the recovery wrapper hand
the request through unchanged). -/
def setupWebhookHTTPHandler (lib : Library) (opts : Options) : Request → List Effect :=
  let incidentListener := NewIncidentMetricsListener opts.DTFormat
  let webhookHandler := NewWebhookHandler (incidentListener.IncidentEventTriggered lib)
    (some (bytesOfString opts.IncidentWebhookSignatureSecret))
  webhookHandler.incidentWebhookV3 lib

/-! ## Collectors (`internal/collector/collector.go`) -/

/-- A `context.Context` as a collector sees it when called: cancelled or not. -/
structure Context where
  cancelled : Bool
  deriving DecidableEq, Repr

/-- The interface `collector.Interface`: `Collect(ctx) error`, acting on a
world of type `σ`; `none` is the nil error. -/
abbrev Interface (σ : Type) := Context → σ → Option GoError × σ

/-! ## Instrumented collector (`internal/collector/graceful_collector_with_metrics.go`) -/

/-- What `GracefulCollectorWithMetrics.Collect` does to the metric sink, the
logger and the wrapped collector. -/
inductive CollectEffect where
  /-- The call `c.collectionsCounter.Inc()` on the series of `collectorName`. -/
  | collectionsInc (collectorName : String)
  /-- The call `c.collectionErrorsCounter.Inc()` on the series of `collectorName`. -/
  | errorsInc (collectorName : String)
  /-- The call `c.collectionLatencyHistogram.Observe(time.Since(t).Seconds())`. -/
  | latencyObserve (collectorName : String) (elapsed : Duration)
  /-- The call `c.collector.Collect(ctx)` and what it returned. -/
  | innerCollect (collectorName : String) (err : Option GoError)
  /-- A `c.logger.Debug` line. -/
  | logDebug (msg : String) (collectorName : String)
  /-- The `c.logger.Error("collection failed", ...)` line. -/
  | logError (msg : String) (err : GoError) (collectorName : String)
  deriving DecidableEq, Repr

/-- The world of an instrumented collector: the world of the wrapped collector
and the effects recorded so far (oldest first). -/
structure Instrumented (σ : Type) where
  inner : σ
  effects : List CollectEffect

structure GracefulCollectorWithMetrics (σ : Type) where
  collectorName : String
  collector : Interface σ

def NewGracefulCollectorWithMetrics {σ : Type} (collectorName : String) (collector : Interface σ) :
    GracefulCollectorWithMetrics σ :=
  { collectorName := collectorName, collector := collector }

/-- `GracefulCollectorWithMetrics.Collect`; `now` reads the clock of the world
(`time.Now()`).  The deferred latency observation is the last effect of a call. -/
def GracefulCollectorWithMetrics.Collect {σ : Type} (now : σ → Time)
    (c : GracefulCollectorWithMetrics σ) : Interface (Instrumented σ) :=
  fun ctx w =>
    let t := now w.inner
    let res := c.collector ctx w.inner
    let before := [CollectEffect.collectionsInc c.collectorName,
      CollectEffect.logDebug "collection start" c.collectorName,
      CollectEffect.innerCollect c.collectorName res.1]
    let deferred := [CollectEffect.latencyObserve c.collectorName (now res.2 - t)]
    match res.1 with
    | none =>
      (none, { inner := res.2
               effects := w.effects ++ before ++
                 [CollectEffect.logDebug "collection finished" c.collectorName] ++ deferred })
    | some err =>
      (none, { inner := res.2
               effects := w.effects ++ before ++
                 [CollectEffect.errorsInc c.collectorName,
                  CollectEffect.logError "collection failed" err c.collectorName] ++ deferred })

/-- Value of the attempt counter of `name`: the number of its `Inc` calls. -/
def collectionsCount (name : String) (effects : List CollectEffect) : Nat :=
  effects.count (CollectEffect.collectionsInc name)

/-- Value of the error counter of `name`: the number of its `Inc` calls. -/
def errorsCount (name : String) (effects : List CollectEffect) : Nat :=
  effects.count (CollectEffect.errorsInc name)

/-- Number of latency observations recorded for `name`. -/
def latencyObservations (name : String) (effects : List CollectEffect) : Nat :=
  effects.countP fun e =>
    match e with
    | CollectEffect.latencyObserve n _ => decide (n = name)
    | _ => false

/-- Number of calls of the collector wrapped under `name`. -/
def innerCalls (name : String) (effects : List CollectEffect) : Nat :=
  effects.countP fun e =>
    match e with
    | CollectEffect.innerCollect n _ => decide (n = name)
    | _ => false

/-- The world after one call of `Collect` per context of the list, in order. -/
def GracefulCollectorWithMetrics.collectMany {σ : Type} (now : σ → Time)
    (c : GracefulCollectorWithMetrics σ) (w : Instrumented σ) : List Context → Instrumented σ
  | [] => w
  | ctx :: rest => collectMany now c (c.Collect now ctx w).2 rest

/-- The world after calling a collector once per context of the list, in order. -/
def runCollector {σ : Type} (collector : Interface σ) (s : σ) : List Context → σ
  | [] => s
  | ctx :: rest => runCollector collector (collector ctx s).2 rest

/-- How many of those calls return an error. -/
def failedCalls {σ : Type} (collector : Interface σ) (s : σ) : List Context → Nat
  | [] => 0
  | ctx :: rest =>
    (if (collector ctx s).1 = none then 0 else 1) + failedCalls collector (collector ctx s).2 rest

/-! ## Periodic scheduler (`internal/collector/periodic_collector.go`) -/

structure PeriodicCollector (σ : Type) where
  collectInterval : Duration
  collectors : List (Interface σ)

/-- Where the goroutine started by `eg.Go` for one collector stands. -/
inductive GoroutineStatus where
  /-- Started, its first `collector.Collect(ctx)` has not returned yet. -/
  | starting
  /-- Blocked in the `select` of the timer loop. -/
  | looping
  /-- The function passed to `eg.Go` has returned `err`. -/
  | returned (err : Option GoError)
  deriving DecidableEq, Repr

/-- The `select` case a goroutine takes. -/
inductive SelectCase where
  /-- The case `<-gCtx.Done()`. -/
  | done
  /-- The case `<-ticker.C`. -/
  | tick
  deriving DecidableEq, Repr

/-- One scheduling step of a run of `PeriodicCollector.Collect`. -/
inductive Step where
  /-- The caller cancels `ctx`. -/
  | cancel
  /-- Goroutine `i` advances to its next blocking point; inside the loop it
  takes the `select` case `sel`. -/
  | run (i : Nat) (sel : SelectCase)
  deriving DecidableEq, Repr

/-- What the goroutines did, in order. -/
inductive LoopEvent where
  /-- Goroutine `i` called `collector.Collect(ctx)`, which returned `err`. -/
  | invoked (i : Nat) (err : Option GoError)
  /-- Goroutine `i` received from `ticker.C`. -/
  | tickReceived (i : Nat)
  /-- Goroutine `i` received from `gCtx.Done()`. -/
  | doneObserved (i : Nat)
  /-- The call `time.NewTicker(c.collectInterval)` of goroutine `i` panicked
  (the interval is not positive). -/
  | tickerPanic (i : Nat)
  deriving DecidableEq, Repr

/-- State of a run of `PeriodicCollector.Collect`. -/
structure RunState (σ : Type) where
  world : σ
  status : Nat → GoroutineStatus
  /-- The error kept by the errgroup: the first non-nil error a goroutine returned. -/
  groupErr : Option GoError
  /-- Whether `ctx` is cancelled. -/
  ctxCancelled : Bool
  /-- Whether the errgroup has cancelled `gCtx` (on the first returned error). -/
  groupCancelled : Bool
  /-- Whether the process has died of a panic in a goroutine. -/
  crashed : Bool
  trace : List LoopEvent

/-- The derived context `gCtx` is done when `ctx` is cancelled or the group
cancelled it. -/
def RunState.gCtxDone {σ : Type} (st : RunState σ) : Bool :=
  st.ctxCancelled || st.groupCancelled

/-- State right after the `for` loop of `Collect` has started every goroutine. -/
def RunState.init {σ : Type} (w : σ) : RunState σ :=
  { world := w, status := fun _ => GoroutineStatus.starting, groupErr := none,
    ctxCancelled := false, groupCancelled := false, crashed := false, trace := [] }

/-- Goroutine `i` calls `collector.Collect(ctx)`; on an error the goroutine
returns it and the errgroup keeps the first such error and cancels `gCtx`; on
success the goroutine goes on to `next`. -/
def RunState.invoke {σ : Type} (st : RunState σ) (collector : Interface σ) (i : Nat)
    (next : RunState σ → RunState σ) : RunState σ :=
  let res := collector { cancelled := st.ctxCancelled } st.world
  let st1 : RunState σ :=
    { st with world := res.2, trace := st.trace ++ [LoopEvent.invoked i res.1] }
  match res.1 with
  | some err =>
    { st1 with
      status := Function.update st1.status i (GoroutineStatus.returned (some err))
      groupErr := match st1.groupErr with
        | none => some err
        | some first => some first
      groupCancelled := true }
  | none => next st1

/-- The body of the function passed to `eg.Go`, advanced by one step. -/
def PeriodicCollector.step {σ : Type} (pc : PeriodicCollector σ) (st : RunState σ) :
    Step → RunState σ
  | Step.cancel => if st.crashed then st else { st with ctxCancelled := true }
  | Step.run i sel =>
    if st.crashed then st
    else
      match pc.collectors[i]? with
      | none => st
      | some collector =>
        match st.status i with
        | GoroutineStatus.starting =>
          st.invoke collector i fun st1 =>
            if pc.collectInterval ≤ 0 then
              { st1 with crashed := true, trace := st1.trace ++ [LoopEvent.tickerPanic i] }
            else { st1 with status := Function.update st1.status i GoroutineStatus.looping }
        | GoroutineStatus.looping =>
          match sel with
          | SelectCase.done =>
            if st.gCtxDone then
              { st with
                status := Function.update st.status i (GoroutineStatus.returned none)
                trace := st.trace ++ [LoopEvent.doneObserved i] }
            else st
          | SelectCase.tick =>
            RunState.invoke { st with trace := st.trace ++ [LoopEvent.tickReceived i] }
              collector i fun st1 => st1
        | GoroutineStatus.returned _ => st

/-- The state a schedule leads to. -/
def PeriodicCollector.run {σ : Type} (pc : PeriodicCollector σ) (st : RunState σ) :
    List Step → RunState σ
  | [] => st
  | s :: rest => pc.run (pc.step st s) rest

/-- Whether every goroutine of the group has returned. -/
def PeriodicCollector.allReturned {σ : Type} (pc : PeriodicCollector σ) (st : RunState σ) : Bool :=
  (List.range pc.collectors.length).all fun i =>
    match st.status i with
    | GoroutineStatus.returned _ => true
    | _ => false

/-- The value of `eg.Wait()` in a state: `none` while `Wait` is still blocked
(or the process has died), `some err` once every goroutine has returned. -/
def PeriodicCollector.waitResult {σ : Type} (pc : PeriodicCollector σ) (st : RunState σ) :
    Option (Option GoError) :=
  if st.crashed then none
  else if pc.allReturned st then some st.groupErr
  else none

/-- `PeriodicCollector.Collect` from world `w` under a schedule: what it has
returned when the schedule is over (`none`: it has not returned). -/
def PeriodicCollector.Collect {σ : Type} (pc : PeriodicCollector σ) (w : σ) (steps : List Step) :
    Option (Option GoError) :=
  pc.waitResult (pc.run (RunState.init w) steps)

/-- A ticker made by `time.NewTicker(d)` (library `time`): its period, the
instant it was made and the instant of the last receive from its channel (the
instant it was made while nothing has been received).  The runtime sends a
tick on the channel, which holds one tick, at the instants
`created + k * period` for k = 1, 2, ..., and drops a tick that finds the
channel full. -/
structure Ticker where
  period : Duration
  created : Time
  lastReceive : Time
  deriving DecidableEq, Repr

/-- A run of `PeriodicCollector.Collect` under a clock: the state of the run,
the current instant, and the ticker of each goroutine that has made one. -/
structure TimedState (σ : Type) where
  run : RunState σ
  now : Time
  ticker : Nat → Option Ticker

/-- The state at the instant `t0` at which `Collect` has started every goroutine. -/
def TimedState.init {σ : Type} (w : σ) (t0 : Time) : TimedState σ :=
  { run := RunState.init w, now := t0, ticker := fun _ => none }

/-- The Go type `ReportMetricName string`. -/
abbrev ReportMetricName := String

def ReportMetricMeanAssignmentCount : ReportMetricName := "mean_assignment_count"
def ReportMetricMeanEngagedSeconds : ReportMetricName := "mean_engaged_seconds"
def ReportMetricMeanEngagedUserCount : ReportMetricName := "mean_engaged_user_count"
def ReportMetricMeanSecondsToEngage : ReportMetricName := "mean_seconds_to_engage"
def ReportMetricMeanSecondsToFirstAck : ReportMetricName := "mean_seconds_to_first_ack"
def ReportMetricMeanSecondsToResolve : ReportMetricName := "mean_seconds_to_resolve"
def ReportMetricMeanSecondsToMobilize : ReportMetricName := "mean_seconds_to_mobilize"
def ReportMetricTotalBusinessHourInterruptions : ReportMetricName :=
  "total_business_hour_interruptions"
def ReportMetricTotalEngagedSeconds : ReportMetricName := "total_engaged_seconds"
def ReportMetricTotalEscalationsCount : ReportMetricName := "total_escalation_count"
def ReportMetricIncidentCount : ReportMetricName := "total_incident_count"
def ReportMetricTotalOffHourInterruptions : ReportMetricName := "total_off_hour_interruptions"
def ReportMetricTotalSleepHourInterruptions : ReportMetricName :=
  "total_sleep_hour_interruptions"
def ReportMetricTotalSnoozedSeconds : ReportMetricName := "total_snoozed_seconds"
def ReportMetricIncidentUpTimePct : ReportMetricName := "up_time_pct"

/-- The `case` list of the `switch` in `GetReportMetricName`. -/
def reportMetricNames : List ReportMetricName :=
  [ ReportMetricMeanAssignmentCount,
    ReportMetricMeanEngagedSeconds,
    ReportMetricMeanEngagedUserCount,
    ReportMetricMeanSecondsToEngage,
    ReportMetricMeanSecondsToFirstAck,
    ReportMetricMeanSecondsToResolve,
    ReportMetricMeanSecondsToMobilize,
    ReportMetricTotalBusinessHourInterruptions,
    ReportMetricTotalEngagedSeconds,
    ReportMetricTotalEscalationsCount,
    ReportMetricIncidentCount,
    ReportMetricTotalOffHourInterruptions,
    ReportMetricTotalSleepHourInterruptions,
    ReportMetricTotalSnoozedSeconds,
    ReportMetricIncidentUpTimePct ]

/-- The error `fmt.Errorf("metric %s not found", mn)`. -/
def metricNotFound (mn : String) : GoError := ⟨"metric " ++ mn ++ " not found"⟩

/-- `GetReportMetricName`: the returned name and error (`none` is nil). -/
def GetReportMetricName (mn : String) : ReportMetricName × Option GoError :=
  if mn ∈ reportMetricNames then (mn, none)
  else ("", some (metricNotFound mn))

/-- A `float64`, identified by its bit pattern; the code only copies such values. -/
structure Float64 where
  bits : Nat
  deriving DecidableEq, Repr

/-- The literal `0` of type `float64`. -/
def Float64.zero : Float64 := ⟨0⟩

structure ReportItem where
  MeanAssignmentCount : Float64 := Float64.zero
  MeanEngagedSeconds : Float64 := Float64.zero
  MeanEngagedUserCount : Float64 := Float64.zero
  MeanSecondsToEngage : Float64 := Float64.zero
  MeanSecondsToFirstAck : Float64 := Float64.zero
  MeanSecondsToMobilize : Float64 := Float64.zero
  MeanSecondsToResolve : Float64 := Float64.zero
  RangeStart : String := ""
  ServiceID : String := ""
  ServiceName : String := ""
  TotalBusinessHourInterruptions : Float64 := Float64.zero
  TotalEngagedSeconds : Float64 := Float64.zero
  TotalEscalationCount : Float64 := Float64.zero
  TotalIncidentCount : Float64 := Float64.zero
  TotalOffHourInterruptions : Float64 := Float64.zero
  TotalSleepHourInterruptions : Float64 := Float64.zero
  TotalSnoozedSeconds : Float64 := Float64.zero
  UpTimePct : Float64 := Float64.zero
  deriving DecidableEq, Repr

/-- The numeric fields of a row under their JSON keys, as the struct tags of
`ReportItem` give them, in declaration order. -/
def ReportItem.numericFields (i : ReportItem) : List (String × Float64) :=
  [ ("mean_assignment_count", i.MeanAssignmentCount),
    ("mean_engaged_seconds", i.MeanEngagedSeconds),
    ("mean_engaged_user_count", i.MeanEngagedUserCount),
    ("mean_seconds_to_engage", i.MeanSecondsToEngage),
    ("mean_seconds_to_first_ack", i.MeanSecondsToFirstAck),
    ("mean_seconds_to_mobilize", i.MeanSecondsToMobilize),
    ("mean_seconds_to_resolve", i.MeanSecondsToResolve),
    ("total_business_hour_interruptions", i.TotalBusinessHourInterruptions),
    ("total_engaged_seconds", i.TotalEngagedSeconds),
    ("total_escalation_count", i.TotalEscalationCount),
    ("total_incident_count", i.TotalIncidentCount),
    ("total_off_hour_interruptions", i.TotalOffHourInterruptions),
    ("total_sleep_hour_interruptions", i.TotalSleepHourInterruptions),
    ("total_snoozed_seconds", i.TotalSnoozedSeconds),
    ("up_time_pct", i.UpTimePct) ]

/-- `ReportItem.GetMetricByName`: the returned value and error (`none` is nil). -/
def ReportItem.GetMetricByName (i : ReportItem) (mn : ReportMetricName) :
    Float64 × Option GoError :=
  if mn = ReportMetricIncidentCount then (i.TotalIncidentCount, none)
  else if mn = ReportMetricMeanSecondsToFirstAck then (i.MeanSecondsToFirstAck, none)
  else if mn = ReportMetricMeanSecondsToResolve then (i.MeanSecondsToResolve, none)
  else if mn = ReportMetricTotalEscalationsCount then (i.TotalEscalationCount, none)
  else if mn = ReportMetricIncidentUpTimePct then (i.UpTimePct, none)
  else if mn = ReportMetricMeanAssignmentCount then (i.MeanAssignmentCount, none)
  else if mn = ReportMetricMeanEngagedSeconds then (i.MeanEngagedSeconds, none)
  else if mn = ReportMetricMeanEngagedUserCount then (i.MeanEngagedUserCount, none)
  else if mn = ReportMetricMeanSecondsToEngage then (i.MeanSecondsToEngage, none)
  else if mn = ReportMetricMeanSecondsToMobilize then (i.MeanSecondsToMobilize, none)
  else if mn = ReportMetricTotalBusinessHourInterruptions then
    (i.TotalBusinessHourInterruptions, none)
  else if mn = ReportMetricTotalEngagedSeconds then (i.TotalEngagedSeconds, none)
  else if mn = ReportMetricTotalOffHourInterruptions then (i.TotalOffHourInterruptions, none)
  else if mn = ReportMetricTotalSleepHourInterruptions then
    (i.TotalSleepHourInterruptions, none)
  else if mn = ReportMetricTotalSnoozedSeconds then (i.TotalSnoozedSeconds, none)
  else (Float64.zero, some (metricNotFound mn))

structure Report where
  Data : List ReportItem := []
  deriving DecidableEq, Repr

/-! ## Metrics registry (library `prometheus`, as the code uses it) -/

/-- A metric vector (`GaugeVec`, `CounterVec`, `HistogramVec`) as a registry
sees it: its fully-qualified name and its label names; none has constant labels. -/
structure MetricVec where
  name : String
  labelNames : List String
  deriving DecidableEq, Repr

/-- Outcome of a call that may panic instead of returning. -/
inductive Outcome (α : Type) where
  | returned (a : α)
  | panicked (msg : String)

/-- The state behind a `prometheus.Registerer`: the vectors registered so
far, oldest first (a registerer wrapped with a prefix behaves the same on the
prefixed names). -/
structure Registry where
  registered : List MetricVec := []
  deriving DecidableEq, Repr

/-- The legacy metric name rule of the library: not empty, made of letters,
`_`, `:` and, after the first character, digits. -/
def isValidMetricName (n : String) : Bool :=
  match n.data with
  | [] => false
  | c :: cs =>
    (c.isAlpha || c = '_' || c = ':') &&
      cs.all fun d => d.isAlpha || d.isDigit || d = '_' || d = ':'

/-- Model of `Registerer.Register` for one vector: it fails when the name is
invalid or a vector of the same fully-qualified name is registered already. -/
def Registry.Register (r : Registry) (c : MetricVec) : Except GoError Registry :=
  if !isValidMetricName c.name then
    .error ⟨"descriptor is invalid: " ++ c.name⟩
  else if c.name ∈ r.registered.map MetricVec.name then
    .error ⟨"duplicate metrics collector registration attempted: " ++ c.name⟩
  else .ok { registered := r.registered ++ [c] }

/-- Model of `Registerer.MustRegister(cs...)`: registers the vectors in order
and panics on the first error. -/
def Registry.MustRegister (r : Registry) : List MetricVec → Outcome Registry
  | [] => Outcome.returned r
  | c :: cs =>
    match r.Register c with
    | .error err => Outcome.panicked err.msg
    | .ok r' => r'.MustRegister cs

/-! ## Registration of the metric series -/

/-- The struct `CollectProcessMetrics`. -/
structure CollectProcessMetrics where
  collectionLatencyHistogram : MetricVec
  collectionsCounter : MetricVec
  collectionErrorsCounter : MetricVec
  deriving DecidableEq, Repr

/-- `RegisterCollectProcessMetrics` (`graceful_collector_with_metrics.go`). -/
def RegisterCollectProcessMetrics (registerer : Registry) :
    Outcome (CollectProcessMetrics × Registry) :=
  let collectionLatencyHist : MetricVec :=
    { name := "pagerduty_metrics_collector_latency", labelNames := ["collector_name"] }
  let collectionsCounter : MetricVec :=
    { name := "pagerduty_metrics_collector_collections_count", labelNames := ["collector_name"] }
  let collectionErrorsCounter : MetricVec :=
    { name := "pagerduty_metrics_collector_errors_count", labelNames := ["collector_name"] }
  match registerer.MustRegister [collectionsCounter, collectionErrorsCounter,
      collectionLatencyHist] with
  | Outcome.panicked msg => Outcome.panicked msg
  | Outcome.returned r =>
    Outcome.returned
      ({ collectionLatencyHistogram := collectionLatencyHist
         collectionsCounter := collectionsCounter
         collectionErrorsCounter := collectionErrorsCounter }, r)

/-- The Go type `ServiceAnalyticMetrics`, a map from metric name to gauge
vector, as an association list (an assignment replaces the entry of the key). -/
abbrev ServiceAnalyticMetrics := List (ReportMetricName × MetricVec)

/-- The map assignment `m[key] = g`. -/
def ServiceAnalyticMetrics.assign (m : ServiceAnalyticMetrics) (key : ReportMetricName)
    (g : MetricVec) : ServiceAnalyticMetrics :=
  (key, g) :: m.filter fun e => e.1 != key

/-- The map read `m[key]`; `none` is the nil pointer of a missing key. -/
def ServiceAnalyticMetrics.get (m : ServiceAnalyticMetrics) (key : ReportMetricName) :
    Option MetricVec :=
  m.lookup key

/-- The replacer `strings.NewReplacer(":", "_", ".", "_")`. -/
def metricNameReplacer (s : String) : String :=
  String.mk (s.data.map fun c => if c = ':' ∨ c = '.' then '_' else c)

/-- `ServiceAnalyticMetrics.prepareMetricName`. -/
def prepareMetricName (metricName : String) : String :=
  "pagerduty_service_" ++ metricNameReplacer metricName

/-- The gauge vector `RegisterServiceAnalyticMetricsFromNames` creates for a name. -/
def serviceAnalyticGauge (mn : ReportMetricName) : MetricVec :=
  { name := prepareMetricName mn
    labelNames := ["service_id", "service_name", "report_interval"] }

/-- The loop of `RegisterServiceAnalyticMetricsFromNames` over the remaining names. -/
def registerServiceAnalyticMetrics (gaugeMetrics : ServiceAnalyticMetrics)
    (registerer : Registry) :
    List ReportMetricName → Outcome (ServiceAnalyticMetrics × Registry)
  | [] => Outcome.returned (gaugeMetrics, registerer)
  | mn :: rest =>
    let gaugeMetrics' := gaugeMetrics.assign mn (serviceAnalyticGauge mn)
    match registerer.MustRegister [serviceAnalyticGauge mn] with
    | Outcome.panicked msg => Outcome.panicked msg
    | Outcome.returned r => registerServiceAnalyticMetrics gaugeMetrics' r rest

/-- `RegisterServiceAnalyticMetricsFromNames` (`service_analytics_collector.go`). -/
def RegisterServiceAnalyticMetricsFromNames (registerer : Registry)
    (metricNames : List ReportMetricName) : Outcome (ServiceAnalyticMetrics × Registry) :=
  registerServiceAnalyticMetrics [] registerer metricNames


/-! ## Time values (library `time`) -/

/-- A `*time.Location`: its name and the offset from UTC, in seconds east,
in force at each instant. -/
structure Location where
  name : String
  offsetAt : Time → Int

/-- The location `time.UTC`. -/
def Location.UTC : Location := { name := "UTC", offsetAt := fun _ => 0 }

/-- A zone with a fixed offset (`time.FixedZone`). -/
def Location.fixed (name : String) (offset : Int) : Location :=
  { name := name, offsetAt := fun _ => offset }

/-- A `time.Time`: an instant and the location its wall clock is read in. -/
structure GoTime where
  instant : Time
  loc : Location

/-- Wraps an integer into the range of `int64`. -/
def int64Wrap (x : Int) : Int := (x + 9223372036854775808) % 18446744073709551616
  - 9223372036854775808

/-- The negation `-d` of a `time.Duration` (an `int64`). -/
def Duration.neg (d : Duration) : Duration := int64Wrap (-d)

/-- `Time.Add` (instants far from the ends of the representable range, as
those read from the clock are). -/
def GoTime.Add (t : GoTime) (d : Duration) : GoTime :=
  { t with instant := t.instant + d }

/-- `Time.UTC`: the same instant, read in UTC. -/
def GoTime.UTC (t : GoTime) : GoTime := { t with loc := Location.UTC }

/-- The wall clock reading of a time in its location, in nanoseconds since
the epoch of that wall clock. -/
def GoTime.wallNanos (t : GoTime) : Int :=
  t.instant + t.loc.offsetAt t.instant * 1000000000

/-- Model of `appendInt(b, x, width)` of package `time`: the decimal digits of
`x`, zero-padded to `width`, after a minus sign when `x` is negative. -/
def appendInt (x : Int) (width : Nat) : List Char :=
  let ds := Nat.toDigits 10 x.natAbs
  (if x < 0 then ['-'] else []) ++ List.replicate (width - ds.length) '0' ++ ds

/-- The digits of `v` zero-padded to `prec`, without trailing zeros. -/
def trimmedFraction (prec : Nat) (v : Nat) : List Char :=
  ((List.replicate (prec - (Nat.toDigits 10 v).length) '0' ++ Nat.toDigits 10 v).reverse.dropWhile
    fun c => c = '0').reverse

/-- The civil date (year, month, day) of a day count since 1970-01-01. -/
def civilFromDays (days : Int) : Int × Int × Int :=
  let z := days + 719468
  let era := z / 146097
  let doe := z - era * 146097
  let yoe := (doe - doe / 1460 + doe / 36524 - doe / 146096) / 365
  let doy := doe - (365 * yoe + yoe / 4 - yoe / 100)
  let mp := (5 * doy + 2) / 153
  let d := doy - (153 * mp + 2) / 5 + 1
  let m := if mp < 10 then mp + 3 else mp - 9
  let y := yoe + era * 400 + (if m ≤ 2 then 1 else 0)
  (y, m, d)

/-- Model of `t.Format("2006-01-02T15:04:05.999")`: the wall clock of `t` in
its location, with the fraction cut to milliseconds and its trailing zeros
(and an empty fraction) left out. -/
def formatReportLayout (t : GoTime) : String :=
  let wall := t.wallNanos
  let sec := wall / 1000000000
  let nsec := wall % 1000000000
  let date := civilFromDays (sec / 86400)
  let secOfDay := sec % 86400
  let millis := (nsec / 1000000).toNat
  String.mk
    (appendInt date.1 4 ++ '-' :: appendInt date.2.1 2 ++ '-' :: appendInt date.2.2 2 ++
      'T' :: appendInt (secOfDay / 3600) 2 ++ ':' :: appendInt (secOfDay % 3600 / 60) 2 ++
      ':' :: appendInt (secOfDay % 60) 2 ++
      (if millis = 0 then [] else '.' :: trimmedFraction 3 millis))

/-- The Go type `ReportTime time.Time`. -/
abbrev ReportTime := GoTime

/-- The double quote character. -/
def doubleQuote : String := String.singleton (Char.ofNat 34)

/-- The JSON text `fmt.Sprintf("\"%s\"", ft)` of `ReportTime.MarshalJSON`. -/
def ReportTime.jsonText (t : ReportTime) : String :=
  doubleQuote ++ formatReportLayout t ++ doubleQuote

/-- `ReportTime.MarshalJSON`: the bytes and the (nil) error. -/
def ReportTime.MarshalJSON (t : ReportTime) : Bytes × Option GoError :=
  (bytesOfString t.jsonText, none)

structure ServiceMetricReportFilters where
  CreatedAtStart : ReportTime
  CreatedAtEnd : ReportTime

structure ServiceMetricReportParams where
  TimeZone : String
  Filters : ServiceMetricReportFilters


/-! ## Textual form of a duration (library `time`) -/

/-- Model of `fmtInt`: the decimal digits of `v`, `0` for zero. -/
def fmtInt (v : Nat) : List Char :=
  if v = 0 then ['0'] else (Nat.digits 10 v).reverse.map Nat.digitChar

/-- The digits `fmtFrac` prints for the `prec` low decimal digits of `v`, lowest
first: the digits padded to `prec`, without the zeros at the low end. -/
def fracDigits (v prec : Nat) : List Nat :=
  (Nat.digits 10 (v % 10 ^ prec) ++
    List.replicate (prec - (Nat.digits 10 (v % 10 ^ prec)).length) 0).dropWhile fun d => d = 0

/-- Model of `fmtFrac`: the fraction `v / 10^prec` after its decimal point,
without trailing zeros, and nothing at all when the fraction is zero. -/
def fmtFrac (v prec : Nat) : List Char :=
  if fracDigits v prec = [] then []
  else '.' :: (fracDigits v prec).reverse.map Nat.digitChar

/-- Model of `Duration.format` for the absolute value `u` in nanoseconds. -/
def formatDurationAbs (u : Nat) : List Char :=
  if u < 1000000000 then
    if u = 0 then ['0', 's']
    else if u < 1000 then fmtInt u ++ ['n', 's']
    else if u < 1000000 then fmtInt (u / 1000) ++ fmtFrac u 3 ++ ['µ', 's']
    else fmtInt (u / 1000000) ++ fmtFrac u 6 ++ ['m', 's']
  else
    let secs := u / 1000000000
    let mins := secs / 60
    let hours := mins / 60
    (if mins > 0 then
        (if hours > 0 then fmtInt hours ++ ['h'] else []) ++ fmtInt (mins % 60) ++ ['m']
      else []) ++
      fmtInt (secs % 60) ++ fmtFrac u 9 ++ ['s']

/-- Model of `Duration.String`: hours, minutes and seconds with the fraction
written out in full, a smaller unit below one second, a leading `-` when negative. -/
def Duration.String (d : Duration) : String :=
  String.mk ((if d < 0 then ['-'] else []) ++ formatDurationAbs d.natAbs)

/-! ## Provider client (`internal/pagerduty/client.go`) -/

/-- The library type `pagerduty.User`, the fields the collector reads. -/
structure User where
  ID : String := ""
  Name : String := ""
  Email : String := ""
  AvatarURL : String := ""
  Color : String := ""
  JobTitle : String := ""
  Role : String := ""
  deriving DecidableEq, Repr

/-- The size of the Go type `uint` (64-bit platforms). -/
def uintSize : Nat := 18446744073709551616

/-- The library type `pagerduty.ListUsersOptions`: the pagination fields
(both `uint`) and the query. -/
structure ListUsersOptions where
  Limit : Nat := 0
  Offset : Nat := 0
  Query : String := ""
  deriving DecidableEq, Repr

/-- The library type `pagerduty.ListUsersResponse` with its embedded
`APIListObject`; `Limit`, `Offset` and `Total` are `uint`. -/
structure ListUsersResponse where
  Limit : Nat := 0
  Offset : Nat := 0
  More : Bool := false
  Total : Nat := 0
  Users : List User := []
  deriving DecidableEq, Repr

/-- The interface `pagerduty.Client` over a world of type `σ` (the provider
and the network); a call returns a response or an error. -/
structure Client (σ : Type) where
  QueryMetricReport : Context → ServiceMetricReportParams → σ → Except GoError Report × σ
  ListUsersWithContext : Context → ListUsersOptions → σ → Except GoError ListUsersResponse × σ

/-! ## Service analytics collector (`internal/collector/service_analytics_collector.go`) -/

def UTCTimeZone : String := "Etc/UTC"

/-- One `Set(value)` of a float on the series of gauge vector `metric`
selected by `labels`. -/
structure Sample where
  metric : String
  labels : List (String × String)
  value : Float64
  deriving DecidableEq, Repr

structure ServiceAnalyticsCollector where
  metricNames : List ReportMetricName
  interval : Duration
  metrics : ServiceAnalyticMetrics
  deriving DecidableEq, Repr

def NewServiceAnalyticsCollector (serviceAnalyticMetrics : ServiceAnalyticMetrics)
    (metricNames : List ReportMetricName) (interval : Duration) : ServiceAnalyticsCollector :=
  { metricNames := metricNames, interval := interval, metrics := serviceAnalyticMetrics }

/-- What `ServiceAnalyticsCollector.Collect` does to the outside, in order. -/
inductive AnalyticsEffect where
  /-- The call `c.client.QueryMetricReport(ctx, params)`. -/
  | query (params : ServiceMetricReportParams)
  /-- The line `c.logger.Error("Get metric by name error, skipping...", ...)`. -/
  | logSkip (metricName : ReportMetricName)
  /-- The call `c.metrics[metricName].With(labels).Set(metricVal)`. -/
  | set (sample : Sample)

/-- How a call ended: it returned `err`, or it panicked. -/
inductive CallResult where
  | returned (err : Option GoError)
  | panicked
  deriving DecidableEq, Repr

/-- The effects of a loop and whether it panicked. -/
structure LoopRun where
  effects : List AnalyticsEffect
  panicked : Bool

/-- The inner loop `for _, metricName := range c.metricNames` for one row; a
name whose gauge is missing from the map makes `With` dereference nil. -/
def ServiceAnalyticsCollector.collectRow (c : ServiceAnalyticsCollector)
    (labels : List (String × String)) (srvMetrics : ReportItem) :
    List ReportMetricName → LoopRun
  | [] => { effects := [], panicked := false }
  | metricName :: rest =>
    let res := srvMetrics.GetMetricByName metricName
    match res.2 with
    | some _ =>
      let run := c.collectRow labels srvMetrics rest
      { run with effects := AnalyticsEffect.logSkip metricName :: run.effects }
    | none =>
      match c.metrics.get metricName with
      | none => { effects := [], panicked := true }
      | some gauge =>
        let run := c.collectRow labels srvMetrics rest
        { run with effects :=
            AnalyticsEffect.set { metric := gauge.name, labels := labels, value := res.1 }
              :: run.effects }

/-- The labels of the observations of one row. -/
def ServiceAnalyticsCollector.labels (c : ServiceAnalyticsCollector)
    (srvMetrics : ReportItem) : List (String × String) :=
  [ ("service_id", srvMetrics.ServiceID),
    ("service_name", srvMetrics.ServiceName),
    ("report_interval", Duration.String c.interval) ]

/-- The outer loop `for _, srvMetrics := range report.Data`. -/
def ServiceAnalyticsCollector.collectRows (c : ServiceAnalyticsCollector) :
    List ReportItem → LoopRun
  | [] => { effects := [], panicked := false }
  | srvMetrics :: rest =>
    let row := c.collectRow (c.labels srvMetrics) srvMetrics c.metricNames
    if row.panicked then row
    else
      let run := c.collectRows rest
      { run with effects := row.effects ++ run.effects }

/-- The clock `ServiceAnalyticsCollector.Collect` reads. -/
structure Clock (σ : Type) where
  /-- The call `time.Now()`: the current instant, in the local location. -/
  now : σ → GoTime

/-- A finished call of `ServiceAnalyticsCollector.Collect`. -/
structure AnalyticsRun (σ : Type) where
  result : CallResult
  effects : List AnalyticsEffect
  world : σ

/-- The parameters `Collect` queries with at time `t`. -/
def ServiceAnalyticsCollector.params (c : ServiceAnalyticsCollector) (t : GoTime) :
    ServiceMetricReportParams :=
  { TimeZone := UTCTimeZone
    Filters :=
      { CreatedAtStart := t.Add (Duration.neg c.interval)
        CreatedAtEnd := t } }

/-- `ServiceAnalyticsCollector.Collect`. -/
def ServiceAnalyticsCollector.Collect {σ : Type} (clock : Clock σ) (client : Client σ)
    (c : ServiceAnalyticsCollector) (ctx : Context) (w : σ) : AnalyticsRun σ :=
  let t := clock.now w
  let params := c.params t
  let res := client.QueryMetricReport ctx params w
  match res.1 with
  | .error err =>
    { result := CallResult.returned (some (errorsWrap err "query metric report"))
      effects := [AnalyticsEffect.query params]
      world := res.2 }
  | .ok report =>
    let run := c.collectRows report.Data
    { result := if run.panicked then CallResult.panicked else CallResult.returned none
      effects := AnalyticsEffect.query params :: run.effects
      world := res.2 }

/-- The gauge observations among the effects, in order. -/
def samples : List AnalyticsEffect → List Sample
  | [] => []
  | AnalyticsEffect.set s :: es => s :: samples es
  | _ :: es => samples es

/-- The names of the skips logged among the effects, in order. -/
def skips : List AnalyticsEffect → List ReportMetricName
  | [] => []
  | AnalyticsEffect.logSkip n :: es => n :: skips es
  | _ :: es => skips es

/-- The queries sent among the effects, in order. -/
def queries : List AnalyticsEffect → List ServiceMetricReportParams
  | [] => []
  | AnalyticsEffect.query p :: es => p :: queries es
  | _ :: es => queries es

/-! ## Users collector (`internal/collector/users_collector.go`) -/

def usersRequestLimit : Nat := 100

structure UsersCollector where
  usersGauge : MetricVec
  deriving DecidableEq, Repr

/-- The gauge vector `NewUsersCollector` creates. -/
def usersGaugeVec : MetricVec :=
  { name := "pagerduty_user"
    labelNames := ["id", "name", "mail", "avatar", "color", "job_title", "role"] }

/-- `NewUsersCollector`. -/
def NewUsersCollector (registerer : Registry) : Outcome (UsersCollector × Registry) :=
  match registerer.MustRegister [usersGaugeVec] with
  | Outcome.panicked msg => Outcome.panicked msg
  | Outcome.returned r => Outcome.returned ({ usersGauge := usersGaugeVec }, r)

/-- The observation `c.usersGauge.With(...).Set(1)` of one user. -/
def UsersCollector.userObservation (c : UsersCollector) (user : User) : Observation :=
  { metric := c.usersGauge.name
    labels := [
      ("id", user.ID),
      ("name", user.Name),
      ("mail", user.Email),
      ("avatar", user.AvatarURL),
      ("color", user.Color),
      ("job_title", user.JobTitle),
      ("role", user.Role)]
    value := 1 }

/-- A run of `UsersCollector.Collect`: the page requests sent, the pages
received, the gauge observations made, and what the call returned (`none`
while the loop is still running). -/
structure UsersRun (σ : Type) where
  requests : List ListUsersOptions
  responses : List ListUsersResponse
  observations : List Observation
  result : Option (Option GoError)
  world : σ

/-- The `for` loop of `UsersCollector.Collect`, run for at most `fuel` iterations. -/
def UsersCollector.collectLoop {σ : Type} (client : Client σ) (c : UsersCollector)
    (ctx : Context) : Nat → ListUsersOptions → σ → UsersRun σ
  | 0, _, w =>
    { requests := [], responses := [], observations := [], result := none, world := w }
  | fuel + 1, listOpts, w =>
    let res := client.ListUsersWithContext ctx listOpts w
    match res.1 with
    | .error err =>
      { requests := [listOpts], responses := [], observations := []
        result := some (some err), world := res.2 }
    | .ok list =>
      let observed := list.Users.map c.userObservation
      let listOpts' := { listOpts with Offset := (listOpts.Offset + list.Limit) % uintSize }
      if !list.More then
        { requests := [listOpts], responses := [list], observations := observed
          result := some none, world := res.2 }
      else
        let run := c.collectLoop client ctx fuel listOpts' res.2
        { run with
          requests := listOpts :: run.requests
          responses := list :: run.responses
          observations := observed ++ run.observations }

/-- `UsersCollector.Collect`, run for at most `fuel` page requests. -/
def UsersCollector.Collect {σ : Type} (client : Client σ) (c : UsersCollector)
    (ctx : Context) (fuel : Nat) (w : σ) : UsersRun σ :=
  c.collectLoop client ctx fuel { Limit := usersRequestLimit } w

/-- The provider answers the successive page requests of a collection, from
`listOpts` on, with the given pages and no error. -/
def ServesPages {σ : Type} (client : Client σ) (ctx : Context) :
    ListUsersOptions → σ → List ListUsersResponse → Prop
  | _, _, [] => True
  | listOpts, w, page :: rest =>
    (client.ListUsersWithContext ctx listOpts w).1 = .ok page ∧
      ServesPages client ctx
        { listOpts with Offset := (listOpts.Offset + page.Limit) % uintSize }
        (client.ListUsersWithContext ctx listOpts w).2 rest


/-! ## Collector wiring (`cmd/pagerduty-prometheus-exporter/cmd/cmd.go`) -/

/-- The collectors the wiring builds, by constructor. -/
inductive Collector where
  /-- A `*ServiceAnalyticsCollector`. -/
  | serviceAnalytics (c : ServiceAnalyticsCollector)
  /-- A `*UsersCollector`. -/
  | users (c : UsersCollector)
  /-- The value `NewGracefulCollectorWithMetrics(logger, metrics, collectorName, collector)`. -/
  | graceful (collectorName : String) (collector : Collector)
  /-- The value `NewPeriodicCollector(interval, collectors...)`. -/
  | periodic (interval : Duration) (collectors : List Collector)

/-- The loop of `resolveReportMetricNames` over the remaining names; `rm` holds
the names resolved so far. -/
def resolveNamesFrom (rm : List ReportMetricName) :
    List String → Option (List ReportMetricName) × Option GoError
  | [] => (some rm, none)
  | name :: rest =>
    let res := GetReportMetricName name
    match res.2 with
    | some err => (none, some err)
    | none => resolveNamesFrom (rm ++ [res.1]) rest

/-- `resolveReportMetricNames`: the name list (`none` is the nil slice) and the error. -/
def resolveReportMetricNames (opts : Options) :
    Option (List ReportMetricName) × Option GoError :=
  resolveNamesFrom [] opts.AnalyticsServiceMetricNames

/-- What `resolvePagerdutyMetricCollectors` returns: the collectors (empty for
the nil slice), the error, and the registry as the call leaves it. -/
structure ResolvedCollectors where
  collectors : List Collector
  err : Option GoError
  registerer : Registry

/-- `resolvePagerdutyMetricCollectors`. -/
def resolvePagerdutyMetricCollectors (registerer : Registry) (opts : Options) :
    Outcome ResolvedCollectors :=
  match RegisterCollectProcessMetrics registerer with
  | Outcome.panicked msg => Outcome.panicked msg
  | Outcome.returned (_, r1) =>
    match (resolveReportMetricNames opts).2 with
    | some err => Outcome.returned { collectors := [], err := some err, registerer := r1 }
    | none =>
      let serviceMetricNames := (resolveReportMetricNames opts).1.getD []
      match RegisterServiceAnalyticMetricsFromNames r1 serviceMetricNames with
      | Outcome.panicked msg => Outcome.panicked msg
      | Outcome.returned (serviceAnalyticMetrics, r2) =>
        let serviceAnalyticsCollectors := opts.AnalyticsReportPeriods.map fun period =>
          Collector.graceful "service_analytics"
            (Collector.serviceAnalytics
              (NewServiceAnalyticsCollector serviceAnalyticMetrics serviceMetricNames period))
        let serviceAnalyticsCollector :=
          Collector.periodic opts.AnalyticsScrapeInterval serviceAnalyticsCollectors
        match NewUsersCollector r2 with
        | Outcome.panicked msg => Outcome.panicked msg
        | Outcome.returned (uc, r3) =>
          let usersCollector := Collector.periodic opts.UsersScrapeInterval
            [Collector.graceful "users" (Collector.users uc)]
          Outcome.returned
            { collectors := [serviceAnalyticsCollector, usersCollector]
              err := none
              registerer := r3 }

/-- A piece of a rendered duration: a run of decimal digits or a single
character that is not a digit. -/
inductive Tok where
  | digs (cs : List Char)
  | sym (c : Char)
  deriving DecidableEq, Repr

/-- The characters of a list of pieces. -/
def renderToks : List Tok → List Char
  | [] => []
  | Tok.digs cs :: t => cs ++ renderToks t
  | Tok.sym c :: t => c :: renderToks t

/-- Digit runs are not empty, hold digits only and never touch one another;
the other pieces are not digits. -/
def WellFormedToks : List Tok → Prop
  | [] => True
  | Tok.sym c :: t => c.isDigit = false ∧ WellFormedToks t
  | Tok.digs cs :: t =>
    cs ≠ [] ∧ (∀ c ∈ cs, c.isDigit = true) ∧
      (∀ cs' t', t ≠ Tok.digs cs' :: t') ∧ WellFormedToks t

/-- The pieces of `fmtFrac v prec`. -/
def fracToks (v prec : Nat) : List Tok :=
  if fracDigits v prec = [] then []
  else [Tok.sym '.', Tok.digs ((fracDigits v prec).reverse.map Nat.digitChar)]

/-- The pieces of `formatDurationAbs u`. -/
def durationToks (u : Nat) : List Tok :=
  if u < 1000000000 then
    if u = 0 then [Tok.digs ['0'], Tok.sym 's']
    else if u < 1000 then [Tok.digs (fmtInt u), Tok.sym 'n', Tok.sym 's']
    else if u < 1000000 then
      Tok.digs (fmtInt (u / 1000)) :: (fracToks u 3 ++ [Tok.sym 'µ', Tok.sym 's'])
    else Tok.digs (fmtInt (u / 1000000)) :: (fracToks u 6 ++ [Tok.sym 'm', Tok.sym 's'])
  else
    (if u / 1000000000 / 60 > 0 then
        (if u / 1000000000 / 60 / 60 > 0 then
            [Tok.digs (fmtInt (u / 1000000000 / 60 / 60)), Tok.sym 'h']
          else []) ++
          [Tok.digs (fmtInt (u / 1000000000 / 60 % 60)), Tok.sym 'm']
      else []) ++
      Tok.digs (fmtInt (u / 1000000000 % 60)) :: (fracToks u 9 ++ [Tok.sym 's'])

/-! ## What one (row, name) pair contributes -/

/-- The name of the gauge stored under `metricName` (empty when there is none). -/
def ServiceAnalyticsCollector.gaugeName (c : ServiceAnalyticsCollector)
    (metricName : ReportMetricName) : String :=
  match c.metrics.get metricName with
  | some gauge => gauge.name
  | none => ""

/-- The observation of the value looked up for `metricName` in a row. -/
def ServiceAnalyticsCollector.pairSample (c : ServiceAnalyticsCollector)
    (srvMetrics : ReportItem) (metricName : ReportMetricName) : Sample :=
  { metric := c.gaugeName metricName
    labels := c.labels srvMetrics
    value := (srvMetrics.GetMetricByName metricName).1 }

/-- What a (row, name) pair contributes: a skip line when the lookup by name
fails, else one observation of the looked-up value. -/
def ServiceAnalyticsCollector.pairEffect (c : ServiceAnalyticsCollector)
    (srvMetrics : ReportItem) (metricName : ReportMetricName) : AnalyticsEffect :=
  if (srvMetrics.GetMetricByName metricName).2.isSome then AnalyticsEffect.logSkip metricName
  else AnalyticsEffect.set (c.pairSample srvMetrics metricName)

/-! ## The service analytics collectors among the wired collectors -/

/-- The service analytics collectors a scheduler runs, each behind its
instrumented wrapper, in order (none for any other collector). -/
def Collector.serviceAnalyticsCollectors : Collector → List ServiceAnalyticsCollector
  | Collector.periodic _ collectors =>
    collectors.filterMap fun collector =>
      match collector with
      | Collector.graceful _ (Collector.serviceAnalytics c) => some c
      | _ => none
  | _ => []

/-! ## Sample values -/

/-- The incident the toy library decodes: two assignees and one team. -/
def sampleIncident : WebhookV3Incident :=
  { Id := "P1", Title := "disk full", Status := "resolved"
    Assignees := [{ ID := "U1", Summary := "Ann" }, { ID := "U2", Summary := "Bob" }]
    Teams := [{ ID := "T1", Summary := "Ops" }] }

/-- A toy library for concrete runs: the digest is key followed by message,
the first body byte picks the event type, a second byte makes the data an object. -/
def sampleLibrary : Library :=
  { hmacSHA256 := fun key msg => key ++ msg
    unmarshalWebhook := fun rb =>
      match rb with
      | [] => none
      | b :: rest =>
        some { Event :=
          { ID := "E1"
            EventType := if b = 1 then IncidentResolvedEventType else IncidentAnnotatedEventType
            ResourceType := "incident"
            Data := if rest = [] then JSONValue.null else JSONValue.object [] } }
    marshalData := fun d =>
      match d with
      | JSONValue.object _ => .ok [1]
      | _ => .ok [0]
    unmarshalIncident := fun jsonData =>
      if jsonData = [1] then some sampleIncident else none
    formatTime := fun _ layout => layout }

def sampleListener : IncidentMetricsListener := NewIncidentMetricsListener "2006-01-02"

/-- A handler over the toy library with the production listener. -/
def sampleHandler (signatureSecret : Option Bytes) : WebhookHandler :=
  NewWebhookHandler (sampleListener.IncidentEventTriggered sampleLibrary) signatureSecret

/-- An `incident.resolved` event whose data the toy library decodes to `sampleIncident`. -/
def sampleResolvedEvent : WebhookV3Event :=
  { ID := "E1", EventType := "incident.resolved", ResourceType := "incident"
    Data := JSONValue.object [] }

/-- An `incident.annotated` event with data that is not an incident. -/
def sampleAnnotatedEvent : WebhookV3Event :=
  { ID := "E2", EventType := "incident.annotated", ResourceType := "incident"
    Data := JSONValue.string "note" }

/-- A report row of service `S1` with an up-time of 100.0. -/
def sampleRow : ReportItem :=
  { ServiceID := "S1", ServiceName := "api", UpTimePct := ⟨4636737291354636288⟩ }

/-- A clock on a world that counts calls: 2024-01-01T12:00:00Z plus one
second per call made, read in a zone three hours east of UTC. -/
def sampleClock : Clock Nat :=
  { now := fun calls =>
      { instant := (1704110400 + (calls : Int)) * 1000000000
        loc := Location.fixed "MSK" 10800 } }

/-- A provider on a world that counts calls: the report query fails on every
call made while the count is odd and else answers `rows`; the user listing
answers the page at the position of the call and fails past the last page. -/
def sampleClient (rows : List ReportItem) (pages : List ListUsersResponse) : Client Nat :=
  { QueryMetricReport := fun _ _ calls =>
      (if calls % 2 = 1 then .error ⟨"upstream failed"⟩ else .ok { Data := rows }, calls + 1)
    ListUsersWithContext := fun _ _ calls =>
      (match pages.get? calls with
        | some page => .ok page
        | none => .error ⟨"no such page"⟩, calls + 1) }

/-- The gauge map of a registration of the up-time name alone. -/
def sampleMetrics : ServiceAnalyticMetrics :=
  [(ReportMetricIncidentUpTimePct, serviceAnalyticGauge ReportMetricIncidentUpTimePct)]

/-- A collector of two names, the second unknown to the lookup, over a 24-hour window. -/
def sampleAnalyticsCollector : ServiceAnalyticsCollector :=
  NewServiceAnalyticsCollector sampleMetrics [ReportMetricIncidentUpTimePct, "no_such_metric"]
    (24 * 3600 * 1000000000)

/-- A report row of service `S2` with an up-time of 90.0. -/
def sampleOtherRow : ReportItem :=
  { ServiceID := "S2", ServiceName := "web", UpTimePct := ⟨4636033603912859648⟩ }

/-- The collector of `sampleAnalyticsCollector` over a one-hour window. -/
def sampleHourlyCollector : ServiceAnalyticsCollector :=
  NewServiceAnalyticsCollector sampleMetrics [ReportMetricIncidentUpTimePct, "no_such_metric"]
    (3600 * 1000000000)

def sampleUsersCollector : UsersCollector := { usersGauge := usersGaugeVec }

def sampleUserAnn : User :=
  { ID := "U1", Name := "Ann", Email := "ann@example.org", AvatarURL := "https://a/1"
    Color := "red", JobTitle := "SRE", Role := "admin" }

def sampleUserBob : User :=
  { ID := "U2", Name := "Bob", Email := "bob@example.org", AvatarURL := "https://a/2"
    Color := "blue", JobTitle := "Dev", Role := "user" }

/-- Two pages of users as a provider honouring the requested limit sends
them: the first announces more, the second does not. -/
def samplePages : List ListUsersResponse :=
  [ { Limit := 100, Offset := 0, More := true, Users := [sampleUserAnn] },
    { Limit := 100, Offset := 100, More := false, Users := [sampleUserBob] } ]

/-- Two pages of a provider that caps the page size at 25. -/
def cappedPages : List ListUsersResponse :=
  [ { Limit := 25, Offset := 0, More := true, Users := [sampleUserAnn] },
    { Limit := 25, Offset := 25, More := false, Users := [sampleUserBob] } ]

/-- The gauge map a registration of the default metric names on an empty
registry returns. -/
def sampleWiredMetrics : ServiceAnalyticMetrics :=
  match RegisterServiceAnalyticMetricsFromNames {} ({} : Options).AnalyticsServiceMetricNames with
  | Outcome.returned (m, _) => m
  | Outcome.panicked _ => []

/-- The service analytics collector the wiring builds from the default options. -/
def sampleWiredCollector : ServiceAnalyticsCollector :=
  NewServiceAnalyticsCollector sampleWiredMetrics ({} : Options).AnalyticsServiceMetricNames
    (Hour * 24 * 90)

/-! # Theorems -/

/-! ## Signature verification -/

theorem anySignatureMatches_iff (expected : String) (l : List String) :
    anySignatureMatches expected l = true ↔ expected ∈ l := by
  induction l with
  | nil => simp [anySignatureMatches]
  | cons s rest ih =>
    by_cases h : s = expected
    · simp [anySignatureMatches, h]
    · have h' : ¬ expected = s := fun e => h e.symm
      simp [anySignatureMatches, h, h', ih]

theorem hexDigit_ne_comma (n : Nat) : hexDigit n ≠ ',' := by
  unfold hexDigit hextable
  rcases n with _ | _ | _ | _ | _ | _ | _ | _ | _ | _ | _ | _ | _ | _ | _ | _ | n <;> simp [List.getD]

theorem comma_not_mem_hexEncode (bs : Bytes) : ',' ∉ hexEncode bs := by
  induction bs with
  | nil => simp [hexEncode]
  | cons b bs ih =>
    simp only [hexEncode, List.mem_cons, not_or]
    exact ⟨fun h => hexDigit_ne_comma _ h.symm, fun h => hexDigit_ne_comma _ h.symm, ih⟩

theorem expSignature_data (mac : Bytes → Bytes → Bytes) (secret body : Bytes) :
    (expSignature mac secret body).data = 'v' :: '1' :: '=' :: hexEncode (mac secret body) := by
  simp [expSignature, String.data_append]

theorem expSignature_ne_empty (mac : Bytes → Bytes → Bytes) (secret body : Bytes) :
    expSignature mac secret body ≠ "" := by
  intro h
  have := congrArg String.data h
  rw [expSignature_data] at this
  simp at this

theorem comma_not_mem_expSignature (mac : Bytes → Bytes → Bytes) (secret body : Bytes) :
    ',' ∉ (expSignature mac secret body).data := by
  rw [expSignature_data]
  simp only [List.mem_cons, not_or]
  exact ⟨by decide, by decide, by decide, comma_not_mem_hexEncode _⟩

theorem splitChars_ne_nil (sep : Char) (s : List Char) : splitChars sep s ≠ [] := by
  cases s with
  | nil => simp [splitChars]
  | cons c cs =>
    unfold splitChars
    split
    · simp
    · split <;> simp

theorem splitChars_of_not_mem (sep : Char) (e : List Char) (h : sep ∉ e) :
    splitChars sep e = [e] := by
  induction e with
  | nil => simp [splitChars]
  | cons c cs ih =>
    simp only [List.mem_cons, not_or] at h
    have hc : ¬ c = sep := fun e => h.1 e.symm
    simp [splitChars, hc, ih h.2]

theorem splitChars_append_sep (sep : Char) (e r : List Char) (h : sep ∉ e) :
    splitChars sep (e ++ sep :: r) = e :: splitChars sep r := by
  induction e with
  | nil => simp [splitChars]
  | cons c cs ih =>
    simp only [List.mem_cons, not_or] at h
    have hc : ¬ c = sep := fun e => h.1 e.symm
    simp [splitChars, hc, ih h.2]

theorem mem_tail_splitChars_append (sep : Char) (p r x : List Char)
    (hx : x ∈ splitChars sep r) : x ∈ (splitChars sep (p ++ sep :: r)).tail := by
  induction p with
  | nil => simpa [splitChars] using hx
  | cons c cs ih =>
    by_cases hc : c = sep
    · simp only [List.cons_append, splitChars, hc, if_true, List.tail_cons]
      exact List.mem_of_mem_tail ih
    · simp only [List.cons_append, splitChars, hc, if_false]
      cases hs : splitChars sep (cs ++ sep :: r) with
      | nil => exact absurd hs (splitChars_ne_nil _ _)
      | cons q qs =>
        rw [hs] at ih
        simpa using ih

theorem mem_splitChars_joinChars (sep : Char) (e : List Char) (h : sep ∉ e)
    (pre post : List (List Char)) :
    e ∈ splitChars sep (joinChars sep (pre ++ e :: post)) := by
  induction pre with
  | nil =>
    cases post with
    | nil => simp [joinChars, splitChars_of_not_mem sep e h]
    | cons q qs => simp [joinChars, splitChars_append_sep sep e _ h]
  | cons p ps ih =>
    have hj : joinChars sep ((p :: ps) ++ e :: post) =
        p ++ sep :: joinChars sep (ps ++ e :: post) := by
      cases ps <;> simp [joinChars]
    rw [hj]
    exact List.mem_of_mem_tail (mem_tail_splitChars_append sep p _ e ih)

theorem mem_stringsSplit_iff (x s : String) (sep : Char) :
    x ∈ stringsSplit s sep ↔ x.data ∈ splitChars sep s.data := by
  unfold stringsSplit
  constructor
  · intro h
    rcases List.mem_map.mp h with ⟨l, hl, rfl⟩
    exact hl
  · intro h
    exact List.mem_map.mpr ⟨x.data, h, rfl⟩

theorem verifySignature_eq_none_iff (mac : Bytes → Bytes → Bytes) (secret body : Bytes)
    (header : HeaderValues) :
    verifySignature mac (some secret) body header = none ↔
      expSignature mac secret body ∈ stringsSplit (headerGet header) ',' := by
  unfold verifySignature
  simp only
  by_cases hempty : headerGet header = ""
  · simp only [hempty, if_true]
    constructor
    · intro h; cases h
    · intro h
      have : expSignature mac secret body = "" := by
        simpa [stringsSplit, splitChars] using h
      exact absurd this (expSignature_ne_empty mac secret body)
  · simp only [hempty, if_false]
    rw [← anySignatureMatches_iff]
    split <;> simp_all


/-- C1: with a non-nil secret, `verifySignature` succeeds exactly when some
piece of the header value split on "," equals "v1=" followed by the lowercase
hex of the HMAC; an absent or empty header is rejected; a header that lists the
valid signature at any position among other candidates is accepted. -/
theorem verifySignature_accepts_iff_candidate_matches
    (hmacSHA256 : Bytes → Bytes → Bytes) (secret body : Bytes) :
    (∀ header : HeaderValues,
      verifySignature hmacSHA256 (some secret) body header = none ↔
        "v1=" ++ String.mk (hexEncode (hmacSHA256 secret body)) ∈
          stringsSplit (headerGet header) ',') ∧
    verifySignature hmacSHA256 (some secret) body [] = some errInvalidSignature ∧
    (∀ rest : List String,
      verifySignature hmacSHA256 (some secret) body ("" :: rest) = some errInvalidSignature) ∧
    (∀ pre post : List String,
      verifySignature hmacSHA256 (some secret) body
        [stringsJoin (pre ++ ("v1=" ++ String.mk (hexEncode (hmacSHA256 secret body))) :: post) ',']
        = none) := by
  refine ⟨fun header => verifySignature_eq_none_iff hmacSHA256 secret body header, ?_, ?_, ?_⟩
  · simp [verifySignature, headerGet]
  · intro rest
    simp [verifySignature, headerGet]
  · intro pre post
    rw [verifySignature_eq_none_iff, mem_stringsSplit_iff]
    have h := mem_splitChars_joinChars ',' (expSignature hmacSHA256 secret body).data
      (comma_not_mem_expSignature hmacSHA256 secret body)
      (pre.map String.data) (post.map String.data)
    simpa [headerGet, stringsJoin, expSignature] using h

/-! ## Webhook handler -/

theorem statusCodes_append (a b : List Effect) :
    statusCodes (a ++ b) = statusCodes a ++ statusCodes b := by
  induction a with
  | nil => rfl
  | cons e es ih => cases e <;> simp [statusCodes, ih]

theorem statusCodes_observe (os : List Observation) :
    statusCodes (os.map Effect.observe) = [] := by
  induction os with
  | nil => rfl
  | cons o os ih => simp [statusCodes, ih]

/-- C2: with the default (empty) signature secret the handler built by
`setupWebhookHTTPHandler` holds the non-nil empty slice, so the gate is not a
no-op: a request without signature header is answered 403 and nothing else
happens; only a handler built with the nil secret lets every request pass. -/
theorem default_secret_rejects_request_without_signature (lib : Library) (body : Bytes) :
    setupWebhookHTTPHandler lib {} { body := .ok body } = [Effect.writeHeader StatusForbidden] ∧
    (∀ header : HeaderValues, verifySignature lib.hmacSHA256 none body header = none) := by
  constructor
  · simp [setupWebhookHTTPHandler, NewWebhookHandler, WebhookHandler.incidentWebhookV3,
      verifySignature, headerGet]
  · intro header
    rfl

theorem incidentWebhookV3_of_gate_fails (lib : Library) (h : WebhookHandler) (r : Request)
    (rb : Bytes) (hbody : r.body = .ok rb)
    (hgate : verifySignature lib.hmacSHA256 h.signatureSecret rb r.signatureHeader ≠ none) :
    h.incidentWebhookV3 lib r = [Effect.writeHeader StatusForbidden] := by
  unfold WebhookHandler.incidentWebhookV3
  rw [hbody]
  simp only
  split
  · rfl
  · rename_i hv
    exact absurd hv hgate

/-- C3: when a secret is configured and no candidate of the signature header
equals the expected signature, the handler only writes status 403: the body is
not decoded, the listener is not called and no observation is made. -/
theorem gate_failure_answers_403_and_stops (lib : Library) (h : WebhookHandler) (r : Request)
    (rb secret : Bytes) (hbody : r.body = .ok rb) (hsecret : h.signatureSecret = some secret)
    (hnomatch : "v1=" ++ String.mk (hexEncode (lib.hmacSHA256 secret rb)) ∉
      stringsSplit (headerGet r.signatureHeader) ',') :
    h.incidentWebhookV3 lib r = [Effect.writeHeader StatusForbidden] ∧
    statusCodes (h.incidentWebhookV3 lib r) = [403] ∧
    unmarshalCount (h.incidentWebhookV3 lib r) = 0 ∧
    listenerCalls (h.incidentWebhookV3 lib r) = [] ∧
    observations (h.incidentWebhookV3 lib r) = [] := by
  have hgate : verifySignature lib.hmacSHA256 h.signatureSecret rb r.signatureHeader ≠ none := by
    rw [hsecret]
    intro hv
    exact hnomatch ((verifySignature_eq_none_iff _ _ _ _).mp hv)
  rw [incidentWebhookV3_of_gate_fails lib h r rb hbody hgate]
  simp [statusCodes, unmarshalCount, listenerCalls, observations, StatusForbidden]

theorem gate_failure_answers_403_and_stops_witness :
    (sampleHandler (some [7])).incidentWebhookV3 sampleLibrary
        { body := .ok [1, 2], signatureHeader := ["v1=00,v1=070103"] }
      = [Effect.writeHeader StatusForbidden] ∧
    observations ((sampleHandler (some [7])).incidentWebhookV3 sampleLibrary
        { body := .ok [1, 2], signatureHeader := ["v1=00,v1=070103"] }) = [] :=
  have h := gate_failure_answers_403_and_stops sampleLibrary (sampleHandler (some [7]))
    { body := .ok [1, 2], signatureHeader := ["v1=00,v1=070103"] } [1, 2] [7] rfl rfl
    (by decide)
  ⟨h.1, h.2.2.2.2⟩

theorem incidentWebhookV3_of_gate_passes (lib : Library) (h : WebhookHandler) (r : Request)
    (rb : Bytes) (hbody : r.body = .ok rb)
    (hgate : verifySignature lib.hmacSHA256 h.signatureSecret rb r.signatureHeader = none) :
    h.incidentWebhookV3 lib r =
      Effect.bodyClose ::
        (match r.bodyCloseErr with
          | some _ => [Effect.logError "body close error"]
          | none => []) ++
        Effect.unmarshalBody ::
        match lib.unmarshalWebhook rb with
        | none => [Effect.logError "unmarshal webhook", Effect.writeHeader StatusBadRequest]
        | some webhookV3 =>
          Effect.listenerCall webhookV3.Event ::
            (h.incidentListener webhookV3.Event).observations.map Effect.observe ++
            match (h.incidentListener webhookV3.Event).err with
            | some _ =>
              [Effect.logError "handle webhook", Effect.writeHeader StatusInternalServerError]
            | none => [Effect.writeHeader StatusOK] := by
  unfold WebhookHandler.incidentWebhookV3
  rw [hbody]
  simp only [hgate]

theorem statusCodes_closeLog (e : Option GoError) :
    statusCodes (match e with
      | some _ => [Effect.logError "body close error"]
      | none => []) = [] := by
  cases e <;> rfl

theorem listenerCalls_closeLog (e : Option GoError) (rest : List Effect) :
    listenerCalls ((match e with
      | some _ => [Effect.logError "body close error"]
      | none => []) ++ rest) = listenerCalls rest := by
  cases e <;> rfl

theorem listener_fails_on_undecodable_data (lib : Library) (l : IncidentMetricsListener)
    (event : WebhookV3Event) (jsonData : Bytes)
    (htype : event.EventType ∈ collectedEventTypes)
    (hmarshal : lib.marshalData event.Data = .ok jsonData)
    (hdecode : lib.unmarshalIncident jsonData = none) :
    (l.IncidentEventTriggered lib event).err =
      some ⟨"incident data must be with type popagerduty.Incident"⟩ := by
  simp [IncidentMetricsListener.IncidentEventTriggered, htype,
    IncidentMetricsListener.collectIncidentInfo, hmarshal, hdecode]

theorem statusCodes_of_gate_passes (lib : Library) (h : WebhookHandler) (r : Request)
    (rb : Bytes) (hbody : r.body = .ok rb)
    (hgate : verifySignature lib.hmacSHA256 h.signatureSecret rb r.signatureHeader = none) :
    statusCodes (h.incidentWebhookV3 lib r) =
      match lib.unmarshalWebhook rb with
      | none => [400]
      | some webhookV3 =>
        match (h.incidentListener webhookV3.Event).err with
        | some _ => [500]
        | none => [200] := by
  rw [incidentWebhookV3_of_gate_passes lib h r rb hbody hgate]
  cases hdec : lib.unmarshalWebhook rb with
  | none =>
    simp [statusCodes, statusCodes_append, statusCodes_closeLog, StatusBadRequest]
  | some webhookV3 =>
    cases he : (h.incidentListener webhookV3.Event).err with
    | none =>
      simp [statusCodes, statusCodes_append, statusCodes_closeLog, statusCodes_observe,
        StatusOK, he]
    | some e =>
      simp [statusCodes, statusCodes_append, statusCodes_closeLog, statusCodes_observe,
        StatusInternalServerError, he]

theorem listenerCalls_of_decode_fails (lib : Library) (h : WebhookHandler) (r : Request)
    (rb : Bytes) (hbody : r.body = .ok rb)
    (hgate : verifySignature lib.hmacSHA256 h.signatureSecret rb r.signatureHeader = none)
    (hdec : lib.unmarshalWebhook rb = none) :
    listenerCalls (h.incidentWebhookV3 lib r) = [] := by
  rw [incidentWebhookV3_of_gate_passes lib h r rb hbody hgate]
  simp [hdec, listenerCalls, listenerCalls_closeLog]

/-- C4: once the body is read, the handler writes exactly one status code:
403 when the signature gate fails (whatever the body holds), else 400 when the
body does not decode (the listener is not called), else 500 when the listener
returns an error, else 200; the incident listener returns such an error when
the data of an allow-listed event does not decode as an incident. -/
theorem one_status_code_by_precedence (lib : Library) (h : WebhookHandler) (r : Request)
    (rb : Bytes) (hbody : r.body = .ok rb) :
    (verifySignature lib.hmacSHA256 h.signatureSecret rb r.signatureHeader ≠ none →
      statusCodes (h.incidentWebhookV3 lib r) = [403]) ∧
    (verifySignature lib.hmacSHA256 h.signatureSecret rb r.signatureHeader = none →
      lib.unmarshalWebhook rb = none →
      statusCodes (h.incidentWebhookV3 lib r) = [400] ∧
        listenerCalls (h.incidentWebhookV3 lib r) = []) ∧
    (∀ webhookV3, verifySignature lib.hmacSHA256 h.signatureSecret rb r.signatureHeader = none →
      lib.unmarshalWebhook rb = some webhookV3 →
      (h.incidentListener webhookV3.Event).err ≠ none →
      statusCodes (h.incidentWebhookV3 lib r) = [500]) ∧
    (∀ webhookV3, verifySignature lib.hmacSHA256 h.signatureSecret rb r.signatureHeader = none →
      lib.unmarshalWebhook rb = some webhookV3 →
      (h.incidentListener webhookV3.Event).err = none →
      statusCodes (h.incidentWebhookV3 lib r) = [200]) ∧
    (∀ (l : IncidentMetricsListener) webhookV3 jsonData,
      h.incidentListener = l.IncidentEventTriggered lib →
      verifySignature lib.hmacSHA256 h.signatureSecret rb r.signatureHeader = none →
      lib.unmarshalWebhook rb = some webhookV3 →
      webhookV3.Event.EventType ∈ collectedEventTypes →
      lib.marshalData webhookV3.Event.Data = .ok jsonData →
      lib.unmarshalIncident jsonData = none →
      statusCodes (h.incidentWebhookV3 lib r) = [500]) := by
  refine ⟨?_, ?_, ?_, ?_, ?_⟩
  · intro hgate
    rw [incidentWebhookV3_of_gate_fails lib h r rb hbody hgate]
    rfl
  · intro hgate hdec
    refine ⟨?_, listenerCalls_of_decode_fails lib h r rb hbody hgate hdec⟩
    rw [statusCodes_of_gate_passes lib h r rb hbody hgate, hdec]
  · intro webhookV3 hgate hdec herr
    rw [statusCodes_of_gate_passes lib h r rb hbody hgate, hdec]
    cases he : (h.incidentListener webhookV3.Event).err with
    | none => exact absurd he herr
    | some e => simp only [he]
  · intro webhookV3 hgate hdec herr
    rw [statusCodes_of_gate_passes lib h r rb hbody hgate, hdec]
    simp only [herr]
  · intro l webhookV3 jsonData hl hgate hdec htype hmarshal hinc
    rw [statusCodes_of_gate_passes lib h r rb hbody hgate, hdec]
    simp only [hl, listener_fails_on_undecodable_data lib l _ jsonData htype hmarshal hinc]

theorem one_status_code_by_precedence_witness :
    statusCodes ((sampleHandler (some [7])).incidentWebhookV3 sampleLibrary
      { body := .ok [], signatureHeader := ["v1=00"] }) = [403] ∧
    statusCodes ((sampleHandler (some [7])).incidentWebhookV3 sampleLibrary
      { body := .ok [], signatureHeader := ["v1=07"] }) = [400] ∧
    statusCodes ((sampleHandler (some [7])).incidentWebhookV3 sampleLibrary
      { body := .ok [1], signatureHeader := ["v1=0701"] }) = [500] ∧
    statusCodes ((sampleHandler (some [7])).incidentWebhookV3 sampleLibrary
      { body := .ok [1, 2], signatureHeader := ["v1=070102"] }) = [200] :=
  ⟨(one_status_code_by_precedence sampleLibrary (sampleHandler (some [7]))
      { body := .ok [], signatureHeader := ["v1=00"] } [] rfl).1 (by decide),
   ((one_status_code_by_precedence sampleLibrary (sampleHandler (some [7]))
      { body := .ok [], signatureHeader := ["v1=07"] } [] rfl).2.1 (by decide) rfl).1,
   (one_status_code_by_precedence sampleLibrary (sampleHandler (some [7]))
      { body := .ok [1], signatureHeader := ["v1=0701"] } [1] rfl).2.2.1 _ (by decide) rfl
      (by decide),
   (one_status_code_by_precedence sampleLibrary (sampleHandler (some [7]))
      { body := .ok [1, 2], signatureHeader := ["v1=070102"] } [1, 2] rfl).2.2.2.1 _ (by decide)
      rfl (by decide)⟩


/-! ## Incident metrics listener -/

theorem collectedEventTypes_eq :
    collectedEventTypes =
      ["incident.triggered", "incident.acknowledged", "incident.unacknowledged",
        "incident.reassigned", "incident.priority_updated", "incident.delegated",
        "incident.escalated", "incident.reopened", "incident.resolved"] := rfl

/-- C5: for an event whose type is none of the nine allow-listed incident
lifecycle types, `IncidentEventTriggered` returns nil and makes no observation
on any gauge, whatever the event's data holds; `incident.annotated` and
`incident.responder.added` are such types. -/
theorem other_event_types_emit_nothing (lib : Library) (l : IncidentMetricsListener)
    (event : WebhookV3Event)
    (hother : event.EventType ∉
      ["incident.triggered", "incident.acknowledged", "incident.unacknowledged",
        "incident.reassigned", "incident.priority_updated", "incident.delegated",
        "incident.escalated", "incident.reopened", "incident.resolved"]) :
    (l.IncidentEventTriggered lib event).err = none ∧
    (l.IncidentEventTriggered lib event).observations = [] := by
  rw [← collectedEventTypes_eq] at hother
  simp [IncidentMetricsListener.IncidentEventTriggered, hother]

theorem other_event_types_emit_nothing_witness :
    (sampleListener.IncidentEventTriggered sampleLibrary sampleAnnotatedEvent).err = none ∧
    (sampleListener.IncidentEventTriggered sampleLibrary sampleAnnotatedEvent).observations = [] :=
  other_event_types_emit_nothing sampleLibrary sampleListener sampleAnnotatedEvent (by decide)

theorem filter_metric_map (f : APIObject → Observation) (m : String) (xs : List APIObject)
    (hf : ∀ x, (f x).metric = m) :
    (xs.map f).filter (fun o => o.metric = m) = xs.map f := by
  apply List.filter_eq_self.mpr
  intro o ho
  rcases List.mem_map.mp ho with ⟨x, _, rfl⟩
  simp [hf x]

theorem filter_metric_map_ne (f : APIObject → Observation) (m : String) (xs : List APIObject)
    (hf : ∀ x, (f x).metric ≠ m) :
    (xs.map f).filter (fun o => o.metric = m) = [] := by
  apply List.filter_eq_nil_iff.mpr
  intro o ho
  rcases List.mem_map.mp ho with ⟨x, _, rfl⟩
  simp [hf x]

theorem collectIncidentInfo_of_decodes (lib : Library) (l : IncidentMetricsListener)
    (event : WebhookV3Event) (jsonData : Bytes) (incident : WebhookV3Incident)
    (hmarshal : lib.marshalData event.Data = .ok jsonData)
    (hdecode : lib.unmarshalIncident jsonData = some incident) :
    l.collectIncidentInfo lib event =
      ⟨none,
        incidentObservation event.EventType incident (lib.formatTime event.OccurredAt l.dtFormat)
          :: (incident.Assignees.map (assigneeObservation event.EventType incident
                (lib.formatTime event.OccurredAt l.dtFormat))
            ++ incident.Teams.map (teamObservation event.EventType incident
                (lib.formatTime event.OccurredAt l.dtFormat)))⟩ := by
  simp [IncidentMetricsListener.collectIncidentInfo, hmarshal, hdecode]

/-- C6: for an allow-listed event whose data decodes as an incident,
`IncidentEventTriggered` returns nil and makes 1 + a + t observations: one on
the incident gauge, then one per assignee (with its id and summary) and one
per team (with its id and summary), in order; each has value 1 and carries the
incident's id, the event's type and the formatted `occurredAt`. -/
theorem allowed_event_fans_out (lib : Library) (l : IncidentMetricsListener)
    (event : WebhookV3Event) (jsonData : Bytes) (incident : WebhookV3Incident)
    (htype : event.EventType ∈
      ["incident.triggered", "incident.acknowledged", "incident.unacknowledged",
        "incident.reassigned", "incident.priority_updated", "incident.delegated",
        "incident.escalated", "incident.reopened", "incident.resolved"])
    (hmarshal : lib.marshalData event.Data = .ok jsonData)
    (hdecode : lib.unmarshalIncident jsonData = some incident) :
    (l.IncidentEventTriggered lib event).err = none ∧
    (l.IncidentEventTriggered lib event).observations.length =
      1 + incident.Assignees.length + incident.Teams.length ∧
    ((l.IncidentEventTriggered lib event).observations.filter
      (fun o => o.metric = "pagerduty_incident_event")).length = 1 ∧
    (((l.IncidentEventTriggered lib event).observations.filter
      (fun o => o.metric = "pagerduty_incident_event_assignees")).map
        (fun o => (o.label "assignee_id", o.label "assignee_summary"))) =
      incident.Assignees.map (fun a => (a.ID, a.Summary)) ∧
    (((l.IncidentEventTriggered lib event).observations.filter
      (fun o => o.metric = "pagerduty_incident_event_teams")).map
        (fun o => (o.label "team_id", o.label "team_summary"))) =
      incident.Teams.map (fun t => (t.ID, t.Summary)) ∧
    (∀ o ∈ (l.IncidentEventTriggered lib event).observations,
      o.value = 1 ∧ o.label "incident_id" = incident.Id ∧
        o.label "event_type" = event.EventType ∧
        o.label "dt" = lib.formatTime event.OccurredAt l.dtFormat) := by
  rw [← collectedEventTypes_eq] at htype
  have hres : l.IncidentEventTriggered lib event = l.collectIncidentInfo lib event := by
    simp [IncidentMetricsListener.IncidentEventTriggered, htype]
  rw [hres, collectIncidentInfo_of_decodes lib l event jsonData incident hmarshal hdecode]
  refine ⟨rfl, ?_, ?_, ?_, ?_, ?_⟩
  · simp only [List.length_cons, List.length_append, List.length_map]
    omega
  · rw [List.filter_cons, List.filter_append,
      filter_metric_map_ne _ _ _ (fun x => by simp [assigneeObservation]),
      filter_metric_map_ne _ _ _ (fun x => by simp [teamObservation])]
    simp [incidentObservation]
  · rw [List.filter_cons, List.filter_append,
      filter_metric_map _ _ _ (fun x => by simp [assigneeObservation]),
      filter_metric_map_ne _ _ _ (fun x => by simp [teamObservation])]
    simp [incidentObservation, assigneeObservation, Observation.label, List.lookup]
  · rw [List.filter_cons, List.filter_append,
      filter_metric_map_ne _ _ _ (fun x => by simp [assigneeObservation]),
      filter_metric_map _ _ _ (fun x => by simp [teamObservation])]
    simp [incidentObservation, teamObservation, Observation.label, List.lookup]
  · intro o ho
    simp only [List.mem_cons, List.mem_append, List.mem_map] at ho
    rcases ho with rfl | ⟨a, _, rfl⟩ | ⟨t, _, rfl⟩
    · simp [incidentObservation, Observation.label, List.lookup]
    · simp [assigneeObservation, Observation.label, List.lookup]
    · simp [teamObservation, Observation.label, List.lookup]

theorem allowed_event_fans_out_witness :
    (sampleListener.IncidentEventTriggered sampleLibrary sampleResolvedEvent).err = none ∧
    (sampleListener.IncidentEventTriggered sampleLibrary sampleResolvedEvent).observations.length
      = 1 + 2 + 1 :=
  have h := allowed_event_fans_out sampleLibrary sampleListener sampleResolvedEvent [1]
    sampleIncident (by decide) rfl rfl
  ⟨h.1, h.2.1⟩


/-! ## Instrumented collector -/

theorem graceful_collect_returns_nil_aux {σ : Type} (now : σ → Time)
    (c : GracefulCollectorWithMetrics σ) (ctx : Context) (w : Instrumented σ) :
    (c.Collect now ctx w).1 = none := by
  unfold GracefulCollectorWithMetrics.Collect
  simp only
  split <;> rfl

/-- C7: `GracefulCollectorWithMetrics.Collect` returns nil for every wrapped
collector, context and world, whether the wrapped `Collect` succeeds or fails
(its result is recorded in the effects, never returned). -/
theorem graceful_collect_returns_nil {σ : Type} (now : σ → Time)
    (c : GracefulCollectorWithMetrics σ) (ctx : Context) (w : Instrumented σ) :
    (c.Collect now ctx w).1 = none ∧
    CollectEffect.innerCollect c.collectorName (c.collector ctx w.inner).1 ∈
      (c.Collect now ctx w).2.effects := by
  refine ⟨graceful_collect_returns_nil_aux now c ctx w, ?_⟩
  unfold GracefulCollectorWithMetrics.Collect
  simp only
  split <;> simp

theorem graceful_collect_effects {σ : Type} (now : σ → Time)
    (c : GracefulCollectorWithMetrics σ) (ctx : Context) (w : Instrumented σ) :
    (c.Collect now ctx w).2.inner = (c.collector ctx w.inner).2 ∧
    (c.Collect now ctx w).2.effects = w.effects ++
      ([CollectEffect.collectionsInc c.collectorName,
        CollectEffect.logDebug "collection start" c.collectorName,
        CollectEffect.innerCollect c.collectorName (c.collector ctx w.inner).1] ++
       (match (c.collector ctx w.inner).1 with
        | none => [CollectEffect.logDebug "collection finished" c.collectorName]
        | some err => [CollectEffect.errorsInc c.collectorName,
            CollectEffect.logError "collection failed" err c.collectorName]) ++
       [CollectEffect.latencyObserve c.collectorName
          (now (c.collector ctx w.inner).2 - now w.inner)]) := by
  unfold GracefulCollectorWithMetrics.Collect
  simp only
  split <;> rename_i h <;> simp [h]

theorem graceful_collect_counts {σ : Type} (now : σ → Time)
    (c : GracefulCollectorWithMetrics σ) (ctx : Context) (w : Instrumented σ) :
    innerCalls c.collectorName (c.Collect now ctx w).2.effects =
      innerCalls c.collectorName w.effects + 1 ∧
    collectionsCount c.collectorName (c.Collect now ctx w).2.effects =
      collectionsCount c.collectorName w.effects + 1 ∧
    latencyObservations c.collectorName (c.Collect now ctx w).2.effects =
      latencyObservations c.collectorName w.effects + 1 ∧
    errorsCount c.collectorName (c.Collect now ctx w).2.effects =
      errorsCount c.collectorName w.effects +
        (if (c.collector ctx w.inner).1 = none then 0 else 1) := by
  rw [(graceful_collect_effects now c ctx w).2]
  cases h : (c.collector ctx w.inner).1 with
  | none =>
    simp [innerCalls, collectionsCount, latencyObservations, errorsCount, List.countP_append,
      List.count_append, List.countP_cons, List.count_cons]
  | some err =>
    simp [innerCalls, collectionsCount, latencyObservations, errorsCount, List.countP_append,
      List.count_append, List.countP_cons, List.count_cons]

theorem collectMany_counts {σ : Type} (now : σ → Time) (c : GracefulCollectorWithMetrics σ)
    (ctxs : List Context) (w : Instrumented σ) :
    (c.collectMany now w ctxs).inner = runCollector c.collector w.inner ctxs ∧
    innerCalls c.collectorName (c.collectMany now w ctxs).effects =
      innerCalls c.collectorName w.effects + ctxs.length ∧
    collectionsCount c.collectorName (c.collectMany now w ctxs).effects =
      collectionsCount c.collectorName w.effects + ctxs.length ∧
    latencyObservations c.collectorName (c.collectMany now w ctxs).effects =
      latencyObservations c.collectorName w.effects + ctxs.length ∧
    errorsCount c.collectorName (c.collectMany now w ctxs).effects =
      errorsCount c.collectorName w.effects + failedCalls c.collector w.inner ctxs := by
  induction ctxs generalizing w with
  | nil => simp [GracefulCollectorWithMetrics.collectMany, runCollector, failedCalls]
  | cons ctx rest ih =>
    obtain ⟨h1, h2, h3, h4, h5⟩ := ih (c.Collect now ctx w).2
    obtain ⟨g1, g2, g3, g4⟩ := graceful_collect_counts now c ctx w
    have hin := (graceful_collect_effects now c ctx w).1
    simp only [GracefulCollectorWithMetrics.collectMany, runCollector, failedCalls,
      List.length_cons]
    rw [h1, h2, h3, h4, h5, g1, g2, g3, g4, hin]
    refine ⟨rfl, ?_, ?_, ?_, ?_⟩ <;> omega

/-- C8: one call of `GracefulCollectorWithMetrics.Collect` calls the wrapped
collector once, adds 1 to the attempt counter of its name, records one latency
observation, and adds 1 to the error counter exactly when the wrapped call
fails; after `n` calls from fresh counters, of which `k` wrapped calls failed,
the attempt counter is `n` and the error counter is `k`. -/
theorem collect_counts_attempts_and_errors {σ : Type} (now : σ → Time)
    (c : GracefulCollectorWithMetrics σ) :
    (∀ (ctx : Context) (w : Instrumented σ),
      (c.Collect now ctx w).2.inner = (c.collector ctx w.inner).2 ∧
      innerCalls c.collectorName (c.Collect now ctx w).2.effects =
        innerCalls c.collectorName w.effects + 1 ∧
      collectionsCount c.collectorName (c.Collect now ctx w).2.effects =
        collectionsCount c.collectorName w.effects + 1 ∧
      latencyObservations c.collectorName (c.Collect now ctx w).2.effects =
        latencyObservations c.collectorName w.effects + 1 ∧
      errorsCount c.collectorName (c.Collect now ctx w).2.effects =
        errorsCount c.collectorName w.effects +
          (if (c.collector ctx w.inner).1 = none then 0 else 1)) ∧
    (∀ (ctxs : List Context) (s : σ),
      (c.collectMany now ⟨s, []⟩ ctxs).inner = runCollector c.collector s ctxs ∧
      innerCalls c.collectorName (c.collectMany now ⟨s, []⟩ ctxs).effects = ctxs.length ∧
      collectionsCount c.collectorName (c.collectMany now ⟨s, []⟩ ctxs).effects = ctxs.length ∧
      latencyObservations c.collectorName (c.collectMany now ⟨s, []⟩ ctxs).effects
        = ctxs.length ∧
      errorsCount c.collectorName (c.collectMany now ⟨s, []⟩ ctxs).effects =
        failedCalls c.collector s ctxs) := by
  constructor
  · intro ctx w
    exact ⟨(graceful_collect_effects now c ctx w).1, graceful_collect_counts now c ctx w⟩
  · intro ctxs s
    have h := collectMany_counts now c ctxs ⟨s, []⟩
    simpa [innerCalls, collectionsCount, latencyObservations, errorsCount] using h

/-! ## Periodic scheduler -/

theorem reportMetricNames_eq :
    reportMetricNames =
      ["mean_assignment_count", "mean_engaged_seconds", "mean_engaged_user_count",
        "mean_seconds_to_engage", "mean_seconds_to_first_ack", "mean_seconds_to_resolve",
        "mean_seconds_to_mobilize", "total_business_hour_interruptions",
        "total_engaged_seconds", "total_escalation_count", "total_incident_count",
        "total_off_hour_interruptions", "total_sleep_hour_interruptions",
        "total_snoozed_seconds", "up_time_pct"] := rfl

/-- C11: `GetReportMetricName s` returns a nil error exactly when `s` is one
of the 15 names of the closed set, and then returns `s` itself; for every
other string it returns the empty name and a non-nil error. -/
theorem getReportMetricName_accepts_closed_set (s : String) :
    reportMetricNames.length = 15 ∧
    ((GetReportMetricName s).2 = none ↔
      s ∈ ["mean_assignment_count", "mean_engaged_seconds", "mean_engaged_user_count",
        "mean_seconds_to_engage", "mean_seconds_to_first_ack", "mean_seconds_to_resolve",
        "mean_seconds_to_mobilize", "total_business_hour_interruptions",
        "total_engaged_seconds", "total_escalation_count", "total_incident_count",
        "total_off_hour_interruptions", "total_sleep_hour_interruptions",
        "total_snoozed_seconds", "up_time_pct"]) ∧
    ((GetReportMetricName s).2 = none → (GetReportMetricName s).1 = s) ∧
    ((GetReportMetricName s).2 ≠ none →
      GetReportMetricName s = ("", some ⟨"metric " ++ s ++ " not found"⟩)) := by
  rw [← reportMetricNames_eq]
  unfold GetReportMetricName
  by_cases h : s ∈ reportMetricNames
  · simp [h]
    rfl
  · simp [h, metricNotFound]
    rfl

theorem getReportMetricName_accepts_closed_set_witness :
    (GetReportMetricName "up_time_pct").1 = "up_time_pct" ∧
    GetReportMetricName "uptime" = ("", some ⟨"metric uptime not found"⟩) :=
  ⟨(getReportMetricName_accepts_closed_set "up_time_pct").2.2.1 (by decide),
   (getReportMetricName_accepts_closed_set "uptime").2.2.2 (by decide)⟩

theorem getMetricByName_eq_lookup (i : ReportItem) (mn : ReportMetricName)
    (h : mn ∈ reportMetricNames) :
    (i.GetMetricByName mn).2 = none ∧
    i.numericFields.lookup mn = some (i.GetMetricByName mn).1 := by
  simp only [reportMetricNames, List.mem_cons, List.mem_singleton, List.not_mem_nil,
    or_false] at h
  rcases h with h | h | h | h | h | h | h | h | h | h | h | h | h | h | h <;>
    subst h <;> exact ⟨rfl, rfl⟩

theorem getMetricByName_of_not_mem (i : ReportItem) (mn : ReportMetricName)
    (h : mn ∉ reportMetricNames) :
    i.GetMetricByName mn = (Float64.zero, some (metricNotFound mn)) := by
  simp only [reportMetricNames, List.mem_cons, List.mem_singleton, List.not_mem_nil,
    or_false, not_or] at h
  obtain ⟨h1, h2, h3, h4, h5, h6, h7, h8, h9, h10, h11, h12, h13, h14, h15⟩ := h
  simp [ReportItem.GetMetricByName, h1, h2, h3, h4, h5, h6, h7, h8, h9, h10, h11, h12, h13,
    h14, h15]

/-- C13: for every row and every name that `GetReportMetricName` accepts,
`GetMetricByName` returns a nil error and the value of the row's numeric field
whose JSON key is that name; for every name that `GetReportMetricName` rejects
it returns a non-nil error. -/
theorem getMetricByName_total_on_closed_set (i : ReportItem) (mn : String) :
    ((GetReportMetricName mn).2 = none →
      (i.GetMetricByName mn).2 = none ∧
      i.numericFields.lookup mn = some (i.GetMetricByName mn).1) ∧
    ((GetReportMetricName mn).2 ≠ none →
      (i.GetMetricByName mn).2 = some ⟨"metric " ++ mn ++ " not found"⟩) ∧
    (i.GetMetricByName "total_incident_count").1 = i.TotalIncidentCount ∧
    (i.GetMetricByName "up_time_pct").1 = i.UpTimePct := by
  refine ⟨?_, ?_, rfl, rfl⟩
  · intro h
    apply getMetricByName_eq_lookup
    by_contra hn
    simp [GetReportMetricName, hn] at h
  · intro h
    have hn : mn ∉ reportMetricNames := by
      intro hm
      simp [GetReportMetricName, hm] at h
    rw [getMetricByName_of_not_mem i mn hn]
    rfl

theorem getMetricByName_total_on_closed_set_witness :
    (({ UpTimePct := ⟨99⟩, TotalIncidentCount := ⟨7⟩ } : ReportItem).GetMetricByName
        "up_time_pct").2 = none ∧
    ({ UpTimePct := ⟨99⟩, TotalIncidentCount := ⟨7⟩ } : ReportItem).numericFields.lookup
        "up_time_pct" =
      some (({ UpTimePct := ⟨99⟩, TotalIncidentCount := ⟨7⟩ } : ReportItem).GetMetricByName
        "up_time_pct").1 :=
  (getMetricByName_total_on_closed_set { UpTimePct := ⟨99⟩, TotalIncidentCount := ⟨7⟩ }
    "up_time_pct").1 (by decide)

/-! ## Name resolution and wiring -/

theorem getReportMetricName_of_mem (n : String) (h : n ∈ reportMetricNames) :
    GetReportMetricName n = (n, none) := by
  simp [GetReportMetricName, h]

theorem getReportMetricName_of_not_mem (n : String) (h : n ∉ reportMetricNames) :
    GetReportMetricName n = ("", some (metricNotFound n)) := by
  simp [GetReportMetricName, h]

theorem resolveNamesFrom_of_all_mem (names : List String) (rm : List ReportMetricName)
    (h : ∀ n ∈ names, n ∈ reportMetricNames) :
    resolveNamesFrom rm names = (some (rm ++ names), none) := by
  induction names generalizing rm with
  | nil => simp [resolveNamesFrom]
  | cons n rest ih =>
    have hn := getReportMetricName_of_mem n (h n (List.mem_cons_self _ _))
    simp only [resolveNamesFrom, hn]
    rw [ih _ (fun m hm => h m (List.mem_cons_of_mem _ hm))]
    simp

theorem resolveNamesFrom_of_unknown (names : List String) (rm : List ReportMetricName)
    (h : ∃ n ∈ names, n ∉ reportMetricNames) :
    ∃ n ∈ names, n ∉ reportMetricNames ∧
      resolveNamesFrom rm names = (none, some (metricNotFound n)) := by
  induction names generalizing rm with
  | nil =>
    obtain ⟨n, hn, _⟩ := h
    cases hn
  | cons n rest ih =>
    by_cases hn : n ∈ reportMetricNames
    · obtain ⟨m, hm, hbad⟩ := h
      have hmrest : m ∈ rest := by
        rcases List.mem_cons.mp hm with rfl | hm'
        · exact absurd hn hbad
        · exact hm'
      obtain ⟨k, hk, hkbad, hres⟩ := ih (rm ++ [n]) ⟨m, hmrest, hbad⟩
      refine ⟨k, List.mem_cons_of_mem _ hk, hkbad, ?_⟩
      simp only [resolveNamesFrom, getReportMetricName_of_mem n hn]
      exact hres
    · refine ⟨n, List.mem_cons_self _ _, hn, ?_⟩
      simp only [resolveNamesFrom, getReportMetricName_of_not_mem n hn]

theorem register_of_fresh (r : Registry) (c : MetricVec)
    (hvalid : isValidMetricName c.name = true)
    (hfresh : c.name ∉ r.registered.map MetricVec.name) :
    r.Register c = .ok { registered := r.registered ++ [c] } := by
  simp [Registry.Register, hvalid, hfresh]

theorem register_of_registered (r : Registry) (c : MetricVec)
    (h : c.name ∈ r.registered.map MetricVec.name) :
    ∃ err, r.Register c = .error err := by
  by_cases hv : isValidMetricName c.name = true
  · refine ⟨⟨"duplicate metrics collector registration attempted: " ++ c.name⟩, ?_⟩
    simp only [Registry.Register, hv, h, Bool.not_true, Bool.false_eq_true, if_false, if_true]
  · refine ⟨⟨"descriptor is invalid: " ++ c.name⟩, ?_⟩
    simp only [Registry.Register, hv, Bool.not_eq_true', Bool.not_eq_true, if_true]

theorem mustRegister_of_registered (r : Registry) (c : MetricVec) (cs : List MetricVec)
    (h : c.name ∈ r.registered.map MetricVec.name) :
    ∃ msg, r.MustRegister (c :: cs) = Outcome.panicked msg := by
  obtain ⟨err, herr⟩ := register_of_registered r c h
  exact ⟨err.msg, by simp only [Registry.MustRegister, herr]⟩

theorem mustRegister_singleton_of_fresh (r : Registry) (c : MetricVec)
    (hvalid : isValidMetricName c.name = true)
    (hfresh : c.name ∉ r.registered.map MetricVec.name) :
    r.MustRegister [c] = Outcome.returned { registered := r.registered ++ [c] } := by
  simp only [Registry.MustRegister, register_of_fresh r c hvalid hfresh]

theorem registerCollectProcessMetrics_of_fresh (registerer : Registry)
    (hfresh : ∀ v ∈ registerer.registered,
      v.name ∉ ["pagerduty_metrics_collector_collections_count",
        "pagerduty_metrics_collector_errors_count", "pagerduty_metrics_collector_latency"]) :
    RegisterCollectProcessMetrics registerer =
      Outcome.returned (
        { collectionLatencyHistogram :=
            { name := "pagerduty_metrics_collector_latency", labelNames := ["collector_name"] }
          collectionsCounter :=
            { name := "pagerduty_metrics_collector_collections_count",
              labelNames := ["collector_name"] }
          collectionErrorsCounter :=
            { name := "pagerduty_metrics_collector_errors_count",
              labelNames := ["collector_name"] } },
        { registered := registerer.registered ++
            [{ name := "pagerduty_metrics_collector_collections_count",
               labelNames := ["collector_name"] },
             { name := "pagerduty_metrics_collector_errors_count",
               labelNames := ["collector_name"] },
             { name := "pagerduty_metrics_collector_latency",
               labelNames := ["collector_name"] }] }) := by
  have hnot : ∀ s ∈ ["pagerduty_metrics_collector_collections_count",
      "pagerduty_metrics_collector_errors_count", "pagerduty_metrics_collector_latency"],
      s ∉ registerer.registered.map MetricVec.name := by
    intro s hs hm
    obtain ⟨v, hv, hname⟩ := List.mem_map.mp hm
    exact hfresh v hv (hname ▸ hs)
  have h1 := hnot "pagerduty_metrics_collector_collections_count" (by simp)
  have h2 := hnot "pagerduty_metrics_collector_errors_count" (by simp)
  have h3 := hnot "pagerduty_metrics_collector_latency" (by simp)
  unfold RegisterCollectProcessMetrics
  simp only [Registry.MustRegister]
  rw [register_of_fresh registerer _ (by decide) h1]
  simp only
  rw [register_of_fresh _ _ (by decide) (by simp [h2])]
  simp only
  rw [register_of_fresh _ _ (by decide) (by simp [h3])]
  simp

/-- Claim C12 as the code has it: on a registry that already holds one of
the process metrics, `resolvePagerdutyMetricCollectors` called with an
unknown analytics metric name panics in `RegisterCollectProcessMetrics`,
before the names are resolved, and returns no error. -/
theorem wiring_panics_before_resolving_names :
    (GetReportMetricName "uptime").2 = some ⟨"metric uptime not found"⟩ ∧
    resolvePagerdutyMetricCollectors
        { registered :=
            [{ name := "pagerduty_metrics_collector_latency", labelNames := ["collector_name"] }] }
        { AnalyticsServiceMetricNames := ["uptime"] } =
      Outcome.panicked ("duplicate metrics collector registration attempted: " ++
        "pagerduty_metrics_collector_latency") :=
  ⟨rfl, rfl⟩

/-- Claim C12, amended: when some configured analytics metric name is outside
the closed set, `resolveReportMetricNames` returns no name list and the error
"metric n not found" of such a name `n`, and `resolvePagerdutyMetricCollectors`,
whenever its registration of the process metrics returns (as it does on a
registry that does not hold them yet), returns that error and no collector,
with no further series registered; whatever the names, when that registration
panics so does `resolvePagerdutyMetricCollectors`; when every name is in the
closed set, `resolveReportMetricNames` returns the same names in the same
order. -/
theorem resolution_rejects_unknown_names (opts : Options) :
    ((∃ n ∈ opts.AnalyticsServiceMetricNames, (GetReportMetricName n).2 ≠ none) →
      (resolveReportMetricNames opts).1 = none ∧
      (∃ n ∈ opts.AnalyticsServiceMetricNames,
        (GetReportMetricName n).2 = some ⟨"metric " ++ n ++ " not found"⟩ ∧
        (resolveReportMetricNames opts).2 = (GetReportMetricName n).2) ∧
      (∀ registerer cpm r1,
        RegisterCollectProcessMetrics registerer = Outcome.returned (cpm, r1) →
        resolvePagerdutyMetricCollectors registerer opts =
          Outcome.returned
            { collectors := [], err := (resolveReportMetricNames opts).2, registerer := r1 }) ∧
      (∀ registerer : Registry,
        (∀ v ∈ registerer.registered,
          v.name ∉ ["pagerduty_metrics_collector_collections_count",
            "pagerduty_metrics_collector_errors_count",
            "pagerduty_metrics_collector_latency"]) →
        ∃ r1, resolvePagerdutyMetricCollectors registerer opts =
          Outcome.returned
            { collectors := [], err := (resolveReportMetricNames opts).2, registerer := r1 })) ∧
    (∀ (registerer : Registry) (msg : String),
      RegisterCollectProcessMetrics registerer = Outcome.panicked msg →
      resolvePagerdutyMetricCollectors registerer opts = Outcome.panicked msg) ∧
    ((∀ n ∈ opts.AnalyticsServiceMetricNames, (GetReportMetricName n).2 = none) →
      resolveReportMetricNames opts = (some opts.AnalyticsServiceMetricNames, none)) := by
  refine ⟨?_, ?_, ?_⟩
  · rintro ⟨m, hm, hbad⟩
    have hm' : m ∉ reportMetricNames := by
      intro hmem
      rw [getReportMetricName_of_mem m hmem] at hbad
      exact hbad rfl
    obtain ⟨n, hn, hnbad, hres⟩ :=
      resolveNamesFrom_of_unknown opts.AnalyticsServiceMetricNames [] ⟨m, hm, hm'⟩
    have hget := getReportMetricName_of_not_mem n hnbad
    have herr : (GetReportMetricName n).2 = some (metricNotFound n) := by rw [hget]
    have hresolve : resolveReportMetricNames opts = (none, (GetReportMetricName n).2) := by
      rw [herr]
      exact hres
    have hwire : ∀ registerer cpm r1,
        RegisterCollectProcessMetrics registerer = Outcome.returned (cpm, r1) →
        resolvePagerdutyMetricCollectors registerer opts =
          Outcome.returned
            { collectors := [], err := (resolveReportMetricNames opts).2, registerer := r1 } := by
      intro registerer cpm r1 hreg
      simp only [resolvePagerdutyMetricCollectors, hreg, hresolve, herr]
    refine ⟨by rw [hresolve], ⟨n, hn, herr, by rw [hresolve]⟩, hwire, ?_⟩
    intro registerer hfresh
    exact ⟨_, hwire registerer _ _ (registerCollectProcessMetrics_of_fresh registerer hfresh)⟩
  · intro registerer msg hreg
    simp only [resolvePagerdutyMetricCollectors, hreg]
  · intro hall
    have hall' : ∀ n ∈ opts.AnalyticsServiceMetricNames, n ∈ reportMetricNames := by
      intro n hn
      by_contra hnot
      have := hall n hn
      rw [getReportMetricName_of_not_mem n hnot] at this
      cases this
    have := resolveNamesFrom_of_all_mem opts.AnalyticsServiceMetricNames [] hall'
    simpa [resolveReportMetricNames] using this

theorem resolution_rejects_unknown_names_witness :
    resolveReportMetricNames { AnalyticsServiceMetricNames := ["up_time_pct", "uptime"] } =
      (none, some ⟨"metric uptime not found"⟩) ∧
    resolvePagerdutyMetricCollectors {}
        { AnalyticsServiceMetricNames := ["up_time_pct", "uptime"] } =
      Outcome.returned
        { collectors := []
          err := some ⟨"metric uptime not found"⟩
          registerer :=
            { registered :=
                [{ name := "pagerduty_metrics_collector_collections_count",
                   labelNames := ["collector_name"] },
                 { name := "pagerduty_metrics_collector_errors_count",
                   labelNames := ["collector_name"] },
                 { name := "pagerduty_metrics_collector_latency",
                   labelNames := ["collector_name"] }] } } ∧
    resolveReportMetricNames {} =
      (some ["total_escalation_count", "total_incident_count", "mean_seconds_to_resolve",
        "mean_seconds_to_first_ack", "up_time_pct"], none) :=
  ⟨rfl,
    ((resolution_rejects_unknown_names
      { AnalyticsServiceMetricNames := ["up_time_pct", "uptime"] }).1
        ⟨"uptime", by decide, by decide⟩).2.2.1 {} _ _ rfl,
    (resolution_rejects_unknown_names {}).2.2 (by decide)⟩

/-! ## Registration -/

theorem register_ok_eq (r r' : Registry) (c : MetricVec) (h : r.Register c = .ok r') :
    r' = { registered := r.registered ++ [c] } := by
  unfold Registry.Register at h
  split at h
  · cases h
  · split at h
    · cases h
    · exact (Except.ok.inj h).symm

theorem mustRegister_returned (cs : List MetricVec) (r r' : Registry)
    (h : r.MustRegister cs = Outcome.returned r') :
    r'.registered = r.registered ++ cs := by
  induction cs generalizing r with
  | nil =>
    simp only [Registry.MustRegister, Outcome.returned.injEq] at h
    simp [← h]
  | cons c rest ih =>
    simp only [Registry.MustRegister] at h
    cases hreg : r.Register c with
    | error err =>
      rw [hreg] at h
      cases h
    | ok r1 =>
      rw [hreg] at h
      rw [ih r1 h, register_ok_eq r r1 c hreg]
      simp

theorem registerServiceAnalyticMetrics_panics (names : List ReportMetricName)
    (gaugeMetrics : ServiceAnalyticMetrics) (r : Registry)
    (h : (∃ n ∈ names, prepareMetricName n ∈ r.registered.map MetricVec.name) ∨ ¬ names.Nodup) :
    ∃ msg, registerServiceAnalyticMetrics gaugeMetrics r names = Outcome.panicked msg := by
  induction names generalizing gaugeMetrics r with
  | nil =>
    rcases h with ⟨n, hn, _⟩ | h
    · cases hn
    · exact absurd List.nodup_nil h
  | cons n rest ih =>
    simp only [registerServiceAnalyticMetrics, Registry.MustRegister]
    cases hreg : r.Register (serviceAnalyticGauge n) with
    | error err => exact ⟨err.msg, rfl⟩
    | ok r' =>
      simp only
      have hfresh : prepareMetricName n ∉ r.registered.map MetricVec.name := by
        intro hmem
        obtain ⟨err, herr⟩ := register_of_registered r (serviceAnalyticGauge n) hmem
        rw [herr] at hreg
        cases hreg
      have hr' := register_ok_eq r r' _ hreg
      apply ih
      rcases h with ⟨m, hm, hmreg⟩ | h
      · rcases List.mem_cons.mp hm with rfl | hm'
        · exact absurd hmreg hfresh
        · left
          refine ⟨m, hm', ?_⟩
          rw [hr']
          simp only [List.map_append, List.mem_append]
          exact Or.inl hmreg
      · rw [List.nodup_cons, not_and_or, not_not] at h
        rcases h with h | h
        · left
          refine ⟨n, h, ?_⟩
          rw [hr']
          simp [serviceAnalyticGauge]
        · exact Or.inr h

/-- The claim C20 fails: a name list with the same metric name twice makes
`RegisterServiceAnalyticMetricsFromNames` panic, and a second call of
`RegisterCollectProcessMetrics` on the registry of the first panics. -/
theorem second_registration_panics :
    RegisterServiceAnalyticMetricsFromNames {} ["up_time_pct", "up_time_pct"] =
      Outcome.panicked
        "duplicate metrics collector registration attempted: pagerduty_service_up_time_pct" ∧
    ∃ cpm r, RegisterCollectProcessMetrics {} = Outcome.returned (cpm, r) ∧
      RegisterCollectProcessMetrics r =
        Outcome.panicked ("duplicate metrics collector registration attempted: " ++
          "pagerduty_metrics_collector_collections_count") :=
  ⟨rfl, _, _, rfl, rfl⟩

/-- C20, amended: registration is not idempotent.  The first registration of
a validly named series on a registry that does not hold the name adds that
single series with its label names; registering a series whose name is already
registered panics.  `RegisterServiceAnalyticMetricsFromNames` with a name list
in which a name occurs twice panics, and so does `RegisterCollectProcessMetrics`
called again on the registry a first call returned. -/
theorem registration_is_not_idempotent :
    (∀ (r : Registry) (c : MetricVec), isValidMetricName c.name = true →
      c.name ∉ r.registered.map MetricVec.name →
      r.MustRegister [c] = Outcome.returned { registered := r.registered ++ [c] }) ∧
    (∀ (r : Registry) (c : MetricVec), c.name ∈ r.registered.map MetricVec.name →
      ∃ msg, r.MustRegister [c] = Outcome.panicked msg) ∧
    (∀ (r : Registry) (names : List ReportMetricName), ¬ names.Nodup →
      ∃ msg, RegisterServiceAnalyticMetricsFromNames r names = Outcome.panicked msg) ∧
    (∀ (r r1 : Registry) (cpm : CollectProcessMetrics),
      RegisterCollectProcessMetrics r = Outcome.returned (cpm, r1) →
      ∃ msg, RegisterCollectProcessMetrics r1 = Outcome.panicked msg) := by
  refine ⟨mustRegister_singleton_of_fresh, fun r c h => mustRegister_of_registered r c [] h,
    ?_, ?_⟩
  · intro r names h
    exact registerServiceAnalyticMetrics_panics names [] r (Or.inr h)
  · intro r r1 cpm h
    have hmem : "pagerduty_metrics_collector_collections_count" ∈
        r1.registered.map MetricVec.name := by
      unfold RegisterCollectProcessMetrics at h
      simp only at h
      split at h
      · cases h
      · rename_i r2 hmust
        simp only [Outcome.returned.injEq, Prod.mk.injEq] at h
        rw [← h.2, mustRegister_returned _ _ _ hmust]
        simp
    obtain ⟨msg, hmsg⟩ := mustRegister_of_registered r1
      { name := "pagerduty_metrics_collector_collections_count",
        labelNames := ["collector_name"] }
      [{ name := "pagerduty_metrics_collector_errors_count", labelNames := ["collector_name"] },
       { name := "pagerduty_metrics_collector_latency", labelNames := ["collector_name"] }] hmem
    exact ⟨msg, by simp only [RegisterCollectProcessMetrics, hmsg]⟩

theorem registration_is_not_idempotent_witness :
    ∃ msg, RegisterServiceAnalyticMetricsFromNames {}
      ["total_incident_count", "up_time_pct", "total_incident_count"] = Outcome.panicked msg :=
  registration_is_not_idempotent.2.2.1 {}
    ["total_incident_count", "up_time_pct", "total_incident_count"] (by decide)

/-! ## Textual form of a duration -/

theorem digitChar_isDigit (n : Nat) (h : n < 10) : (Nat.digitChar n).isDigit = true := by
  interval_cases n <;> decide

theorem digitChar_injective (n m : Nat) (hn : n < 10) (hm : m < 10)
    (h : Nat.digitChar n = Nat.digitChar m) : n = m := by
  interval_cases n <;> interval_cases m <;> first | rfl | (exact absurd h (by decide))

theorem map_digitChar_injective (a b : List Nat) (ha : ∀ d ∈ a, d < 10) (hb : ∀ d ∈ b, d < 10)
    (h : a.map Nat.digitChar = b.map Nat.digitChar) : a = b := by
  induction a generalizing b with
  | nil =>
    cases b with
    | nil => rfl
    | cons y ys => simp at h
  | cons x xs ih =>
    cases b with
    | nil => simp at h
    | cons y ys =>
      simp only [List.map_cons, List.cons.injEq] at h
      have hxy := digitChar_injective x y (ha x (List.mem_cons_self _ _))
        (hb y (List.mem_cons_self _ _)) h.1
      rw [hxy, ih ys (fun d hd => ha d (List.mem_cons_of_mem _ hd))
        (fun d hd => hb d (List.mem_cons_of_mem _ hd)) h.2]

theorem fmtInt_isDigit (v : Nat) : ∀ c ∈ fmtInt v, c.isDigit = true := by
  intro c hc
  unfold fmtInt at hc
  split at hc
  · simp only [List.mem_singleton] at hc
    rw [hc]
    decide
  · obtain ⟨d, hd, rfl⟩ := List.mem_map.mp hc
    exact digitChar_isDigit d (Nat.digits_lt_base (by norm_num) (List.mem_reverse.mp hd))

theorem fmtInt_ne_nil (v : Nat) : fmtInt v ≠ [] := by
  unfold fmtInt
  split
  · simp
  · rename_i hv
    simp [Nat.digits_eq_nil_iff_eq_zero, hv]

theorem fmtInt_eq_zero_iff (v : Nat) : fmtInt v = ['0'] ↔ v = 0 := by
  constructor
  · intro h
    by_contra hv
    simp only [fmtInt, hv, if_false] at h
    have hlast := Nat.getLast_digit_ne_zero 10 hv
    have hd : Nat.digits 10 v = [0] := by
      have h1 : (Nat.digits 10 v).reverse.map Nat.digitChar = [0].map Nat.digitChar := h
      have h2 := map_digitChar_injective _ _
        (fun d hd => Nat.digits_lt_base (by norm_num) (List.mem_reverse.mp hd))
        (by simp) h1
      simpa using congrArg List.reverse h2
    simp [hd] at hlast
  · intro h
    simp [fmtInt, h]

theorem fmtInt_injective (v w : Nat) (h : fmtInt v = fmtInt w) : v = w := by
  by_cases hv : v = 0
  · subst hv
    have : fmtInt w = ['0'] := by rw [← h]; rfl
    exact ((fmtInt_eq_zero_iff w).mp this).symm
  · by_cases hw : w = 0
    · subst hw
      have : fmtInt v = ['0'] := by rw [h]; rfl
      exact (fmtInt_eq_zero_iff v).mp this
    · simp only [fmtInt, hv, hw, if_false] at h
      have h2 := map_digitChar_injective _ _
        (fun d hd => Nat.digits_lt_base (by norm_num) (List.mem_reverse.mp hd))
        (fun d hd => Nat.digits_lt_base (by norm_num) (List.mem_reverse.mp hd)) h
      exact Nat.digits.injective 10 (List.reverse_injective h2)

theorem ofDigits_append_zeros (l : List Nat) (k : Nat) :
    Nat.ofDigits 10 (l ++ List.replicate k 0) = Nat.ofDigits 10 l := by
  induction l with
  | nil =>
    induction k with
    | zero => rfl
    | succ k ih =>
      rw [List.nil_append] at ih
      simp [List.replicate_succ, Nat.ofDigits_cons, ih]
  | cons d ds ih => simp [Nat.ofDigits_cons, ih]

theorem ofDigits_zeros_append (l : List Nat) (k : Nat) :
    Nat.ofDigits 10 (List.replicate k 0 ++ l) = 10 ^ k * Nat.ofDigits 10 l := by
  induction k with
  | zero => simp
  | succ k ih =>
    simp only [List.replicate_succ, List.cons_append, Nat.ofDigits_cons, ih]
    ring

/-- The padded digit list that `fracDigits` trims. -/
theorem fracDigits_padded (v prec : Nat) :
    ∃ k, Nat.digits 10 (v % 10 ^ prec) ++
        List.replicate (prec - (Nat.digits 10 (v % 10 ^ prec)).length) 0 =
      List.replicate k 0 ++ fracDigits v prec := by
  unfold fracDigits
  generalize Nat.digits 10 (v % 10 ^ prec) ++
    List.replicate (prec - (Nat.digits 10 (v % 10 ^ prec)).length) 0 = l
  induction l with
  | nil => exact ⟨0, rfl⟩
  | cons d ds ih =>
    by_cases hd : d = 0
    · obtain ⟨k, hk⟩ := ih
      refine ⟨k + 1, ?_⟩
      subst hd
      rw [List.dropWhile_cons_of_pos (by simp), List.replicate_succ, List.cons_append, ← hk]
    · exact ⟨0, by rw [List.dropWhile_cons_of_neg (by simpa using hd)]; rfl⟩

theorem fracDigits_value (v prec : Nat) :
    ∃ k, v % 10 ^ prec = 10 ^ k * Nat.ofDigits 10 (fracDigits v prec) ∧
      k + (fracDigits v prec).length = prec := by
  obtain ⟨k, hk⟩ := fracDigits_padded v prec
  refine ⟨k, ?_, ?_⟩
  · have h := congrArg (Nat.ofDigits 10) hk
    rw [ofDigits_append_zeros, Nat.ofDigits_digits, ofDigits_zeros_append] at h
    exact h
  · have hlen : (Nat.digits 10 (v % 10 ^ prec)).length ≤ prec := by
      by_cases hz : v % 10 ^ prec = 0
      · simp [hz]
      · rw [Nat.digits_len 10 _ (by norm_num) hz]
        have hlt : v % 10 ^ prec < 10 ^ prec := Nat.mod_lt _ (by positivity)
        have := Nat.log_lt_of_lt_pow hz hlt
        omega
    have h := congrArg List.length hk
    simp only [List.length_append, List.length_replicate] at h
    omega

theorem fracDigits_lt (v prec : Nat) : ∀ d ∈ fracDigits v prec, d < 10 := by
  intro d hd
  obtain ⟨k, hk⟩ := fracDigits_padded v prec
  have hmem : d ∈ Nat.digits 10 (v % 10 ^ prec) ++
      List.replicate (prec - (Nat.digits 10 (v % 10 ^ prec)).length) 0 := by
    rw [hk]
    exact List.mem_append_right _ hd
  rcases List.mem_append.mp hmem with h | h
  · exact Nat.digits_lt_base (by norm_num) h
  · rw [(List.mem_replicate.mp h).2]
    norm_num

theorem fracDigits_injective (v w prec : Nat) (h : fracDigits v prec = fracDigits w prec) :
    v % 10 ^ prec = w % 10 ^ prec := by
  obtain ⟨k, hk, hklen⟩ := fracDigits_value v prec
  obtain ⟨j, hj, hjlen⟩ := fracDigits_value w prec
  have hkj : k = j := by
    rw [h] at hklen
    omega
  rw [hk, hj, h, hkj]

theorem fracToks_injective (v w prec : Nat) (h : fracToks v prec = fracToks w prec) :
    v % 10 ^ prec = w % 10 ^ prec := by
  apply fracDigits_injective
  unfold fracToks at h
  by_cases hv : fracDigits v prec = [] <;> by_cases hw : fracDigits w prec = []
  · rw [hv, hw]
  · simp [hv, hw] at h
  · simp [hv, hw] at h
  · simp only [hv, hw, if_false, List.cons.injEq, Tok.digs.injEq, and_true, true_and] at h
    exact List.reverse_injective
      (map_digitChar_injective _ _
        (fun d hd => fracDigits_lt v prec d (List.mem_reverse.mp hd))
        (fun d hd => fracDigits_lt w prec d (List.mem_reverse.mp hd)) h)

theorem digit_run_unique (ds ds' r r' : List Char)
    (hds : ∀ c ∈ ds, c.isDigit = true) (hds' : ∀ c ∈ ds', c.isDigit = true)
    (hr : ∀ c t, r = c :: t → c.isDigit = false)
    (hr' : ∀ c t, r' = c :: t → c.isDigit = false)
    (h : ds ++ r = ds' ++ r') : ds = ds' ∧ r = r' := by
  induction ds generalizing ds' with
  | nil =>
    cases ds' with
    | nil => exact ⟨rfl, h⟩
    | cons c' cs' =>
      have h1 := hr c' (cs' ++ r') h
      have h2 := hds' c' (List.mem_cons_self _ _)
      rw [h1] at h2
      cases h2
  | cons c cs ih =>
    cases ds' with
    | nil =>
      have h1 := hr' c (cs ++ r) h.symm
      have h2 := hds c (List.mem_cons_self _ _)
      rw [h1] at h2
      cases h2
    | cons c' cs' =>
      simp only [List.cons_append, List.cons.injEq] at h
      obtain ⟨h1, h2⟩ := ih cs' (fun x hx => hds x (List.mem_cons_of_mem _ hx))
        (fun x hx => hds' x (List.mem_cons_of_mem _ hx)) h.2
      exact ⟨by rw [h.1, h1], h2⟩

theorem render_head_not_digit (t : List Tok) (hwf : WellFormedToks t)
    (hnd : ∀ cs' t', t ≠ Tok.digs cs' :: t') :
    ∀ c r, renderToks t = c :: r → c.isDigit = false := by
  intro c r h
  cases t with
  | nil => simp [renderToks] at h
  | cons x t' =>
    cases x with
    | digs cs => exact absurd rfl (hnd cs t')
    | sym s =>
      simp only [renderToks, List.cons.injEq] at h
      rw [← h.1]
      exact hwf.1

theorem renderToks_injective (a b : List Tok) (ha : WellFormedToks a) (hb : WellFormedToks b)
    (h : renderToks a = renderToks b) : a = b := by
  induction a generalizing b with
  | nil =>
    cases b with
    | nil => rfl
    | cons y tb =>
      cases y with
      | digs cs =>
        simp only [renderToks] at h
        have := hb.1
        cases cs with
        | nil => exact absurd rfl this
        | cons c cs' => simp at h
      | sym s => simp [renderToks] at h
  | cons x ta ih =>
    cases b with
    | nil =>
      cases x with
      | digs cs =>
        simp only [renderToks] at h
        have := ha.1
        cases cs with
        | nil => exact absurd rfl this
        | cons c cs' => simp at h
      | sym s => simp [renderToks] at h
    | cons y tb =>
      cases x with
      | digs cs =>
        cases y with
        | digs cs' =>
          simp only [renderToks] at h
          obtain ⟨h1, h2⟩ := digit_run_unique cs cs' _ _ ha.2.1 hb.2.1
            (render_head_not_digit ta ha.2.2.2 ha.2.2.1)
            (render_head_not_digit tb hb.2.2.2 hb.2.2.1) h
          rw [h1, ih tb ha.2.2.2 hb.2.2.2 h2]
        | sym s =>
          simp only [renderToks] at h
          cases cs with
          | nil => exact absurd rfl ha.1
          | cons c cs' =>
            simp only [List.cons_append, List.cons.injEq] at h
            have h1 := ha.2.1 c (List.mem_cons_self _ _)
            rw [h.1, hb.1] at h1
            cases h1
      | sym s =>
        cases y with
        | digs cs' =>
          simp only [renderToks] at h
          cases cs' with
          | nil => exact absurd rfl hb.1
          | cons c cs'' =>
            simp only [List.cons_append, List.cons.injEq] at h
            have h1 := hb.2.1 c (List.mem_cons_self _ _)
            rw [← h.1, ha.1] at h1
            cases h1
        | sym s' =>
          simp only [renderToks, List.cons.injEq] at h
          rw [h.1, ih tb ha.2 hb.2 h.2]

theorem renderToks_append (a b : List Tok) :
    renderToks (a ++ b) = renderToks a ++ renderToks b := by
  induction a with
  | nil => rfl
  | cons x t ih => cases x <;> simp [renderToks, ih]

theorem renderToks_fracToks (v prec : Nat) : renderToks (fracToks v prec) = fmtFrac v prec := by
  unfold fracToks fmtFrac
  split <;> simp [renderToks]

theorem renderToks_durationToks (u : Nat) :
    renderToks (durationToks u) = formatDurationAbs u := by
  unfold durationToks formatDurationAbs
  by_cases h1 : u < 1000000000
  · simp only [h1, if_true]
    split_ifs <;> simp [renderToks, renderToks_append, renderToks_fracToks]
  · simp only [h1, if_false]
    by_cases h2 : u / 1000000000 / 60 > 0 <;> by_cases h3 : u / 1000000000 / 60 / 60 > 0 <;>
      simp [h2, h3, renderToks, renderToks_append, renderToks_fracToks]

theorem fmtInt_inj_iff (a b : Nat) : fmtInt a = fmtInt b ↔ a = b :=
  ⟨fmtInt_injective a b, fun h => by rw [h]⟩

theorem zero_eq_fmtInt_iff (v : Nat) : ['0'] = fmtInt v ↔ v = 0 :=
  ⟨fun h => (fmtInt_eq_zero_iff v).mp h.symm, fun h => ((fmtInt_eq_zero_iff v).mpr h).symm⟩

theorem fracDigits_eq_nil_iff (v prec : Nat) : fracDigits v prec = [] ↔ v % 10 ^ prec = 0 := by
  constructor
  · intro h
    obtain ⟨k, hk, _⟩ := fracDigits_value v prec
    rw [hk, h]
    simp
  · intro h
    simp [fracDigits, h]

theorem fracRun_eq_iff (v w prec : Nat) :
    (fracDigits v prec).reverse.map Nat.digitChar = (fracDigits w prec).reverse.map Nat.digitChar ↔
      v % 10 ^ prec = w % 10 ^ prec := by
  constructor
  · intro h
    apply fracDigits_injective
    exact List.reverse_injective
      (map_digitChar_injective _ _
        (fun d hd => fracDigits_lt v prec d (List.mem_reverse.mp hd))
        (fun d hd => fracDigits_lt w prec d (List.mem_reverse.mp hd)) h)
  · intro h
    simp only [fracDigits, h]

theorem fracMap_eq_iff (v w prec : Nat) :
    (fracDigits v prec).map Nat.digitChar = (fracDigits w prec).map Nat.digitChar ↔
      v % 10 ^ prec = w % 10 ^ prec := by
  rw [← fracRun_eq_iff, List.map_reverse, List.map_reverse, List.reverse_inj]

set_option maxHeartbeats 4000000 in
theorem durationToks_injective (u w : Nat) (h : durationToks u = durationToks w) : u = w := by
  unfold durationToks fracToks at h
  simp only [fracDigits_eq_nil_iff] at h
  split_ifs at h <;>
    simp [fmtInt_inj_iff, fmtInt_eq_zero_iff, zero_eq_fmtInt_iff, fracRun_eq_iff,
      fracMap_eq_iff] at h <;>
    omega

theorem fracDigits_digitChar_isDigit (v prec : Nat) :
    ∀ d ∈ fracDigits v prec, (Nat.digitChar d).isDigit = true :=
  fun d hd => digitChar_isDigit d (fracDigits_lt v prec d hd)

theorem wellFormed_durationToks (u : Nat) : WellFormedToks (durationToks u) := by
  have hs : Char.isDigit 's' = false := by decide
  have hn : Char.isDigit 'n' = false := by decide
  have hmu : Char.isDigit 'µ' = false := by decide
  have hm : Char.isDigit 'm' = false := by decide
  have hh : Char.isDigit 'h' = false := by decide
  have hdot : Char.isDigit '.' = false := by decide
  have h0 : Char.isDigit '0' = true := by decide
  unfold durationToks fracToks
  split_ifs <;>
    simp [WellFormedToks, fmtInt_ne_nil, hs, hn, hmu, hm, hh, hdot, h0, *] <;>
    (repeat' apply And.intro) <;>
    first
      | exact fmtInt_isDigit _
      | exact fracDigits_digitChar_isDigit _ _

theorem durationToks_head (u : Nat) : ∃ cs t, durationToks u = Tok.digs cs :: t := by
  unfold durationToks
  split_ifs <;> exact ⟨_, _, rfl⟩

theorem formatDurationAbs_injective (u w : Nat)
    (h : formatDurationAbs u = formatDurationAbs w) : u = w := by
  rw [← renderToks_durationToks, ← renderToks_durationToks] at h
  exact durationToks_injective u w
    (renderToks_injective _ _ (wellFormed_durationToks u) (wellFormed_durationToks w) h)

theorem formatDurationAbs_head_isDigit (u : Nat) :
    ∃ c t, formatDurationAbs u = c :: t ∧ c.isDigit = true := by
  obtain ⟨cs, t, h⟩ := durationToks_head u
  have hwf := wellFormed_durationToks u
  rw [h] at hwf
  rw [← renderToks_durationToks, h]
  cases cs with
  | nil => exact absurd rfl hwf.1
  | cons c cs' => exact ⟨c, cs' ++ renderToks t, rfl, hwf.2.1 c (List.mem_cons_self _ _)⟩

/-- The textual form of a duration determines the duration. -/
theorem durationString_injective : Function.Injective Duration.String := by
  intro (d : Int) (e : Int) h
  have hchars : (if d < 0 then ['-'] else []) ++ formatDurationAbs d.natAbs =
      (if e < 0 then ['-'] else []) ++ formatDurationAbs e.natAbs :=
    congrArg String.data h
  obtain ⟨c1, t1, hc1, hd1⟩ := formatDurationAbs_head_isDigit d.natAbs
  obtain ⟨c2, t2, hc2, hd2⟩ := formatDurationAbs_head_isDigit e.natAbs
  have hminus : Char.isDigit '-' = false := by decide
  by_cases hd : d < 0 <;> by_cases he : e < 0
  · simp only [hd, he, if_true, List.singleton_append, List.cons.injEq, true_and] at hchars
    rcases Int.natAbs_eq_natAbs_iff.mp (formatDurationAbs_injective _ _ hchars) with h1 | h1
    · exact h1
    · show (d : Int) = e
      omega
  · simp only [hd, he, if_true, if_false, List.singleton_append, List.nil_append] at hchars
    rw [hc2, List.cons.injEq] at hchars
    rw [← hchars.1, hminus] at hd2
    cases hd2
  · simp only [hd, he, if_true, if_false, List.singleton_append, List.nil_append] at hchars
    rw [hc1, List.cons.injEq] at hchars
    rw [hchars.1, hminus] at hd1
    cases hd1
  · simp only [hd, he, if_false, List.nil_append] at hchars
    have hd0 : (0 : Int) ≤ d := Int.not_lt.mp hd
    have he0 : (0 : Int) ≤ e := Int.not_lt.mp he
    rcases Int.natAbs_eq_natAbs_iff.mp (formatDurationAbs_injective _ _ hchars) with h1 | h1
    · exact h1
    · show (d : Int) = e
      omega

/-! ## Service analytics collector -/

theorem samples_append (a b : List AnalyticsEffect) : samples (a ++ b) = samples a ++ samples b := by
  induction a with
  | nil => rfl
  | cons e es ih => cases e <;> simp [samples, ih]

theorem skips_append (a b : List AnalyticsEffect) : skips (a ++ b) = skips a ++ skips b := by
  induction a with
  | nil => rfl
  | cons e es ih => cases e <;> simp [skips, ih]

theorem samples_pairEffects (c : ServiceAnalyticsCollector) (row : ReportItem)
    (names : List ReportMetricName) :
    samples (names.map (c.pairEffect row)) =
      (names.filter fun n => (row.GetMetricByName n).2.isNone).map (c.pairSample row) := by
  induction names with
  | nil => rfl
  | cons n rest ih =>
    cases h : (row.GetMetricByName n).2 <;>
      simp [ServiceAnalyticsCollector.pairEffect, samples, h, ih]

theorem skips_pairEffects (c : ServiceAnalyticsCollector) (row : ReportItem)
    (names : List ReportMetricName) :
    skips (names.map (c.pairEffect row)) =
      names.filter fun n => (row.GetMetricByName n).2.isSome := by
  induction names with
  | nil => rfl
  | cons n rest ih =>
    cases h : (row.GetMetricByName n).2 <;>
      simp [ServiceAnalyticsCollector.pairEffect, skips, h, ih]

/-- The inner loop when no gauge is missing: it does not panic and every
name contributes its pair effect, in order. -/
theorem collectRow_of_gauges (c : ServiceAnalyticsCollector) (srvMetrics : ReportItem)
    (names : List ReportMetricName)
    (hg : ∀ n ∈ names, (srvMetrics.GetMetricByName n).2 = none → c.metrics.get n ≠ none) :
    (c.collectRow (c.labels srvMetrics) srvMetrics names).panicked = false ∧
    (c.collectRow (c.labels srvMetrics) srvMetrics names).effects =
      names.map (c.pairEffect srvMetrics) := by
  induction names with
  | nil => simp [ServiceAnalyticsCollector.collectRow]
  | cons n rest ih =>
    obtain ⟨ih1, ih2⟩ := ih (fun m hm => hg m (List.mem_cons_of_mem _ hm))
    cases herr : (srvMetrics.GetMetricByName n).2 with
    | some err =>
      simp [ServiceAnalyticsCollector.collectRow, ServiceAnalyticsCollector.pairEffect, herr,
        ih1, ih2]
    | none =>
      cases hget : c.metrics.get n with
      | none => exact absurd hget (hg n (List.mem_cons_self _ _) herr)
      | some gauge =>
        simp [ServiceAnalyticsCollector.collectRow, ServiceAnalyticsCollector.pairEffect,
          ServiceAnalyticsCollector.pairSample, ServiceAnalyticsCollector.gaugeName, herr, hget,
          ih1, ih2]

/-- The outer loop when no gauge is missing. -/
theorem collectRows_of_gauges (c : ServiceAnalyticsCollector) (rows : List ReportItem)
    (hg : ∀ row ∈ rows, ∀ n ∈ c.metricNames,
      (row.GetMetricByName n).2 = none → c.metrics.get n ≠ none) :
    (c.collectRows rows).panicked = false ∧
    (c.collectRows rows).effects =
      rows.flatMap fun row => c.metricNames.map (c.pairEffect row) := by
  induction rows with
  | nil => simp [ServiceAnalyticsCollector.collectRows]
  | cons row rest ih =>
    obtain ⟨ih1, ih2⟩ := ih (fun r hr => hg r (List.mem_cons_of_mem _ hr))
    obtain ⟨h1, h2⟩ := collectRow_of_gauges c row c.metricNames (hg row (List.mem_cons_self _ _))
    simp [ServiceAnalyticsCollector.collectRows, h1, h2, ih1, ih2]

/-- A call whose query succeeds: the query, then the loop over the rows. -/
theorem collect_of_report {σ : Type} (clock : Clock σ) (client : Client σ)
    (c : ServiceAnalyticsCollector) (ctx : Context) (w : σ) (report : Report)
    (hq : (client.QueryMetricReport ctx (c.params (clock.now w)) w).1 = .ok report) :
    (c.Collect clock client ctx w).result =
      (if (c.collectRows report.Data).panicked then CallResult.panicked
        else CallResult.returned none) ∧
    (c.Collect clock client ctx w).effects =
      AnalyticsEffect.query (c.params (clock.now w)) :: (c.collectRows report.Data).effects := by
  simp [ServiceAnalyticsCollector.Collect, hq]

/-- A call whose query fails: the query alone, and the wrapped error. -/
theorem collect_of_error {σ : Type} (clock : Clock σ) (client : Client σ)
    (c : ServiceAnalyticsCollector) (ctx : Context) (w : σ) (err : GoError)
    (hq : (client.QueryMetricReport ctx (c.params (clock.now w)) w).1 = .error err) :
    (c.Collect clock client ctx w).result =
      CallResult.returned (some (errorsWrap err "query metric report")) ∧
    (c.Collect clock client ctx w).effects =
      [AnalyticsEffect.query (c.params (clock.now w))] := by
  simp [ServiceAnalyticsCollector.Collect, hq]

/-- Claim C14 as the code has it: with a collector whose gauge map lacks a
configured name, a pair whose lookup by name succeeds gets no observation;
the call panics on the nil gauge and nothing is emitted for the row. -/
theorem collect_panics_on_missing_gauge :
    (sampleRow.GetMetricByName ReportMetricIncidentUpTimePct).2 = none ∧
    ((NewServiceAnalyticsCollector [] [ReportMetricIncidentUpTimePct] 3600000000000).Collect
      sampleClock (sampleClient [sampleRow] []) ⟨false⟩ 0).result = CallResult.panicked ∧
    samples ((NewServiceAnalyticsCollector [] [ReportMetricIncidentUpTimePct]
      3600000000000).Collect sampleClock (sampleClient [sampleRow] []) ⟨false⟩ 0).effects = [] := by
  refine ⟨by decide, by decide, by decide⟩

/-- Claim C14, amended: for every successfully fetched report and every
configured name list whose names with a successful lookup have a gauge in the
collector, `Collect` returns nil after the query and, row by row and name by
name in order, one observation with the looked-up value for each pair whose
lookup succeeds and one skip line and no observation for each pair whose
lookup fails. -/
theorem collect_observes_each_pair {σ : Type} (clock : Clock σ) (client : Client σ)
    (c : ServiceAnalyticsCollector) (ctx : Context) (w : σ) (report : Report)
    (hq : (client.QueryMetricReport ctx (c.params (clock.now w)) w).1 = .ok report)
    (hg : ∀ row ∈ report.Data, ∀ n ∈ c.metricNames,
      (row.GetMetricByName n).2 = none → c.metrics.get n ≠ none) :
    (c.Collect clock client ctx w).result = CallResult.returned none ∧
    (c.Collect clock client ctx w).effects =
      AnalyticsEffect.query (c.params (clock.now w)) ::
        report.Data.flatMap (fun row => c.metricNames.map (c.pairEffect row)) ∧
    samples (c.Collect clock client ctx w).effects =
      report.Data.flatMap (fun row =>
        (c.metricNames.filter fun n => (row.GetMetricByName n).2.isNone).map
          (c.pairSample row)) ∧
    skips (c.Collect clock client ctx w).effects =
      report.Data.flatMap (fun row =>
        c.metricNames.filter fun n => (row.GetMetricByName n).2.isSome) := by
  obtain ⟨h1, h2⟩ := collect_of_report clock client c ctx w report hq
  obtain ⟨h3, h4⟩ := collectRows_of_gauges c report.Data hg
  rw [h3] at h1
  rw [h4] at h2
  refine ⟨by simpa using h1, h2, ?_, ?_⟩
  · rw [h2]
    simp only [samples]
    generalize report.Data = rows
    induction rows with
    | nil => rfl
    | cons row rest ih =>
      simp only [List.flatMap_cons, samples_append, samples_pairEffects, ih]
  · rw [h2]
    simp only [skips]
    generalize report.Data = rows
    induction rows with
    | nil => rfl
    | cons row rest ih =>
      simp only [List.flatMap_cons, skips_append, skips_pairEffects, ih]

theorem collect_observes_each_pair_witness :
    samples (sampleAnalyticsCollector.Collect sampleClock (sampleClient [sampleRow, {}] [])
      ⟨false⟩ 0).effects =
      [sampleAnalyticsCollector.pairSample sampleRow ReportMetricIncidentUpTimePct,
        sampleAnalyticsCollector.pairSample {} ReportMetricIncidentUpTimePct] ∧
    skips (sampleAnalyticsCollector.Collect sampleClock (sampleClient [sampleRow, {}] [])
      ⟨false⟩ 0).effects = ["no_such_metric", "no_such_metric"] :=
  ⟨(collect_observes_each_pair sampleClock (sampleClient [sampleRow, {}] [])
      sampleAnalyticsCollector ⟨false⟩ 0 { Data := [sampleRow, {}] } rfl (by decide)).2.2.1,
    (collect_observes_each_pair sampleClock (sampleClient [sampleRow, {}] [])
      sampleAnalyticsCollector ⟨false⟩ 0 { Data := [sampleRow, {}] } rfl (by decide)).2.2.2⟩

/-- Claim C15 as the code has it: the query succeeds and the lookup misses
nothing, yet the call does not return nil: a configured name without a gauge
makes it panic. -/
theorem collect_without_gauge_does_not_return :
    ((sampleClient [{}] []).QueryMetricReport ⟨false⟩
      ((NewServiceAnalyticsCollector sampleMetrics [ReportMetricIncidentCount] 60000000000).params
        (sampleClock.now 2)) 2).1 = .ok { Data := [{}] } ∧
    ((NewServiceAnalyticsCollector sampleMetrics [ReportMetricIncidentCount] 60000000000).Collect
      sampleClock (sampleClient [{}] []) ⟨false⟩ 2).result ≠ CallResult.returned none := by
  refine ⟨rfl, by decide⟩

/-- Claim C15, amended: `Collect` returns a non-nil error if and only if the
upstream `QueryMetricReport` call returns an error; in that case the returned
error wraps the upstream error with the context "query metric report", the
query is the only effect and no observation is emitted; when the upstream
call succeeds and every configured name whose lookup succeeds on a row has a
gauge in the collector, it returns nil, whatever the number of lookup misses. -/
theorem collect_error_iff_query_error {σ : Type} (clock : Clock σ) (client : Client σ)
    (c : ServiceAnalyticsCollector) (ctx : Context) (w : σ) :
    ((∃ err, (c.Collect clock client ctx w).result = CallResult.returned (some err)) ↔
      ∃ err, (client.QueryMetricReport ctx (c.params (clock.now w)) w).1 = .error err) ∧
    (∀ err, (client.QueryMetricReport ctx (c.params (clock.now w)) w).1 = .error err →
      (c.Collect clock client ctx w).result =
        CallResult.returned (some ⟨"query metric report: " ++ err.msg⟩) ∧
      (c.Collect clock client ctx w).effects =
        [AnalyticsEffect.query (c.params (clock.now w))] ∧
      samples (c.Collect clock client ctx w).effects = []) ∧
    (∀ report, (client.QueryMetricReport ctx (c.params (clock.now w)) w).1 = .ok report →
      (∀ row ∈ report.Data, ∀ n ∈ c.metricNames,
        (row.GetMetricByName n).2 = none → c.metrics.get n ≠ none) →
      (c.Collect clock client ctx w).result = CallResult.returned none) := by
  refine ⟨?_, ?_, ?_⟩
  · constructor
    · rintro ⟨err, herr⟩
      cases hq : (client.QueryMetricReport ctx (c.params (clock.now w)) w).1 with
      | error e => exact ⟨e, rfl⟩
      | ok report =>
        rw [(collect_of_report clock client c ctx w report hq).1] at herr
        split at herr <;> cases herr
    · rintro ⟨err, hq⟩
      exact ⟨_, (collect_of_error clock client c ctx w err hq).1⟩
  · intro err hq
    obtain ⟨h1, h2⟩ := collect_of_error clock client c ctx w err hq
    refine ⟨h1, h2, ?_⟩
    rw [h2]
    rfl
  · intro report hq hg
    rw [(collect_of_report clock client c ctx w report hq).1,
      (collectRows_of_gauges c report.Data hg).1]
    rfl

theorem collect_error_iff_query_error_witness :
    (sampleAnalyticsCollector.Collect sampleClock (sampleClient [sampleRow] []) ⟨false⟩
      1).result = CallResult.returned (some ⟨"query metric report: upstream failed"⟩) ∧
    (sampleAnalyticsCollector.Collect sampleClock (sampleClient [sampleRow] []) ⟨false⟩
      2).result = CallResult.returned none :=
  ⟨((collect_error_iff_query_error sampleClock (sampleClient [sampleRow] [])
      sampleAnalyticsCollector ⟨false⟩ 1).2.1 ⟨"upstream failed"⟩ rfl).1,
    (collect_error_iff_query_error sampleClock (sampleClient [sampleRow] [])
      sampleAnalyticsCollector ⟨false⟩ 2).2.2 { Data := [sampleRow] } rfl (by decide)⟩

/-! ## Report window -/

/-- Claim C16 at a process whose local zone is three hours east of UTC, read
at 2024-01-01T12:00:00Z with a 24-hour interval: the query carries the time
zone "Etc/UTC", ends at the instant read and starts one interval earlier, but
`ReportTime.MarshalJSON` writes both ends as the local wall clock,
`2024-01-01T15:00:00` and `2023-12-31T15:00:00`, where the UTC rendering of
the same instants is `2024-01-01T12:00:00` and `2023-12-31T12:00:00`. -/
theorem report_window_serialised_in_local_zone :
    queries (sampleAnalyticsCollector.Collect sampleClock (sampleClient [] []) ⟨false⟩
      0).effects = [sampleAnalyticsCollector.params (sampleClock.now 0)] ∧
    (sampleAnalyticsCollector.params (sampleClock.now 0)).TimeZone = "Etc/UTC" ∧
    (sampleAnalyticsCollector.params (sampleClock.now 0)).Filters.CreatedAtEnd.instant =
      (sampleClock.now 0).instant ∧
    (sampleAnalyticsCollector.params (sampleClock.now 0)).Filters.CreatedAtEnd.instant -
      (sampleAnalyticsCollector.params (sampleClock.now 0)).Filters.CreatedAtStart.instant =
      sampleAnalyticsCollector.interval ∧
    ReportTime.jsonText (sampleAnalyticsCollector.params (sampleClock.now 0)).Filters.CreatedAtEnd =
      doubleQuote ++ "2024-01-01T15:00:00" ++ doubleQuote ∧
    ReportTime.jsonText
      (sampleAnalyticsCollector.params (sampleClock.now 0)).Filters.CreatedAtStart =
      doubleQuote ++ "2023-12-31T15:00:00" ++ doubleQuote ∧
    ReportTime.jsonText
      (sampleAnalyticsCollector.params (sampleClock.now 0)).Filters.CreatedAtEnd.UTC =
      doubleQuote ++ "2024-01-01T12:00:00" ++ doubleQuote ∧
    ReportTime.jsonText
      (sampleAnalyticsCollector.params (sampleClock.now 0)).Filters.CreatedAtStart.UTC =
      doubleQuote ++ "2023-12-31T12:00:00" ++ doubleQuote ∧
    (ReportTime.MarshalJSON
      (sampleAnalyticsCollector.params (sampleClock.now 0)).Filters.CreatedAtEnd).1 ≠
      (ReportTime.MarshalJSON
        (sampleAnalyticsCollector.params (sampleClock.now 0)).Filters.CreatedAtEnd.UTC).1 := by
  refine ⟨rfl, rfl, rfl, by decide, by decide, by decide, by decide, by decide, by decide⟩

/-! ## Labels of the observations -/

theorem collectRow_sample_labels (c : ServiceAnalyticsCollector) (labels : List (String × String))
    (srvMetrics : ReportItem) (names : List ReportMetricName) :
    ∀ s ∈ samples (c.collectRow labels srvMetrics names).effects, s.labels = labels := by
  induction names with
  | nil => simp [ServiceAnalyticsCollector.collectRow, samples]
  | cons n rest ih =>
    intro s hs
    cases herr : (srvMetrics.GetMetricByName n).2 with
    | some err =>
      simp only [ServiceAnalyticsCollector.collectRow, herr, samples] at hs
      exact ih s hs
    | none =>
      cases hget : c.metrics.get n with
      | none => simp [ServiceAnalyticsCollector.collectRow, herr, hget, samples] at hs
      | some gauge =>
        simp only [ServiceAnalyticsCollector.collectRow, herr, hget, samples,
          List.mem_cons] at hs
        rcases hs with rfl | hs
        · rfl
        · exact ih s hs

theorem collectRows_sample_labels (c : ServiceAnalyticsCollector) (rows : List ReportItem) :
    ∀ s ∈ samples (c.collectRows rows).effects, ∃ row ∈ rows, s.labels = c.labels row := by
  induction rows with
  | nil => simp [ServiceAnalyticsCollector.collectRows, samples]
  | cons row rest ih =>
    intro s hs
    simp only [ServiceAnalyticsCollector.collectRows] at hs
    split at hs
    · exact ⟨row, List.mem_cons_self _ _, collectRow_sample_labels c _ row _ s hs⟩
    · simp only [samples_append, List.mem_append] at hs
      rcases hs with hs | hs
      · exact ⟨row, List.mem_cons_self _ _, collectRow_sample_labels c _ row _ s hs⟩
      · obtain ⟨r, hr, hl⟩ := ih s hs
        exact ⟨r, List.mem_cons_of_mem _ hr, hl⟩

/-- Every observation of a call carries the labels of a row of the report
the call fetched. -/
theorem collect_sample_labels {σ : Type} (clock : Clock σ) (client : Client σ)
    (c : ServiceAnalyticsCollector) (ctx : Context) (w : σ) :
    ∀ s ∈ samples (c.Collect clock client ctx w).effects,
      ∃ report, (client.QueryMetricReport ctx (c.params (clock.now w)) w).1 = .ok report ∧
        ∃ row ∈ report.Data, s.labels = c.labels row := by
  intro s hs
  cases hq : (client.QueryMetricReport ctx (c.params (clock.now w)) w).1 with
  | error err =>
    rw [(collect_of_error clock client c ctx w err hq).2] at hs
    simp [samples] at hs
  | ok report =>
    rw [(collect_of_report clock client c ctx w report hq).2] at hs
    simp only [samples] at hs
    exact ⟨report, rfl, collectRows_sample_labels c report.Data s hs⟩

/-- The observations of the inner loop are the first ones of the list that
pairs, for each name whose lookup succeeds on the row, the looked-up value
with the given labels; all of that list when the loop does not panic. -/
theorem collectRow_samples_prefix (c : ServiceAnalyticsCollector) (srvMetrics : ReportItem)
    (names : List ReportMetricName) :
    samples (c.collectRow (c.labels srvMetrics) srvMetrics names).effects <+:
      (names.filter fun n => (srvMetrics.GetMetricByName n).2.isNone).map
        (c.pairSample srvMetrics) ∧
    ((c.collectRow (c.labels srvMetrics) srvMetrics names).panicked = false →
      samples (c.collectRow (c.labels srvMetrics) srvMetrics names).effects =
        (names.filter fun n => (srvMetrics.GetMetricByName n).2.isNone).map
          (c.pairSample srvMetrics)) := by
  induction names with
  | nil => simp [ServiceAnalyticsCollector.collectRow, samples]
  | cons n rest ih =>
    obtain ⟨ih1, ih2⟩ := ih
    cases herr : (srvMetrics.GetMetricByName n).2 with
    | some err =>
      simp only [ServiceAnalyticsCollector.collectRow, herr, samples, List.filter_cons,
        Option.isNone_some, Bool.false_eq_true, if_false]
      exact ⟨ih1, ih2⟩
    | none =>
      cases hget : c.metrics.get n with
      | none =>
        simp [ServiceAnalyticsCollector.collectRow, herr, hget, samples]
      | some gauge =>
        have hs : c.pairSample srvMetrics n =
            { metric := gauge.name, labels := c.labels srvMetrics,
              value := (srvMetrics.GetMetricByName n).1 } := by
          simp [ServiceAnalyticsCollector.pairSample, ServiceAnalyticsCollector.gaugeName, hget]
        simp only [ServiceAnalyticsCollector.collectRow, herr, hget, samples, List.filter_cons,
          Option.isNone_none, if_true, List.map_cons, hs]
        refine ⟨?_, ?_⟩
        · exact (List.prefix_cons_inj _).mpr ih1
        · intro hp
          rw [ih2 hp]

/-- The observations of the outer loop are the first ones of the list that
goes through the rows in order and pairs each row's looked-up values with
that row's labels; all of that list when the loop does not panic. -/
theorem collectRows_samples_prefix (c : ServiceAnalyticsCollector) (rows : List ReportItem) :
    samples (c.collectRows rows).effects <+:
      rows.flatMap (fun row =>
        (c.metricNames.filter fun n => (row.GetMetricByName n).2.isNone).map
          (c.pairSample row)) ∧
    ((c.collectRows rows).panicked = false →
      samples (c.collectRows rows).effects =
        rows.flatMap (fun row =>
          (c.metricNames.filter fun n => (row.GetMetricByName n).2.isNone).map
            (c.pairSample row))) := by
  induction rows with
  | nil => simp [ServiceAnalyticsCollector.collectRows, samples]
  | cons row rest ih =>
    obtain ⟨ih1, ih2⟩ := ih
    obtain ⟨h1, h2⟩ := collectRow_samples_prefix c row c.metricNames
    cases hp : (c.collectRow (c.labels row) row c.metricNames).panicked with
    | true =>
      simp only [ServiceAnalyticsCollector.collectRows, hp, if_true, List.flatMap_cons]
      exact ⟨h1.trans (List.prefix_append _ _), fun h => by cases h⟩
    | false =>
      simp only [ServiceAnalyticsCollector.collectRows, hp, Bool.false_eq_true, if_false,
        List.flatMap_cons, samples_append, h2 hp]
      exact ⟨(List.prefix_append_right_inj _).mpr ih1, fun h => by rw [ih2 h]⟩

/-- Claim C17: the observations `Collect` emits for a fetched report are, in
order, the first ones of the list that goes through the rows and, for each
configured name whose lookup succeeds on the row, sets the gauge of that name
to the value looked up in that row, labelled with that same row's service id,
that same row's service name and the textual form of the collector's
interval (all of that list when the call returns nil, and none when the query
fails); the textual form is injective on durations; so observations of two
collectors whose intervals differ never have the same metric and label set. -/
theorem observations_labelled_by_interval :
    (∀ {σ : Type} (clock : Clock σ) (client : Client σ) (c : ServiceAnalyticsCollector)
      (ctx : Context) (w : σ) (report : Report),
      (client.QueryMetricReport ctx (c.params (clock.now w)) w).1 = .ok report →
      samples (c.Collect clock client ctx w).effects <+:
        report.Data.flatMap (fun row =>
          (c.metricNames.filter fun n => (row.GetMetricByName n).2.isNone).map fun n =>
            { metric := c.gaugeName n
              labels := [("service_id", row.ServiceID), ("service_name", row.ServiceName),
                ("report_interval", Duration.String c.interval)]
              value := (row.GetMetricByName n).1 }) ∧
      ((c.Collect clock client ctx w).result = CallResult.returned none →
        samples (c.Collect clock client ctx w).effects =
          report.Data.flatMap (fun row =>
            (c.metricNames.filter fun n => (row.GetMetricByName n).2.isNone).map fun n =>
              { metric := c.gaugeName n
                labels := [("service_id", row.ServiceID), ("service_name", row.ServiceName),
                  ("report_interval", Duration.String c.interval)]
                value := (row.GetMetricByName n).1 }))) ∧
    (∀ {σ : Type} (clock : Clock σ) (client : Client σ) (c : ServiceAnalyticsCollector)
      (ctx : Context) (w : σ) (err : GoError),
      (client.QueryMetricReport ctx (c.params (clock.now w)) w).1 = .error err →
      samples (c.Collect clock client ctx w).effects = []) ∧
    Function.Injective Duration.String ∧
    (∀ {σ τ : Type} (clock1 : Clock σ) (client1 : Client σ) (clock2 : Clock τ)
      (client2 : Client τ) (c1 c2 : ServiceAnalyticsCollector) (ctx1 ctx2 : Context)
      (w1 : σ) (w2 : τ),
      c1.interval ≠ c2.interval →
      ∀ s1 ∈ samples (c1.Collect clock1 client1 ctx1 w1).effects,
      ∀ s2 ∈ samples (c2.Collect clock2 client2 ctx2 w2).effects,
        (s1.metric, s1.labels) ≠ (s2.metric, s2.labels)) := by
  refine ⟨?_, ?_, durationString_injective, ?_⟩
  · intro σ clock client c ctx w report hq
    obtain ⟨h1, h2⟩ := collect_of_report clock client c ctx w report hq
    obtain ⟨h3, h4⟩ := collectRows_samples_prefix c report.Data
    rw [h2]
    simp only [samples]
    refine ⟨h3, ?_⟩
    intro hres
    apply h4
    rw [h1] at hres
    cases hp : (c.collectRows report.Data).panicked with
    | false => rfl
    | true =>
      rw [hp] at hres
      cases hres
  · intro σ clock client c ctx w err hq
    rw [(collect_of_error clock client c ctx w err hq).2]
    rfl
  · intro σ τ clock1 client1 clock2 client2 c1 c2 ctx1 ctx2 w1 w2 hne s1 hs1 s2 hs2 heq
    obtain ⟨_, _, row1, _, hl1⟩ := collect_sample_labels clock1 client1 c1 ctx1 w1 s1 hs1
    obtain ⟨_, _, row2, _, hl2⟩ := collect_sample_labels clock2 client2 c2 ctx2 w2 s2 hs2
    have hlab : s1.labels = s2.labels := (Prod.mk.inj heq).2
    rw [hl1, hl2] at hlab
    simp only [ServiceAnalyticsCollector.labels, List.cons.injEq, Prod.mk.injEq, true_and,
      and_true] at hlab
    exact hne (durationString_injective hlab.2.2)

theorem observations_labelled_by_interval_witness :
    samples (sampleAnalyticsCollector.Collect sampleClock
        (sampleClient [sampleRow, sampleOtherRow] []) ⟨false⟩ 0).effects =
      [{ metric := "pagerduty_service_up_time_pct"
         labels := [("service_id", "S1"), ("service_name", "api"),
           ("report_interval", Duration.String 86400000000000)]
         value := ⟨4636737291354636288⟩ },
       { metric := "pagerduty_service_up_time_pct"
         labels := [("service_id", "S2"), ("service_name", "web"),
           ("report_interval", Duration.String 86400000000000)]
         value := ⟨4636033603912859648⟩ }] ∧
    ((sampleAnalyticsCollector.pairSample sampleRow ReportMetricIncidentUpTimePct).metric,
      (sampleAnalyticsCollector.pairSample sampleRow ReportMetricIncidentUpTimePct).labels) ≠
    ((sampleHourlyCollector.pairSample sampleRow ReportMetricIncidentUpTimePct).metric,
      (sampleHourlyCollector.pairSample sampleRow ReportMetricIncidentUpTimePct).labels) :=
  ⟨(observations_labelled_by_interval.1 sampleClock (sampleClient [sampleRow, sampleOtherRow] [])
      sampleAnalyticsCollector ⟨false⟩ 0 { Data := [sampleRow, sampleOtherRow] } rfl).2 rfl,
    observations_labelled_by_interval.2.2.2 sampleClock (sampleClient [sampleRow] []) sampleClock
      (sampleClient [sampleRow] []) sampleAnalyticsCollector sampleHourlyCollector ⟨false⟩
      ⟨false⟩ 0 2 (by decide) _ (List.mem_cons_self _ _) _ (List.mem_cons_self _ _)⟩

/-! ## Users collector -/

/-- The page requests of the loop started at `listOpts`: all carry its limit
and query, the first is `listOpts` itself, and each later one follows a page
that announced more, at the previous offset advanced by the limit that page
reported. -/
theorem collectLoop_requests {σ : Type} (client : Client σ) (c : UsersCollector)
    (ctx : Context) (fuel : Nat) (listOpts : ListUsersOptions) (w : σ) :
    (∀ r ∈ (c.collectLoop client ctx fuel listOpts w).requests,
      r.Limit = listOpts.Limit ∧ r.Query = listOpts.Query) ∧
    (∀ r, (c.collectLoop client ctx fuel listOpts w).requests.get? 0 = some r → r = listOpts) ∧
    (∀ k r', (c.collectLoop client ctx fuel listOpts w).requests.get? (k + 1) = some r' →
      ∃ r p, (c.collectLoop client ctx fuel listOpts w).requests.get? k = some r ∧
        (c.collectLoop client ctx fuel listOpts w).responses.get? k = some p ∧
        p.More = true ∧ r'.Offset = (r.Offset + p.Limit) % uintSize) := by
  induction fuel generalizing listOpts w with
  | zero => simp [UsersCollector.collectLoop]
  | succ fuel ih =>
    cases hres : (client.ListUsersWithContext ctx listOpts w).1 with
    | error err => simp [UsersCollector.collectLoop, hres]
    | ok list =>
      cases hmore : list.More with
      | false => simp [UsersCollector.collectLoop, hres, hmore]
      | true =>
        obtain ⟨ih1, ih2, ih3⟩ :=
          ih { listOpts with Offset := (listOpts.Offset + list.Limit) % uintSize }
            (client.ListUsersWithContext ctx listOpts w).2
        simp only [UsersCollector.collectLoop, hres, hmore, Bool.not_true, Bool.false_eq_true,
          if_false]
        refine ⟨?_, ?_, ?_⟩
        · intro r hr
          rcases List.mem_cons.mp hr with rfl | hr
          · exact ⟨rfl, rfl⟩
          · exact ih1 r hr
        · intro r hr
          simpa using hr.symm
        · intro k r' hr'
          cases k with
          | zero =>
            have := ih2 r' (by simpa using hr')
            exact ⟨listOpts, list, rfl, rfl, hmore, by rw [this]⟩
          | succ k =>
            obtain ⟨r, p, h1, h2, h3, h4⟩ := ih3 k r' (by simpa using hr')
            exact ⟨r, p, by simpa using h1, by simpa using h2, h3, h4⟩

/-- Claim C18 as the code has it: a provider whose first page reports the
limit 25 and announces more gets its second request at offset 25, not 100. -/
theorem second_request_follows_reported_limit :
    (sampleUsersCollector.Collect (sampleClient [] cappedPages) ⟨false⟩ 5 0).requests =
      [{ Limit := 100, Offset := 0 }, { Limit := 100, Offset := 25 }] := by
  decide

/-- Claim C18, amended: in `UsersCollector.Collect` every page request
carries the fixed page size 100 as its limit, the first request has offset 0,
and each later request's offset equals the previous request's offset plus the
limit reported in the previous response (wrapping at the size of `uint`), for
every sequence of provider responses; when every response reports the limit
100, the k-th request (k from 0) has offset 100*k, wrapped likewise. -/
theorem users_requests_advance_by_reported_limit {σ : Type} (client : Client σ)
    (c : UsersCollector) (ctx : Context) (fuel : Nat) (w : σ) :
    (∀ r ∈ (c.Collect client ctx fuel w).requests, r.Limit = 100) ∧
    (∀ r, (c.Collect client ctx fuel w).requests.get? 0 = some r → r.Offset = 0) ∧
    (∀ k r', (c.Collect client ctx fuel w).requests.get? (k + 1) = some r' →
      ∃ r p, (c.Collect client ctx fuel w).requests.get? k = some r ∧
        (c.Collect client ctx fuel w).responses.get? k = some p ∧
        p.More = true ∧ r'.Offset = (r.Offset + p.Limit) % uintSize) ∧
    ((∀ p ∈ (c.Collect client ctx fuel w).responses, p.Limit = 100) →
      ∀ k r, (c.Collect client ctx fuel w).requests.get? k = some r →
        r.Offset = (100 * k) % uintSize) := by
  obtain ⟨h1, h2, h3⟩ := collectLoop_requests client c ctx fuel { Limit := usersRequestLimit } w
  have h0 : ∀ r, (c.Collect client ctx fuel w).requests.get? 0 = some r → r.Offset = 0 := by
    intro r hr
    rw [h2 r hr]
  refine ⟨fun r hr => (h1 r hr).1, h0, h3, ?_⟩
  intro hlim k
  induction k with
  | zero =>
    intro r hr
    rw [h0 r hr]
    rfl
  | succ k ih =>
    intro r' hr'
    obtain ⟨r, p, hr, hp, _, hoff⟩ := h3 k r' hr'
    rw [hoff, ih r hr, hlim p (List.mem_iff_get?.mpr ⟨k, hp⟩)]
    simp only [uintSize]
    omega

theorem users_requests_advance_by_reported_limit_witness :
    (sampleUsersCollector.Collect (sampleClient [] samplePages) ⟨false⟩ 5 0).requests.get? 1 =
      some { Limit := 100, Offset := 100 } ∧
    ({ Limit := 100, Offset := 100 } : ListUsersOptions).Offset = (100 * 1) % uintSize :=
  ⟨by decide,
    (users_requests_advance_by_reported_limit (sampleClient [] samplePages) sampleUsersCollector
      ⟨false⟩ 5 0).2.2.2 (by decide) 1 { Limit := 100, Offset := 100 } (by decide)⟩

/-- The loop started at `listOpts` against a provider that serves `pages` and
then a page without more: with fuel for every page it returns nil after one
request per page, having observed every user of every page in order. -/
theorem collectLoop_of_pages {σ : Type} (client : Client σ) (c : UsersCollector)
    (ctx : Context) (pages : List ListUsersResponse) (last : ListUsersResponse) (fuel : Nat)
    (listOpts : ListUsersOptions) (w : σ)
    (hserve : ServesPages client ctx listOpts w (pages ++ [last]))
    (hmore : ∀ p ∈ pages, p.More = true) (hlast : last.More = false)
    (hfuel : pages.length + 1 ≤ fuel) :
    (c.collectLoop client ctx fuel listOpts w).result = some none ∧
    (c.collectLoop client ctx fuel listOpts w).requests.length = pages.length + 1 ∧
    (c.collectLoop client ctx fuel listOpts w).responses = pages ++ [last] ∧
    (c.collectLoop client ctx fuel listOpts w).observations =
      (pages ++ [last]).flatMap fun p => p.Users.map c.userObservation := by
  induction pages generalizing fuel listOpts w with
  | nil =>
    obtain ⟨fuel, rfl⟩ : ∃ n, fuel = n + 1 := ⟨fuel - 1, by simp at hfuel; omega⟩
    simp only [List.nil_append, ServesPages, and_true] at hserve
    simp [UsersCollector.collectLoop, hserve, hlast]
  | cons page rest ih =>
    obtain ⟨fuel, rfl⟩ : ∃ n, fuel = n + 1 := ⟨fuel - 1, by simp at hfuel; omega⟩
    simp only [List.cons_append, ServesPages] at hserve
    obtain ⟨h1, h2, h3, h4⟩ := ih fuel _ _ hserve.2
      (fun p hp => hmore p (List.mem_cons_of_mem _ hp)) (by simp at hfuel ⊢; omega)
    have hpage : page.More = true := hmore page (List.mem_cons_self _ _)
    simp [UsersCollector.collectLoop, hserve.1, hpage, h1, h2, h3, h4]

/-- Claim C19: for every provider that answers without error with pages
p1..pk where the more flag is true on p1..p(k-1) and false on pk,
`UsersCollector.Collect` (given room for at least k requests) returns nil
after exactly k requests, having received exactly those pages and set the
presence gauge to 1 once for every user on every one of them, in order, each
labelled with the user's id, name, email, avatar URL, color, job title and
role. -/
theorem users_collect_follows_pages {σ : Type} (client : Client σ) (c : UsersCollector)
    (ctx : Context) (pages : List ListUsersResponse) (last : ListUsersResponse) (fuel : Nat)
    (w : σ)
    (hserve : ServesPages client ctx { Limit := usersRequestLimit } w (pages ++ [last]))
    (hmore : ∀ p ∈ pages, p.More = true) (hlast : last.More = false)
    (hfuel : pages.length + 1 ≤ fuel) :
    (c.Collect client ctx fuel w).result = some none ∧
    (c.Collect client ctx fuel w).requests.length = pages.length + 1 ∧
    (c.Collect client ctx fuel w).responses = pages ++ [last] ∧
    (c.Collect client ctx fuel w).observations =
      (pages ++ [last]).flatMap (fun p => p.Users.map fun user =>
        { metric := c.usersGauge.name
          labels := [("id", user.ID), ("name", user.Name), ("mail", user.Email),
            ("avatar", user.AvatarURL), ("color", user.Color), ("job_title", user.JobTitle),
            ("role", user.Role)]
          value := 1 }) :=
  collectLoop_of_pages client c ctx pages last fuel { Limit := usersRequestLimit } w hserve
    hmore hlast hfuel

theorem users_collect_follows_pages_witness :
    (sampleUsersCollector.Collect (sampleClient [] samplePages) ⟨false⟩ 7 0).result = some none ∧
    (sampleUsersCollector.Collect (sampleClient [] samplePages) ⟨false⟩ 7 0).requests.length =
      2 ∧
    (sampleUsersCollector.Collect (sampleClient [] samplePages) ⟨false⟩ 7 0).observations =
      [sampleUsersCollector.userObservation sampleUserAnn,
        sampleUsersCollector.userObservation sampleUserBob] :=
  have h := users_collect_follows_pages (sampleClient [] samplePages) sampleUsersCollector
    ⟨false⟩ [{ Limit := 100, Offset := 0, More := true, Users := [sampleUserAnn] }]
    { Limit := 100, Offset := 100, More := false, Users := [sampleUserBob] } 7 0
    ⟨rfl, rfl, trivial⟩ (by decide) rfl (by decide)
  ⟨h.1, h.2.1, h.2.2.2⟩

/-! ## Wired configuration -/

theorem lookup_filter_ne (m : ServiceAnalyticMetrics) (k k' : ReportMetricName) :
    (m.filter fun e => e.1 != k).lookup k' = if k' = k then none else m.lookup k' := by
  induction m with
  | nil => simp
  | cons e rest ih =>
    obtain ⟨a, g⟩ := e
    by_cases hak : a = k
    · subst hak
      by_cases hk : k' = a
      · simp [hk] at ih ⊢
        simpa [hk] using ih
      · have hne : (k' == a) = false := by simpa using hk
        simp only [List.filter, bne_self_eq_false, ih, hk, if_false, List.lookup, hne]
    · have hne : (a != k) = true := by simpa using hak
      simp only [List.filter, hne, List.lookup, ih]
      by_cases hk : k' = k
      · have hka : (k' == a) = false := by
          simp only [beq_eq_false_iff_ne, ne_eq]
          rw [hk]
          exact fun h => hak h.symm
        simp [hk, hka]
        rw [← hk, hka]
      · cases hka : k' == a <;> simp [hk]

/-- The map read after an assignment. -/
theorem get_assign (m : ServiceAnalyticMetrics) (k k' : ReportMetricName) (g : MetricVec) :
    (m.assign k g).get k' = if k' = k then some g else m.get k' := by
  by_cases hk : k' = k
  · simp [ServiceAnalyticMetrics.assign, ServiceAnalyticMetrics.get, List.lookup, hk]
  · have hne : (k' == k) = false := by simpa using hk
    simp only [ServiceAnalyticMetrics.assign, ServiceAnalyticMetrics.get, List.lookup, hne,
      lookup_filter_ne, hk, if_false]

/-- A registration loop that returns has registered the gauge of every name,
in order, and left the gauge of every name in the map. -/
theorem registerServiceAnalyticMetrics_returned (names : List ReportMetricName)
    (gaugeMetrics m : ServiceAnalyticMetrics) (r r' : Registry)
    (h : registerServiceAnalyticMetrics gaugeMetrics r names = Outcome.returned (m, r')) :
    r'.registered = r.registered ++ names.map serviceAnalyticGauge ∧
    ∀ n, m.get n = if n ∈ names then some (serviceAnalyticGauge n) else gaugeMetrics.get n := by
  induction names generalizing gaugeMetrics r with
  | nil =>
    simp only [registerServiceAnalyticMetrics, Outcome.returned.injEq, Prod.mk.injEq] at h
    simp [← h.1, ← h.2]
  | cons mn rest ih =>
    simp only [registerServiceAnalyticMetrics] at h
    cases hreg : r.MustRegister [serviceAnalyticGauge mn] with
    | panicked msg =>
      rw [hreg] at h
      cases h
    | returned r1 =>
      rw [hreg] at h
      obtain ⟨h1, h2⟩ := ih _ _ h
      refine ⟨?_, ?_⟩
      · rw [h1, mustRegister_returned _ _ _ hreg]
        simp
      · intro n
        rw [h2 n, get_assign]
        by_cases hn : n ∈ rest
        · simp [hn]
        · by_cases hmn : n = mn
          · simp [hmn]
          · simp [hn, hmn]

/-- A name resolution without error has seen names of the closed set only and
returns them as configured. -/
theorem resolveReportMetricNames_of_no_error (opts : Options)
    (h : (resolveReportMetricNames opts).2 = none) :
    (∀ n ∈ opts.AnalyticsServiceMetricNames, n ∈ reportMetricNames) ∧
    resolveReportMetricNames opts = (some opts.AnalyticsServiceMetricNames, none) := by
  have hall : ∀ n ∈ opts.AnalyticsServiceMetricNames, n ∈ reportMetricNames := by
    by_contra hne
    push_neg at hne
    obtain ⟨n, _, _, hres⟩ := resolveNamesFrom_of_unknown opts.AnalyticsServiceMetricNames [] hne
    rw [resolveReportMetricNames, hres] at h
    cases h
  refine ⟨hall, ?_⟩
  have := resolveNamesFrom_of_all_mem opts.AnalyticsServiceMetricNames [] hall
  simpa [resolveReportMetricNames] using this

/-- What a wiring that returns without error has done: the process metrics,
the gauges of the configured names and the users gauge are registered in that
order, and the collectors are the two schedulers. -/
theorem resolvePagerdutyMetricCollectors_returned (registerer : Registry) (opts : Options)
    (res : ResolvedCollectors)
    (h : resolvePagerdutyMetricCollectors registerer opts = Outcome.returned res)
    (herr : res.err = none) :
    ∃ cpm r1 m r2 uc,
      RegisterCollectProcessMetrics registerer = Outcome.returned (cpm, r1) ∧
      (resolveReportMetricNames opts).2 = none ∧
      RegisterServiceAnalyticMetricsFromNames r1 opts.AnalyticsServiceMetricNames =
        Outcome.returned (m, r2) ∧
      NewUsersCollector r2 = Outcome.returned (uc, res.registerer) ∧
      res.collectors =
        [Collector.periodic opts.AnalyticsScrapeInterval
          (opts.AnalyticsReportPeriods.map fun period =>
            Collector.graceful "service_analytics"
              (Collector.serviceAnalytics
                (NewServiceAnalyticsCollector m opts.AnalyticsServiceMetricNames period))),
          Collector.periodic opts.UsersScrapeInterval
            [Collector.graceful "users" (Collector.users uc)]] := by
  unfold resolvePagerdutyMetricCollectors at h
  cases hcpm : RegisterCollectProcessMetrics registerer with
  | panicked msg =>
    rw [hcpm] at h
    cases h
  | returned p =>
    obtain ⟨cpm, r1⟩ := p
    rw [hcpm] at h
    simp only at h
    cases hres : (resolveReportMetricNames opts).2 with
    | some err =>
      rw [hres] at h
      simp only [Outcome.returned.injEq] at h
      rw [← h] at herr
      cases herr
    | none =>
      rw [hres] at h
      simp only at h
      have hnames := (resolveReportMetricNames_of_no_error opts hres).2
      rw [hnames] at h
      simp only [Option.getD_some] at h
      cases hreg : RegisterServiceAnalyticMetricsFromNames r1 opts.AnalyticsServiceMetricNames with
      | panicked msg =>
        rw [hreg] at h
        cases h
      | returned q =>
        obtain ⟨m, r2⟩ := q
        rw [hreg] at h
        simp only at h
        cases husers : NewUsersCollector r2 with
        | panicked msg =>
          rw [husers] at h
          cases h
        | returned u =>
          obtain ⟨uc, r3⟩ := u
          rw [husers] at h
          simp only [Outcome.returned.injEq] at h
          subst h
          exact ⟨cpm, r1, m, r2, uc, rfl, rfl, hreg, husers, rfl⟩

theorem usersCollector_registered (r r' : Registry) (uc : UsersCollector)
    (h : NewUsersCollector r = Outcome.returned (uc, r')) :
    r'.registered = r.registered ++ [usersGaugeVec] := by
  unfold NewUsersCollector at h
  cases hreg : r.MustRegister [usersGaugeVec] with
  | panicked msg =>
    rw [hreg] at h
    cases h
  | returned r1 =>
    rw [hreg] at h
    simp only [Outcome.returned.injEq, Prod.mk.injEq] at h
    rw [← h.2]
    exact mustRegister_returned _ _ _ hreg

/-- Claim C21: when `resolvePagerdutyMetricCollectors` returns without error,
the service analytics collectors it wired are one per configured report
period, each with the configured names (the output of a successful
`resolveReportMetricNames`) and the gauge map that
`RegisterServiceAnalyticMetricsFromNames` built from that same list; for each
of them every name has its registered gauge in the map and the lookup by name
succeeds on every row, so `Collect` never logs a skip and never panics, and
for every fetched report it returns nil after exactly one observation per
(row, name) pair: |rows| x |names| observations. -/
theorem wired_collect_observes_every_pair (registerer : Registry) (opts : Options)
    (res : ResolvedCollectors)
    (hwired : resolvePagerdutyMetricCollectors registerer opts = Outcome.returned res)
    (herr : res.err = none) :
    (res.collectors.flatMap Collector.serviceAnalyticsCollectors).map
      ServiceAnalyticsCollector.interval = opts.AnalyticsReportPeriods ∧
    ∀ c ∈ res.collectors.flatMap Collector.serviceAnalyticsCollectors,
      resolveReportMetricNames opts = (some c.metricNames, none) ∧
      (∃ r1 r2, RegisterServiceAnalyticMetricsFromNames r1 c.metricNames =
        Outcome.returned (c.metrics, r2)) ∧
      (∀ n ∈ c.metricNames,
        c.metrics.get n = some (serviceAnalyticGauge n) ∧
        serviceAnalyticGauge n ∈ res.registerer.registered) ∧
      (∀ (row : ReportItem), ∀ n ∈ c.metricNames,
        (row.GetMetricByName n).2 = none ∧
        (c.labels row).map Prod.fst = (serviceAnalyticGauge n).labelNames) ∧
      ∀ {σ : Type} (clock : Clock σ) (client : Client σ) (ctx : Context) (w : σ),
        skips (c.Collect clock client ctx w).effects = [] ∧
        (c.Collect clock client ctx w).result ≠ CallResult.panicked ∧
        ∀ report, (client.QueryMetricReport ctx (c.params (clock.now w)) w).1 = .ok report →
          (c.Collect clock client ctx w).result = CallResult.returned none ∧
          samples (c.Collect clock client ctx w).effects =
            report.Data.flatMap (fun row => c.metricNames.map fun n =>
              { metric := prepareMetricName n
                labels := c.labels row
                value := (row.GetMetricByName n).1 }) ∧
          (samples (c.Collect clock client ctx w).effects).length =
            report.Data.length * c.metricNames.length := by
  obtain ⟨cpm, r1, m, r2, uc, _, hres, hreg, husers, hcols⟩ :=
    resolvePagerdutyMetricCollectors_returned registerer opts res hwired herr
  obtain ⟨hall, hnames⟩ := resolveReportMetricNames_of_no_error opts hres
  obtain ⟨hr2, hget⟩ := registerServiceAnalyticMetrics_returned _ _ _ _ _ hreg
  have hr3 := usersCollector_registered _ _ _ husers
  have hlist : res.collectors.flatMap Collector.serviceAnalyticsCollectors =
      opts.AnalyticsReportPeriods.map fun period =>
        NewServiceAnalyticsCollector m opts.AnalyticsServiceMetricNames period := by
    rw [hcols]
    simp only [List.flatMap_cons, List.flatMap_nil, Collector.serviceAnalyticsCollectors,
      List.filterMap_map, List.filterMap_cons, List.filterMap_nil, List.append_nil]
    rw [← List.filterMap_eq_map]
    rfl
  rw [hlist]
  refine ⟨by simp [NewServiceAnalyticsCollector, Function.comp_def], ?_⟩
  intro c hc
  obtain ⟨period, _, rfl⟩ := List.mem_map.mp hc
  have hgauge : ∀ n ∈ opts.AnalyticsServiceMetricNames,
      m.get n = some (serviceAnalyticGauge n) := by
    intro n hn
    rw [hget n, if_pos hn]
  have hlookup : ∀ (row : ReportItem), ∀ n ∈ opts.AnalyticsServiceMetricNames,
      (row.GetMetricByName n).2 = none :=
    fun row n hn => (getMetricByName_eq_lookup row n (hall n hn)).1
  refine ⟨hnames, ⟨r1, r2, hreg⟩, ?_, fun row n hn => ⟨hlookup row n hn, rfl⟩, ?_⟩
  · intro n hn
    refine ⟨hgauge n hn, ?_⟩
    rw [hr3, hr2]
    simp only [List.mem_append, List.mem_map]
    exact Or.inl (Or.inr ⟨n, hn, rfl⟩)
  · intro σ clock client ctx w
    have hg : ∀ (rows : List ReportItem), ∀ row ∈ rows,
        ∀ n ∈ (NewServiceAnalyticsCollector m opts.AnalyticsServiceMetricNames period).metricNames,
        (row.GetMetricByName n).2 = none →
        (NewServiceAnalyticsCollector m opts.AnalyticsServiceMetricNames period).metrics.get n ≠
          none := by
      intro rows row _ n hn _
      have := hgauge n hn
      simp only [NewServiceAnalyticsCollector] at hn ⊢
      rw [this]
      exact Option.some_ne_none _
    cases hq : (client.QueryMetricReport ctx
        ((NewServiceAnalyticsCollector m opts.AnalyticsServiceMetricNames period).params
          (clock.now w)) w).1 with
    | error err =>
      obtain ⟨h1, h2⟩ := collect_of_error clock client _ ctx w err hq
      have hskips : skips
          ((NewServiceAnalyticsCollector m opts.AnalyticsServiceMetricNames period).Collect
            clock client ctx w).effects = [] := by
        rw [h2]
        rfl
      have hres : ((NewServiceAnalyticsCollector m opts.AnalyticsServiceMetricNames period).Collect
          clock client ctx w).result ≠ CallResult.panicked := by
        rw [h1]
        intro h
        cases h
      refine ⟨hskips, hres, ?_⟩
      intro report hrep
      cases hrep
    | ok report =>
      obtain ⟨h1, h2⟩ := collect_of_report clock client _ ctx w report hq
      obtain ⟨h3, h4⟩ := collectRows_of_gauges _ report.Data (hg report.Data)
      rw [h3] at h1
      rw [h4] at h2
      have hsamples : samples
          ((NewServiceAnalyticsCollector m opts.AnalyticsServiceMetricNames period).Collect
            clock client ctx w).effects =
          report.Data.flatMap (fun row => opts.AnalyticsServiceMetricNames.map fun n =>
            { metric := prepareMetricName n
              labels :=
                (NewServiceAnalyticsCollector m opts.AnalyticsServiceMetricNames period).labels row
              value := (row.GetMetricByName n).1 }) := by
        rw [h2]
        simp only [samples]
        generalize report.Data = rows
        induction rows with
        | nil => rfl
        | cons row rest ih =>
          simp only [List.flatMap_cons, samples_append, samples_pairEffects, ih]
          congr 1
          rw [List.filter_eq_self.mpr (fun n hn => by simp [hlookup row n hn])]
          apply List.map_congr_left
          intro n hn
          simp [ServiceAnalyticsCollector.pairSample, ServiceAnalyticsCollector.gaugeName,
            NewServiceAnalyticsCollector, hgauge n hn, serviceAnalyticGauge]
      have hskips : skips
          ((NewServiceAnalyticsCollector m opts.AnalyticsServiceMetricNames period).Collect
            clock client ctx w).effects = [] := by
        rw [h2]
        simp only [skips]
        generalize report.Data = rows
        induction rows with
        | nil => rfl
        | cons row rest ih =>
          simp only [List.flatMap_cons, skips_append, skips_pairEffects, ih, List.append_nil]
          rw [List.filter_eq_nil_iff]
          intro n hn
          simp [hlookup row n hn]
      have hnil : ((NewServiceAnalyticsCollector m opts.AnalyticsServiceMetricNames period).Collect
          clock client ctx w).result = CallResult.returned none := by
        simpa using h1
      have hres : ((NewServiceAnalyticsCollector m opts.AnalyticsServiceMetricNames period).Collect
          clock client ctx w).result ≠ CallResult.panicked := by
        rw [hnil]
        intro h
        cases h
      refine ⟨hskips, hres, ?_⟩
      intro report' hrep
      cases hrep
      refine ⟨hnil, hsamples, ?_⟩
      rw [hsamples]
      generalize report.Data = rows
      induction rows with
      | nil => simp
      | cons row rest ih =>
        simp only [List.flatMap_cons, List.length_append, List.length_map, List.length_cons, ih]
        simp only [NewServiceAnalyticsCollector]
        rw [Nat.add_mul, Nat.one_mul, Nat.add_comm]

theorem wired_collect_observes_every_pair_witness :
    (samples (sampleWiredCollector.Collect sampleClock (sampleClient [sampleRow, {}] [])
      ⟨false⟩ 0).effects).length = 2 * 5 ∧
    skips (sampleWiredCollector.Collect sampleClock (sampleClient [sampleRow, {}] [])
      ⟨false⟩ 0).effects = [] :=
  have h := ((wired_collect_observes_every_pair {} {} _ rfl rfl).2 sampleWiredCollector
    (List.mem_cons_self _ _)).2.2.2.2 sampleClock (sampleClient [sampleRow, {}] []) ⟨false⟩ 0
  ⟨(h.2.2 { Data := [sampleRow, {}] } rfl).2.2, h.1⟩

end PagerdutyExporter
